import Mathlib

/-!
FlexEngine renderer core: a verification development.

Shallow embedding of parts of `FlexEngine/src/Graphics/Renderer.cpp`:

* the atlas layout loop of `Renderer::LoadFontMetrics`,
* the point light table (`RegisterPointLight`, `RemovePointLight`,
  `RemoveAllPointLights`),
* the depth split bookkeeping of the cascade loop of `Renderer::Update`,
  and the centre, radius, look-at and orthographic arguments of a cascade,
  in exact arithmetic, and the depth slices once more in binary32
  arithmetic, with the rounding of every `float` operation,
* the shader table and the sanity checks of `Renderer::LoadShaders`,
* the two places that set the shadow cascade count,
* the uniform buffer allocator and the draw batches, whose code is only
  declared in `VulkanRenderer.hpp` and which follow the specification.

Integer arithmetic of the atlas loop is exact in the 32 bit variables: the
glyph counters and pixel positions stay far below the 32 bit range for every
font the loader can read, and signed overflow is undefined in C++. The
narrowing casts to the 16 bit fields of a metric are modelled as written.
-/

namespace FlexEngine

/-! ## Font atlas layout (`Renderer::LoadFontMetrics`) -/

/-- Integer pair, the embedding of `glm::vec2i`. -/
structure Vec2i where
  x : Int
  y : Int
deriving DecidableEq, Repr

/-- The fields of `FontMetric` written by the atlas loop: the character, the
padded glyph size (two `u16` fields), the channel and the top-left texel of
the glyph. -/
structure FontMetric where
  character : Nat
  width : Nat
  height : Nat
  channel : Nat
  texCoord : Vec2i
deriving DecidableEq, Repr

/-- The atlas helper variables of `Renderer::LoadFontMetrics`
(`startPos[4]`, `maxPos[4]`, `bHorizontal`, `posCount`, `curPos`, `channel`).
The two arrays are indexed by the channel. -/
structure AtlasState where
  startPos : Nat → Vec2i
  maxPos : Nat → Vec2i
  bHorizontal : Bool
  posCount : Nat
  curPos : Nat
  channel : Nat

/-- Initial values of the atlas helper variables. -/
def AtlasState.init : AtlasState :=
  { startPos := fun _ => ⟨0, 0⟩
    maxPos := fun _ => ⟨0, 0⟩
    bHorizontal := false
    posCount := 1
    curPos := 0
    channel := 0 }

/-- Array store `arr[i] = v`. -/
def setAt (arr : Nat → Vec2i) (i : Nat) (v : Vec2i) : Nat → Vec2i :=
  fun j => if j = i then v else arr j

/-- The constant `totPadding = padding + spread` of `LoadFontMetrics`. -/
def totPadding : Nat := 1 + 5

/-- The block "Generate atlas coordinates" of the loop body of
`Renderer::LoadFontMetrics`, for the character `c` whose padded glyph size is
`width` x `height`: the metric stores `(u16)width` and `(u16)height`, the
values modulo `2^16`, the glyph is put at `startPos[channel]`, the start and
maximum positions of the channel are advanced by the full `width` and
`height`, and after every fourth glyph the pass bookkeeping runs. -/
def placeGlyph (s : AtlasState) (c width height : Nat) : FontMetric × AtlasState :=
  let channel := s.channel
  let metric : FontMetric :=
    { character := c, width := width % 65536, height := height % 65536, channel := channel,
      texCoord := s.startPos channel }
  let r : (Nat → Vec2i) × (Nat → Vec2i) :=
    if s.bHorizontal then
      let maxPos1 := setAt s.maxPos channel
        ⟨(s.maxPos channel).x, max (s.maxPos channel).y ((s.startPos channel).y + (height : Int))⟩
      let startPos1 := setAt s.startPos channel
        ⟨(s.startPos channel).x, (s.startPos channel).y + (height : Int)⟩
      let maxPos2 := setAt maxPos1 channel
        ⟨max (maxPos1 channel).x ((startPos1 channel).x + (width : Int)), (maxPos1 channel).y⟩
      (startPos1, maxPos2)
    else
      let maxPos1 := setAt s.maxPos channel
        ⟨max (s.maxPos channel).x ((s.startPos channel).x + (width : Int)), (s.maxPos channel).y⟩
      let startPos1 := setAt s.startPos channel
        ⟨(s.startPos channel).x + (width : Int), (s.startPos channel).y⟩
      let maxPos2 := setAt maxPos1 channel
        ⟨(maxPos1 channel).x, max (maxPos1 channel).y ((startPos1 channel).y + (height : Int))⟩
      (startPos1, maxPos2)
  let startPos := r.1
  let maxPos := r.2
  let channel := channel + 1
  if channel = 4 then
    let curPos := s.curPos + 1
    if curPos = s.posCount then
      let bHorizontal := !s.bHorizontal
      if bHorizontal then
        (metric,
          { startPos := fun cha => if cha < 4 then ⟨(maxPos cha).x, 0⟩ else startPos cha
            maxPos := maxPos
            bHorizontal := bHorizontal
            posCount := s.posCount
            curPos := 0
            channel := 0 })
      else
        (metric,
          { startPos := fun cha => if cha < 4 then ⟨0, (maxPos cha).y⟩ else startPos cha
            maxPos := maxPos
            bHorizontal := bHorizontal
            posCount := s.posCount + 1
            curPos := 0
            channel := 0 })
    else
      (metric,
        { startPos := startPos, maxPos := maxPos, bHorizontal := s.bHorizontal,
          posCount := s.posCount, curPos := curPos, channel := 0 })
  else
    (metric,
      { startPos := startPos, maxPos := maxPos, bHorizontal := s.bHorizontal,
        posCount := s.posCount, curPos := s.curPos, channel := channel })

/-- The character loop of `Renderer::LoadFontMetrics` from character `c` on.
The entry of a character is `none` when the loop body leaves through one of
its `continue` statements (no metric, glyph index 0, `FT_Load_Glyph` failed)
and `some (width, height)`, the values of the locals `width` and `height`,
when the glyph reaches the placement step. The result lists the metrics
stored in `outCharacters`, in loop order, and the final helper variables. -/
def fontLoop : List (Option (Nat × Nat)) → Nat → AtlasState → List FontMetric × AtlasState
  | [], _, s => ([], s)
  | none :: rest, c, s => fontLoop rest (c + 1) s
  | some (width, height) :: rest, c, s =>
    let r := placeGlyph s c width height
    let t := fontLoop rest (c + 1) r.2
    (r.1 :: t.1, t.2)

/-- The locals `width` and `height` of a glyph whose rendered bitmap has
`bitmap.width = bw` and `bitmap.rows = rows`. -/
def paddedSize (g : Nat × Nat) : Nat × Nat :=
  (g.1 + totPadding * 2, g.2 + totPadding * 2)

/-- The part of `Renderer::LoadFontMetrics` after the font face is created.
The entry of a character is `none` when it is skipped and
`some (bitmap.width, bitmap.rows)` otherwise; the result is the list of the
stored metrics and the four entries of `outMaxPositions`. -/
def LoadFontMetrics (glyphs : List (Option (Nat × Nat))) : List FontMetric × (Fin 4 → Vec2i) :=
  let r := fontLoop (glyphs.map (Option.map paddedSize)) 0 AtlasState.init
  (r.1, fun ch => r.2.maxPos ch.val)

/-- The texel `(px, py)` lies in the rectangle
`[texCoord.x, texCoord.x + width) x [texCoord.y, texCoord.y + height)`. -/
def FontMetric.covers (m : FontMetric) (px py : Int) : Prop :=
  m.texCoord.x ≤ px ∧ px < m.texCoord.x + (m.width : Int) ∧
  m.texCoord.y ≤ py ∧ py < m.texCoord.y + (m.height : Int)

/-- Two glyph rectangles share a texel. -/
def FontMetric.overlaps (a b : FontMetric) : Prop :=
  ∃ px py : Int, a.covers px py ∧ b.covers px py

/-- Invariant of the atlas loop that gives the separation of the glyphs:
`ms` are the glyphs placed so far. Every glyph lies below the maximum
position of its channel, and it lies either before the line on which the
current pass of its channel runs or on that line before the start position. -/
def AtlasInv (s : AtlasState) (ms : List FontMetric) : Prop :=
  s.channel < 4 ∧
  (∀ m ∈ ms, m.channel < 4) ∧
  (∀ m ∈ ms, m.texCoord.x + (m.width : Int) ≤ (s.maxPos m.channel).x ∧
    m.texCoord.y + (m.height : Int) ≤ (s.maxPos m.channel).y) ∧
  (∀ m ∈ ms,
    if s.bHorizontal then
      m.texCoord.x + (m.width : Int) ≤ (s.startPos m.channel).x ∨
      (m.texCoord.x = (s.startPos m.channel).x ∧
        m.texCoord.y + (m.height : Int) ≤ (s.startPos m.channel).y)
    else
      m.texCoord.y + (m.height : Int) ≤ (s.startPos m.channel).y ∨
      (m.texCoord.y = (s.startPos m.channel).y ∧
        m.texCoord.x + (m.width : Int) ≤ (s.startPos m.channel).x)) ∧
  ms.Pairwise (fun a b => a.channel = b.channel → ¬ a.overlaps b)

/-- The point `p` is the tight bounding box of the glyphs of `ms` that lie in
channel `ch`: no glyph reaches beyond `p`, and either `p.x` and `p.y` are
each reached by a glyph of the channel, or the channel is empty and `p` is
`(0, 0)`. -/
def IsBoundingBox (ms : List FontMetric) (ch : Nat) (p : Vec2i) : Prop :=
  (∀ m ∈ ms, m.channel = ch →
    m.texCoord.x + (m.width : Int) ≤ p.x ∧ m.texCoord.y + (m.height : Int) ≤ p.y) ∧
  (((∃ m ∈ ms, m.channel = ch ∧ m.texCoord.x + (m.width : Int) = p.x) ∧
    (∃ m ∈ ms, m.channel = ch ∧ m.texCoord.y + (m.height : Int) = p.y)) ∨
   ((∀ m ∈ ms, m.channel ≠ ch) ∧ p = ⟨0, 0⟩))

/-- Invariant of the atlas loop that gives the bounding boxes: positions are
never negative and `maxPos[ch]` is the bounding box of channel `ch`. -/
def BoxInv (s : AtlasState) (ms : List FontMetric) : Prop :=
  (∀ ch, 0 ≤ (s.startPos ch).x ∧ 0 ≤ (s.startPos ch).y ∧
    0 ≤ (s.maxPos ch).x ∧ 0 ≤ (s.maxPos ch).y) ∧
  ∀ ch, IsBoundingBox ms ch (s.maxPos ch)

/-- The locals `width` and `height` of a placed glyph are below `2^16`, so
that the casts `(u16)width` and `(u16)height` keep their values. A skipped
character stores nothing. -/
def fitsU16 : Option (Nat × Nat) → Bool
  | none => true
  | some (width, height) => decide (width < 65536) && decide (height < 65536)

/-- The rectangle the atlas loop reserves for a placed glyph: the rectangle of
the stored metric with the full values of the locals `width` and `height`, by
which the loop advances `startPos` and `maxPos`, in place of their `u16`
casts. -/
def reservedRect (m : FontMetric) (size : Nat × Nat) : FontMetric :=
  { m with width := size.1, height := size.2 }

/-- The reserved rectangles of the glyphs the character loop places, in loop
order: the stored metrics paired with the sizes of the characters that are
not skipped. -/
def reservedRects (sizes : List (Option (Nat × Nat))) (c : Nat) (s : AtlasState) :
    List FontMetric :=
  List.zipWith reservedRect (fontLoop sizes c s).1 (sizes.filterMap id)

/-! ## Point light table (`RegisterPointLight`, `RemovePointLight`) -/

/-- Three component vector, the embedding of `glm::vec3`. The components
stand for the float values and are modelled by rational numbers. -/
structure Vec3 where
  x : ℚ
  y : ℚ
  z : ℚ
deriving DecidableEq

/-- The constant `VEC3_NEG_ONE`, which marks an unused slot of the point light
table. `RemovePointLight` and `RemoveAllPointLights` assign `VEC4_NEG_ONE`,
whose first three components are the same. -/
def VEC3_NEG_ONE : Vec3 := ⟨-1, -1, -1⟩

/-- Modelled from the spec: the declaration of `PointLightData` is not among
the sources. The fields are those its uses in `Renderer.cpp` read and write:
the colour, a three component vector as `Renderer::Initialize` assigns it,
and the enabled flag. -/
structure PointLightData where
  color : Vec3
  enabled : Int
deriving DecidableEq

/-- Modelled from the spec: the constant `InvalidPointLightID` is not among the
sources; the spec calls it the sentinel "invalid" value of a handle. It is the
largest value of the 32 bit type `PointLightID`. -/
def InvalidPointLightID : Nat := 4294967295

/-- The members `m_PointLights` (an array of `MAX_POINT_LIGHT_COUNT` entries)
and `m_NumPointLightsEnabled` of the renderer. -/
structure PointLights where
  m_PointLights : List PointLightData
  m_NumPointLightsEnabled : Int
deriving DecidableEq

/-- The point light part of `Renderer::Initialize`: every slot is marked
unused. The constant `MAX_POINT_LIGHT_COUNT` is not among the sources and is
a parameter; the counter `m_NumPointLightsEnabled` gets its first value in
the class declaration, which is not among the sources either, and is taken
to start at 0. -/
def InitializePointLights (MAX_POINT_LIGHT_COUNT : Nat) : PointLights :=
  { m_PointLights := List.replicate MAX_POINT_LIGHT_COUNT ⟨VEC3_NEG_ONE, 0⟩
    m_NumPointLightsEnabled := 0 }

/-- `Renderer::RegisterPointLight`: the returned ID and the new state. The
cast `(PointLightID)m_NumPointLightsEnabled` is the value modulo `2^32`. A
slot outside the table is an access out of bounds in the source; the model
leaves the table as it is. -/
def RegisterPointLight (MAX_POINT_LIGHT_COUNT : Nat) (r : PointLights)
    (pointLightData : PointLightData) : Nat × PointLights :=
  if r.m_NumPointLightsEnabled < (MAX_POINT_LIGHT_COUNT : Int) then
    let newPointLightID : Nat := (r.m_NumPointLightsEnabled % 4294967296).toNat
    (newPointLightID,
      { m_PointLights := r.m_PointLights.set newPointLightID pointLightData
        m_NumPointLightsEnabled := r.m_NumPointLightsEnabled + 1 })
  else (InvalidPointLightID, r)

/-- `Renderer::RemovePointLight`. An `ID` outside the table is an access out
of bounds in the source; the model leaves the state as it is. -/
def RemovePointLight (r : PointLights) (ID : Nat) : PointLights :=
  match r.m_PointLights[ID]? with
  | some light =>
    if light.color.x ≠ -1 then
      { m_PointLights := r.m_PointLights.set ID { light with color := VEC3_NEG_ONE, enabled := 0 }
        m_NumPointLightsEnabled := r.m_NumPointLightsEnabled - 1 }
    else r
  | none => r

/-- `Renderer::RemoveAllPointLights`: the slots below the counter are marked
unused and the counter is reset. -/
def RemoveAllPointLights (r : PointLights) : PointLights :=
  { m_PointLights :=
      (List.range r.m_NumPointLightsEnabled.toNat).foldl
        (fun lights i =>
          match lights[i]? with
          | some light => lights.set i { light with color := VEC3_NEG_ONE, enabled := 0 }
          | none => lights)
        r.m_PointLights
    m_NumPointLightsEnabled := 0 }

/-- A call of the point light interface of the renderer. -/
inductive LightCall
  | register (pointLightData : PointLightData)
  | remove (ID : Nat)
  | removeAll
deriving DecidableEq

/-- The renderer together with the IDs held by the live point lights: a light
is live from the `RegisterPointLight` call that returned its ID (other than
`InvalidPointLightID`) until it is removed. `live` has one entry per live
light; it is bookkeeping of the callers, not a member of the renderer. -/
structure LightTrace where
  renderer : PointLights
  live : List Nat
deriving DecidableEq

/-- One call, with the bookkeeping of the live lights. -/
def LightTrace.step (MAX_POINT_LIGHT_COUNT : Nat) (t : LightTrace) : LightCall → LightTrace
  | .register pointLightData =>
    let r := RegisterPointLight MAX_POINT_LIGHT_COUNT t.renderer pointLightData
    { renderer := r.2
      live := if r.1 = InvalidPointLightID then t.live else t.live ++ [r.1] }
  | .remove ID => { renderer := RemovePointLight t.renderer ID, live := t.live.erase ID }
  | .removeAll => { renderer := RemoveAllPointLights t.renderer, live := [] }

/-- A sequence of calls on the renderer as `Renderer::Initialize` leaves it. -/
def runLightCalls (MAX_POINT_LIGHT_COUNT : Nat) (calls : List LightCall) : LightTrace :=
  calls.foldl (LightTrace.step MAX_POINT_LIGHT_COUNT)
    { renderer := InitializePointLights MAX_POINT_LIGHT_COUNT, live := [] }

/-! ## Shadow cascade depth slices (`Renderer::Update`) -/

/-- Component-wise sum. -/
def Vec3.add (a b : Vec3) : Vec3 := ⟨a.x + b.x, a.y + b.y, a.z + b.z⟩

/-- Component-wise difference. -/
def Vec3.sub (a b : Vec3) : Vec3 := ⟨a.x - b.x, a.y - b.y, a.z - b.z⟩

/-- Product with a scalar. -/
def Vec3.scale (a : Vec3) (k : ℚ) : Vec3 := ⟨a.x * k, a.y * k, a.z * k⟩

/-- The vector `depthSplits(0.04f, 0.15f, 0.4f, 1.0f)` of `Renderer::Update`. -/
def depthSplits : List ℚ := [4 / 100, 15 / 100, 4 / 10, 1]

/-- Array store `frustumCorners[i] = v`. -/
def setCorner (frustumCorners : Nat → Vec3) (i : Nat) (v : Vec3) : Nat → Vec3 :=
  fun j => if j = i then v else frustumCorners j

/-- One round of the loop `for (u32 i = 0; i < 4; ++i)` that carves the slice:
`dist` is taken first, then the far corner and then the near corner are
overwritten. The arithmetic is exact here; `carveCornerF32` is the same round
with the rounding of the `float` operations. -/
def carveCorner (lastSplitDist splitDist : ℚ) (frustumCorners : Nat → Vec3) (i : Nat) :
    Nat → Vec3 :=
  let dist := (frustumCorners (i + 4)).sub (frustumCorners i)
  let fc1 := setCorner frustumCorners (i + 4) ((frustumCorners i).add (dist.scale splitDist))
  setCorner fc1 i ((fc1 i).add (dist.scale lastSplitDist))

/-- The loop `for (u32 i = 0; i < 4; ++i)` over the four near/far pairs. -/
def carveSlice (lastSplitDist splitDist : ℚ) (frustumCorners : Nat → Vec3) : Nat → Vec3 :=
  (List.range 4).foldl (carveCorner lastSplitDist splitDist) frustumCorners

/-- What one round of the cascade loop of `Renderer::Update` fixes about the
depth slice of a cascade: the two fractions it interpolates with and the
corners of the slice. -/
structure CascadeSlice where
  lastSplitDist : ℚ
  splitDist : ℚ
  frustumCorners : Nat → Vec3

/-- The loop `for (u32 c = 0; c < (u32)m_ShadowCascadeCount; ++c)` of
`Renderer::Update` with `n` rounds left. `worldCorners` are the eight frustum
corners after the transformation to world space, which is the same in every
round. -/
def cascadeFrom (worldCorners : Nat → Vec3) : Nat → Nat → ℚ → List CascadeSlice
  | 0, _, _ => []
  | n + 1, c, lastSplitDist =>
    let splitDist := depthSplits.getD c 0
    { lastSplitDist := lastSplitDist
      splitDist := splitDist
      frustumCorners := carveSlice lastSplitDist splitDist worldCorners } ::
      cascadeFrom worldCorners n (c + 1) (depthSplits.getD c 0)

/-- The depth slices of the cascades of `Renderer::Update`
(`real lastSplitDist = 0.0f` before the loop). -/
def cascadeSlices (worldCorners : Nat → Vec3) (m_ShadowCascadeCount : Nat) : List CascadeSlice :=
  cascadeFrom worldCorners m_ShadowCascadeCount 0 0

/-! ## Shader table and sanity checks (`Renderer::LoadShaders`) -/

/-- The uniform kinds named in the shader table of `Renderer::LoadShaders`. -/
inductive Uniform
  | U_UNIFORM_BUFFER_CONSTANT
  | U_CAM_POS
  | U_VIEW_INV
  | U_PROJECTION_INV
  | U_DIR_LIGHT
  | U_POINT_LIGHTS
  | U_SHADOW_SAMPLING_DATA
  | U_SSAO_SAMPLING_DATA
  | U_NEAR_FAR_PLANES
  | U_PREFILTER_MAP
  | U_UNIFORM_BUFFER_DYNAMIC
  | U_ENABLE_IRRADIANCE_SAMPLER
  | U_BRDF_LUT_SAMPLER
  | U_IRRADIANCE_SAMPLER
  | U_DEPTH_SAMPLER
  | U_SSAO_FINAL_SAMPLER
  | U_SHADOW_SAMPLER
  | U_FB_0_SAMPLER
  | U_FB_1_SAMPLER
  | U_VIEW_PROJECTION
  | U_MODEL
  | U_COLOR_MULTIPLIER
  | U_VIEW
  | U_CONST_ALBEDO
  | U_ENABLE_ALBEDO_SAMPLER
  | U_CONST_METALLIC
  | U_ENABLE_METALLIC_SAMPLER
  | U_CONST_ROUGHNESS
  | U_ENABLE_ROUGHNESS_SAMPLER
  | U_ENABLE_NORMAL_SAMPLER
  | U_ALBEDO_SAMPLER
  | U_METALLIC_SAMPLER
  | U_ROUGHNESS_SAMPLER
  | U_NORMAL_SAMPLER
  | U_TEXTURE_SCALE
  | U_BLEND_SHARPNESS
  | U_SKYBOX_DATA
  | U_CUBEMAP_SAMPLER
  | U_HDR_EQUIRECTANGULAR_SAMPLER
  | U_POST_PROCESS_MAT
  | U_SCENE_SAMPLER
  | U_FXAA_DATA
  | U_SDF_DATA
  | U_TEX_CHANNEL
  | U_HIGH_RES_TEX
  | U_FONT_CHAR_DATA
  | U_TEX_SIZE
  | U_PROJECTION
  | U_SSAO_GEN_DATA
  | U_SSAO_NORMAL_SAMPLER
  | U_NOISE_SAMPLER
  | U_SSAO_BLUR_DATA_CONSTANT
  | U_SSAO_BLUR_DATA_DYNAMIC
  | U_SSAO_RAW_SAMPLER
  | U_LAST_FRAME_VIEWPROJ
  | U_HISTORY_SAMPLER
  | U_PARTICLE_SIM_DATA
  | U_PARTICLE_BUFFER
  | U_OCEAN_DATA
  | U_TIME
deriving DecidableEq, Repr

/-- Modelled from the spec: the declaration of the uniform set type of `Shader`
(with `AddUniform` and `HasUniform`) is not among the sources. The spec
describes each uniform set of a descriptor as a small ordered set of named
uniform kinds. -/
structure Uniforms where
  uniforms : List Uniform
deriving DecidableEq, Repr

/-- Modelled from the spec: membership test of a uniform set. -/
def Uniforms.HasUniform (us : Uniforms) (u : Uniform) : Bool :=
  us.uniforms.contains u

/-- Modelled from the spec: insertion into a uniform set; a kind that is
already present is not added again. -/
def Uniforms.AddUniform (us : Uniforms) (u : Uniform) : Uniforms :=
  if us.HasUniform u then us else ⟨us.uniforms ++ [u]⟩

/-- Modelled from the spec: the declaration of `Shader` is not among the
sources. The fields are those the sanity checks and the error report of
`Renderer::LoadShaders` read; the descriptor blocks also set the render pass
type, the vertex attributes and the sampler flags, which no check reads. -/
structure Shader where
  name : String
  vertexShaderFilePath : String
  fragmentShaderFilePath : String
  geometryShaderFilePath : String
  computeShaderFilePath : String
  constantBufferUniforms : Uniforms
  dynamicBufferUniforms : Uniforms
  textureUniforms : Uniforms
  additionalBufferUniforms : Uniforms
  bNeedPushConstantBlock : Bool
  pushConstantBlockSize : Nat
deriving DecidableEq, Repr

/-- Modelled from the spec: the constructor of `Shader` is not among the
sources. It builds the shader `{ name, vert, frag, geom, comp }` of the
initialiser lists of `m_BaseShaders`; paths the list leaves out are empty,
the uniform sets are empty, and no push constant block is declared (flag
false, size 0). -/
def Shader.create (name vert frag geom comp : String) : Shader :=
  { name := name
    vertexShaderFilePath := vert
    fragmentShaderFilePath := frag
    geometryShaderFilePath := geom
    computeShaderFilePath := comp
    constantBufferUniforms := ⟨[]⟩
    dynamicBufferUniforms := ⟨[]⟩
    textureUniforms := ⟨[]⟩
    additionalBufferUniforms := ⟨[]⟩
    bNeedPushConstantBlock := false
    pushConstantBlockSize := 0 }

/-- `shader.constantBufferUniforms.AddUniform(u)`. -/
def Shader.addConstant (s : Shader) (u : Uniform) : Shader :=
  { s with constantBufferUniforms := s.constantBufferUniforms.AddUniform u }

/-- `shader.dynamicBufferUniforms.AddUniform(u)`. -/
def Shader.addDynamic (s : Shader) (u : Uniform) : Shader :=
  { s with dynamicBufferUniforms := s.dynamicBufferUniforms.AddUniform u }

/-- `shader.textureUniforms.AddUniform(u)`. -/
def Shader.addTexture (s : Shader) (u : Uniform) : Shader :=
  { s with textureUniforms := s.textureUniforms.AddUniform u }

/-- `shader.additionalBufferUniforms.AddUniform(u)`. -/
def Shader.addAdditional (s : Shader) (u : Uniform) : Shader :=
  { s with additionalBufferUniforms := s.additionalBufferUniforms.AddUniform u }

/-- `shader.constantBufferUniforms = {}`. -/
def Shader.clearConstant (s : Shader) : Shader :=
  { s with constantBufferUniforms := ⟨[]⟩ }

/-- `shader.dynamicBufferUniforms = {}`. -/
def Shader.clearDynamic (s : Shader) : Shader :=
  { s with dynamicBufferUniforms := ⟨[]⟩ }

/-- `shader.bNeedPushConstantBlock = b`. -/
def Shader.setNeedPushConstantBlock (s : Shader) (b : Bool) : Shader :=
  { s with bNeedPushConstantBlock := b }

/-- `shader.pushConstantBlockSize = n`. -/
def Shader.setPushConstantBlockSize (s : Shader) (n : Nat) : Shader :=
  { s with pushConstantBlockSize := n }

/-- The initialiser list of `m_BaseShaders` under `COMPILE_OPEN_GL`. -/
def baseShadersGL : List Shader :=
  [ Shader.create "deferred_combine" "deferred_combine.vert" "deferred_combine.frag" "" "",
    Shader.create "color" "color.vert" "color.frag" "" "",
    Shader.create "pbr" "pbr.vert" "pbr.frag" "" "",
    Shader.create "pbr_ws" "pbr_ws.vert" "pbr_ws.frag" "" "",
    Shader.create "skybox" "skybox.vert" "skybox.frag" "" "",
    Shader.create "equirectangular_to_cube" "skybox.vert" "equirectangular_to_cube.frag" "" "",
    Shader.create "irradiance" "skybox.vert" "irradiance.frag" "" "",
    Shader.create "prefilter" "skybox.vert" "prefilter.frag" "" "",
    Shader.create "brdf" "brdf.vert" "brdf.frag" "" "",
    Shader.create "sprite" "sprite.vert" "sprite.frag" "" "",
    Shader.create "sprite_arr" "sprite.vert" "sprite_arr.frag" "" "",
    Shader.create "post_process" "post_process.vert" "post_process.frag" "" "",
    Shader.create "post_fxaa" "post_fxaa.vert" "post_fxaa.frag" "" "",
    Shader.create "compute_sdf" "compute_sdf.vert" "compute_sdf.frag" "" "",
    Shader.create "font_ss" "font_ss.vert" "font_ss.frag" "font_ss.geom" "",
    Shader.create "font_ws" "font_ws.vert" "font_ws.frag" "font_ws.geom" "",
    Shader.create "shadow" "shadow.vert" "" "" "",
    Shader.create "ssao" "ssao.vert" "ssao.frag" "" "",
    Shader.create "ssao_blur" "ssao_blur.vert" "ssao_blur.frag" "" "",
    Shader.create "taa_resolve" "post_process.vert" "taa_resolve.frag" "" "",
    Shader.create "gamma_correct" "post_process.vert" "gamma_correct.frag" "" "",
    Shader.create "blit" "blit.vert" "blit.frag" "" "" ]

/-- The initialiser list of `m_BaseShaders` under `COMPILE_VULKAN`. -/
def baseShadersVulkan : List Shader :=
  [ Shader.create "deferred_combine" "vk_deferred_combine_vert.spv" "vk_deferred_combine_frag.spv" "" "",
    Shader.create "color" "vk_color_vert.spv" "vk_color_frag.spv" "" "",
    Shader.create "pbr" "vk_pbr_vert.spv" "vk_pbr_frag.spv" "" "",
    Shader.create "pbr_ws" "vk_pbr_ws_vert.spv" "vk_pbr_ws_frag.spv" "" "",
    Shader.create "skybox" "vk_skybox_vert.spv" "vk_skybox_frag.spv" "" "",
    Shader.create "equirectangular_to_cube" "vk_skybox_vert.spv" "vk_equirectangular_to_cube_frag.spv" "" "",
    Shader.create "irradiance" "vk_skybox_vert.spv" "vk_irradiance_frag.spv" "" "",
    Shader.create "prefilter" "vk_skybox_vert.spv" "vk_prefilter_frag.spv" "" "",
    Shader.create "brdf" "vk_brdf_vert.spv" "vk_brdf_frag.spv" "" "",
    Shader.create "sprite" "vk_sprite_vert.spv" "vk_sprite_frag.spv" "" "",
    Shader.create "sprite_arr" "vk_sprite_vert.spv" "vk_sprite_arr_frag.spv" "" "",
    Shader.create "post_process" "vk_post_process_vert.spv" "vk_post_process_frag.spv" "" "",
    Shader.create "post_fxaa" "vk_barebones_pos2_uv_vert.spv" "vk_post_fxaa_frag.spv" "" "",
    Shader.create "compute_sdf" "vk_compute_sdf_vert.spv" "vk_compute_sdf_frag.spv" "" "",
    Shader.create "font_ss" "vk_font_ss_vert.spv" "vk_font_frag.spv" "vk_font_ss_geom.spv" "",
    Shader.create "font_ws" "vk_font_ws_vert.spv" "vk_font_frag.spv" "vk_font_ws_geom.spv" "",
    Shader.create "shadow" "vk_shadow_vert.spv" "" "" "",
    Shader.create "ssao" "vk_barebones_pos2_uv_vert.spv" "vk_ssao_frag.spv" "" "",
    Shader.create "ssao_blur" "vk_barebones_pos2_uv_vert.spv" "vk_ssao_blur_frag.spv" "" "",
    Shader.create "taa_resolve" "vk_barebones_pos2_uv_vert.spv" "vk_taa_resolve_frag.spv" "" "",
    Shader.create "gamma_correct" "vk_barebones_pos2_uv_vert.spv" "vk_gamma_correct_frag.spv" "" "",
    Shader.create "blit" "vk_barebones_pos2_uv_vert.spv" "vk_blit_frag.spv" "" "",
    Shader.create "particle_sim" "" "" "" "vk_simulate_particles_comp.spv",
    Shader.create "particles" "vk_particles_vert.spv" "vk_particles_frag.spv" "vk_particles_geom.spv" "",
    Shader.create "terrain" "vk_terrain_vert.spv" "vk_terrain_frag.spv" "" "",
    Shader.create "water" "vk_water_vert.spv" "vk_water_frag.spv" "" "",
    Shader.create "wireframe" "vk_wireframe_vert.spv" "vk_wireframe_frag.spv" "vk_wireframe_geom.spv" "" ]

/-- The descriptor blocks of `Renderer::LoadShaders` in source order, each the
statements between two `++shaderID` that write a field of the model, applied
to `m_BaseShaders[shaderID]`. -/
def shaderBlocks : List (Shader → Shader) :=
  [ -- Deferred combine
    fun s => s
      |>.addConstant .U_UNIFORM_BUFFER_CONSTANT
      |>.addConstant .U_CAM_POS
      |>.addConstant .U_VIEW_INV
      |>.addConstant .U_PROJECTION_INV
      |>.addConstant .U_DIR_LIGHT
      |>.addConstant .U_POINT_LIGHTS
      |>.addConstant .U_SHADOW_SAMPLING_DATA
      |>.addConstant .U_SSAO_SAMPLING_DATA
      |>.addConstant .U_NEAR_FAR_PLANES
      |>.addConstant .U_PREFILTER_MAP
      |>.addDynamic .U_UNIFORM_BUFFER_DYNAMIC
      |>.addDynamic .U_ENABLE_IRRADIANCE_SAMPLER
      |>.addTexture .U_BRDF_LUT_SAMPLER
      |>.addTexture .U_IRRADIANCE_SAMPLER
      |>.addTexture .U_PREFILTER_MAP
      |>.addTexture .U_DEPTH_SAMPLER
      |>.addTexture .U_SSAO_FINAL_SAMPLER
      |>.addTexture .U_SHADOW_SAMPLER
      |>.addTexture .U_FB_0_SAMPLER
      |>.addTexture .U_FB_1_SAMPLER,
    -- Color
    fun s => s
      |>.addConstant .U_UNIFORM_BUFFER_CONSTANT
      |>.addConstant .U_VIEW_PROJECTION
      |>.addDynamic .U_UNIFORM_BUFFER_DYNAMIC
      |>.addDynamic .U_MODEL
      |>.addDynamic .U_COLOR_MULTIPLIER,
    -- PBR
    fun s => s
      |>.addConstant .U_UNIFORM_BUFFER_CONSTANT
      |>.addConstant .U_VIEW
      |>.addConstant .U_VIEW_PROJECTION
      |>.addDynamic .U_UNIFORM_BUFFER_DYNAMIC
      |>.addDynamic .U_MODEL
      |>.addDynamic .U_CONST_ALBEDO
      |>.addDynamic .U_ENABLE_ALBEDO_SAMPLER
      |>.addDynamic .U_CONST_METALLIC
      |>.addDynamic .U_ENABLE_METALLIC_SAMPLER
      |>.addDynamic .U_CONST_ROUGHNESS
      |>.addDynamic .U_ENABLE_ROUGHNESS_SAMPLER
      |>.addDynamic .U_ENABLE_NORMAL_SAMPLER
      |>.addTexture .U_ALBEDO_SAMPLER
      |>.addTexture .U_METALLIC_SAMPLER
      |>.addTexture .U_ROUGHNESS_SAMPLER
      |>.addTexture .U_NORMAL_SAMPLER,
    -- PBR - WORLD SPACE
    fun s => s
      |>.addConstant .U_UNIFORM_BUFFER_CONSTANT
      |>.addConstant .U_VIEW
      |>.addConstant .U_VIEW_PROJECTION
      |>.addDynamic .U_UNIFORM_BUFFER_DYNAMIC
      |>.addDynamic .U_MODEL
      |>.addDynamic .U_CONST_ALBEDO
      |>.addDynamic .U_ENABLE_ALBEDO_SAMPLER
      |>.addDynamic .U_CONST_METALLIC
      |>.addDynamic .U_ENABLE_METALLIC_SAMPLER
      |>.addDynamic .U_CONST_ROUGHNESS
      |>.addDynamic .U_ENABLE_ROUGHNESS_SAMPLER
      |>.addDynamic .U_ENABLE_NORMAL_SAMPLER
      |>.addDynamic .U_TEXTURE_SCALE
      |>.addDynamic .U_BLEND_SHARPNESS
      |>.addTexture .U_ALBEDO_SAMPLER
      |>.addTexture .U_METALLIC_SAMPLER
      |>.addTexture .U_ROUGHNESS_SAMPLER
      |>.addTexture .U_NORMAL_SAMPLER,
    -- Skybox
    fun s => s
      |>.setNeedPushConstantBlock true
      |>.setPushConstantBlockSize 128
      |>.addConstant .U_UNIFORM_BUFFER_CONSTANT
      |>.addConstant .U_SKYBOX_DATA
      |>.addTexture .U_CUBEMAP_SAMPLER,
    -- Equirectangular to Cube
    fun s => s
      |>.setNeedPushConstantBlock true
      |>.setPushConstantBlockSize 128
      |>.addTexture .U_HDR_EQUIRECTANGULAR_SAMPLER,
    -- Irradiance
    fun s => s
      |>.setNeedPushConstantBlock true
      |>.setPushConstantBlockSize 128
      |>.addTexture .U_CUBEMAP_SAMPLER,
    -- Prefilter
    fun s => s
      |>.setNeedPushConstantBlock true
      |>.setPushConstantBlockSize 128
      |>.addDynamic .U_UNIFORM_BUFFER_DYNAMIC
      |>.addDynamic .U_CONST_ROUGHNESS
      |>.addTexture .U_CUBEMAP_SAMPLER,
    -- BRDF
    fun s => s,
    -- Sprite
    fun s => s
      |>.setNeedPushConstantBlock true
      |>.setPushConstantBlockSize 132
      |>.addDynamic .U_UNIFORM_BUFFER_DYNAMIC
      |>.addDynamic .U_MODEL
      |>.addDynamic .U_COLOR_MULTIPLIER
      |>.addDynamic .U_ENABLE_ALBEDO_SAMPLER
      |>.addTexture .U_ALBEDO_SAMPLER,
    -- Sprite - Texture Array
    fun s => s
      |>.setNeedPushConstantBlock true
      |>.setPushConstantBlockSize 132
      |>.addDynamic .U_UNIFORM_BUFFER_DYNAMIC
      |>.addDynamic .U_MODEL
      |>.addDynamic .U_COLOR_MULTIPLIER
      |>.addDynamic .U_ENABLE_ALBEDO_SAMPLER
      |>.addTexture .U_ALBEDO_SAMPLER,
    -- Post processing
    fun s => s
      |>.addDynamic .U_UNIFORM_BUFFER_DYNAMIC
      |>.addDynamic .U_COLOR_MULTIPLIER
      |>.addDynamic .U_ENABLE_ALBEDO_SAMPLER
      |>.addDynamic .U_POST_PROCESS_MAT
      |>.addTexture .U_SCENE_SAMPLER,
    -- Post FXAA
    fun s => s
      |>.addConstant .U_UNIFORM_BUFFER_CONSTANT
      |>.addConstant .U_FXAA_DATA
      |>.addTexture .U_SCENE_SAMPLER,
    -- Compute SDF
    fun s => s
      |>.addDynamic .U_UNIFORM_BUFFER_DYNAMIC
      |>.addDynamic .U_SDF_DATA
      |>.addDynamic .U_TEX_CHANNEL
      |>.addDynamic .U_HIGH_RES_TEX
      |>.addTexture .U_ALBEDO_SAMPLER,
    -- Font SS
    fun s => s
      |>.addDynamic .U_UNIFORM_BUFFER_DYNAMIC
      |>.addDynamic .U_MODEL
      |>.addDynamic .U_FONT_CHAR_DATA
      |>.addDynamic .U_MODEL
      |>.addDynamic .U_TEX_SIZE
      |>.addTexture .U_ALBEDO_SAMPLER,
    -- Font WS
    fun s => s
      |>.addDynamic .U_UNIFORM_BUFFER_DYNAMIC
      |>.addDynamic .U_MODEL
      |>.addDynamic .U_FONT_CHAR_DATA
      |>.addDynamic .U_MODEL
      |>.addDynamic .U_TEX_SIZE
      |>.addTexture .U_ALBEDO_SAMPLER,
    -- Shadow
    fun s => s
      |>.setNeedPushConstantBlock true
      |>.setPushConstantBlockSize 64
      |>.clearConstant
      |>.addDynamic .U_UNIFORM_BUFFER_DYNAMIC
      |>.addDynamic .U_MODEL,
    -- SSAO
    fun s => s
      |>.addConstant .U_UNIFORM_BUFFER_CONSTANT
      |>.addConstant .U_PROJECTION
      |>.addConstant .U_PROJECTION_INV
      |>.addConstant .U_SSAO_GEN_DATA
      |>.addTexture .U_DEPTH_SAMPLER
      |>.addTexture .U_SSAO_NORMAL_SAMPLER
      |>.addTexture .U_NOISE_SAMPLER,
    -- SSAO Blur
    fun s => s
      |>.addConstant .U_UNIFORM_BUFFER_CONSTANT
      |>.addConstant .U_SSAO_BLUR_DATA_CONSTANT
      |>.addDynamic .U_UNIFORM_BUFFER_DYNAMIC
      |>.addDynamic .U_SSAO_BLUR_DATA_DYNAMIC
      |>.addTexture .U_SSAO_RAW_SAMPLER
      |>.addTexture .U_SSAO_NORMAL_SAMPLER
      |>.addTexture .U_DEPTH_SAMPLER,
    -- TAA Resolve
    fun s => s
      |>.setNeedPushConstantBlock true
      |>.setPushConstantBlockSize 8
      |>.addConstant .U_UNIFORM_BUFFER_CONSTANT
      |>.addConstant .U_VIEW_INV
      |>.addConstant .U_PROJECTION_INV
      |>.addConstant .U_LAST_FRAME_VIEWPROJ
      |>.addTexture .U_SCENE_SAMPLER
      |>.addTexture .U_HISTORY_SAMPLER
      |>.addTexture .U_DEPTH_SAMPLER
      |>.clearDynamic,
    -- Gamma Correct
    fun s => s
      |>.addTexture .U_SCENE_SAMPLER,
    -- Blit
    fun s => s
      |>.addTexture .U_ALBEDO_SAMPLER,
    -- Simulate particles
    fun s => s
      |>.addDynamic .U_UNIFORM_BUFFER_DYNAMIC
      |>.addDynamic .U_PARTICLE_SIM_DATA
      |>.addAdditional .U_PARTICLE_BUFFER,
    -- Particles
    fun s => s
      |>.addConstant .U_UNIFORM_BUFFER_CONSTANT
      |>.addConstant .U_CAM_POS
      |>.addConstant .U_VIEW_PROJECTION
      |>.addDynamic .U_UNIFORM_BUFFER_DYNAMIC
      |>.addDynamic .U_MODEL
      |>.addTexture .U_ALBEDO_SAMPLER,
    -- Terrain
    fun s => s
      |>.addConstant .U_UNIFORM_BUFFER_CONSTANT
      |>.addConstant .U_VIEW
      |>.addConstant .U_VIEW_PROJECTION
      |>.addDynamic .U_UNIFORM_BUFFER_DYNAMIC
      |>.addDynamic .U_MODEL
      |>.addTexture .U_ALBEDO_SAMPLER,
    -- Water
    fun s => s
      |>.addConstant .U_UNIFORM_BUFFER_CONSTANT
      |>.addConstant .U_CAM_POS
      |>.addConstant .U_VIEW
      |>.addConstant .U_PROJECTION
      |>.addConstant .U_DIR_LIGHT
      |>.addConstant .U_OCEAN_DATA
      |>.addConstant .U_SKYBOX_DATA
      |>.addConstant .U_TIME
      |>.addDynamic .U_UNIFORM_BUFFER_DYNAMIC
      |>.addDynamic .U_MODEL
      |>.addTexture .U_ALBEDO_SAMPLER,
    -- Wireframe
    fun s => s
      |>.addConstant .U_UNIFORM_BUFFER_CONSTANT
      |>.addConstant .U_VIEW_PROJECTION
      |>.addDynamic .U_UNIFORM_BUFFER_DYNAMIC
      |>.addDynamic .U_MODEL
      |>.addDynamic .U_COLOR_MULTIPLIER ]

/-- Result of the configuration part of `Renderer::LoadShaders`: the shader
table, the final value of the local `shaderID`, and the values of `shaderID`
with which `m_BaseShaders[shaderID]` was indexed although the vector has no
such element. A block whose index is past the end is not applied. -/
structure ConfigResult where
  shaders : List Shader
  shaderID : Nat
  outOfBounds : List Nat
deriving DecidableEq, Repr

/-- The descriptor blocks applied in order from `shaderID` on, each followed
by `++shaderID`. -/
def configureFrom : List (Shader → Shader) → ConfigResult → ConfigResult
  | [], r => r
  | block :: rest, r =>
    match r.shaders[r.shaderID]? with
    | some shader =>
      configureFrom rest
        { shaders := r.shaders.set r.shaderID (block shader)
          shaderID := r.shaderID + 1
          outOfBounds := r.outOfBounds }
    | none =>
      configureFrom rest
        { shaders := r.shaders
          shaderID := r.shaderID + 1
          outOfBounds := r.outOfBounds ++ [r.shaderID] }

/-- The branch `if (m_BaseShaders.empty())` of `Renderer::LoadShaders` for
the initialiser list `baseShaders`: `ShaderID shaderID = 0` and then the
descriptor blocks. -/
def configureShaders (baseShaders : List Shader) : ConfigResult :=
  configureFrom shaderBlocks { shaders := baseShaders, shaderID := 0, outOfBounds := [] }

/-- The closing `assert(shaderID == m_BaseShaders.size())` of the
configuration part. -/
def closingAssertion (r : ConfigResult) : Bool :=
  r.shaderID == r.shaders.length

/-- First sanity check:
`assert(!shader.constantBufferUniforms.HasUniform(U_UNIFORM_BUFFER_DYNAMIC))`. -/
def constantSetCheck (shader : Shader) : Bool :=
  !shader.constantBufferUniforms.HasUniform .U_UNIFORM_BUFFER_DYNAMIC

/-- Second sanity check:
`assert(!shader.dynamicBufferUniforms.HasUniform(U_UNIFORM_BUFFER_CONSTANT))`. -/
def dynamicSetCheck (shader : Shader) : Bool :=
  !shader.dynamicBufferUniforms.HasUniform .U_UNIFORM_BUFFER_CONSTANT

/-- Third sanity check, on the push constant block:
`assert((b && size != 0) || (!b && size == 0))`. -/
def pushConstantCheck (shader : Shader) : Bool :=
  (shader.bNeedPushConstantBlock && shader.pushConstantBlockSize != 0) ||
  (!shader.bNeedPushConstantBlock && shader.pushConstantBlockSize == 0)

/-- Fourth sanity check: under `textureUniforms.HasUniform(U_HIGH_RES_TEX)`,
`assert(!shader.textureUniforms.HasUniform(U_ALBEDO_SAMPLER))`. -/
def textureSetCheck (shader : Shader) : Bool :=
  if shader.textureUniforms.HasUniform .U_HIGH_RES_TEX then
    !shader.textureUniforms.HasUniform .U_ALBEDO_SAMPLER
  else true

/-- The block "Sanity checks" of the loop of `Renderer::LoadShaders`: `true`
when no assertion fires. -/
def sanityChecks (shader : Shader) : Bool :=
  constantSetCheck shader && dynamicSetCheck shader && pushConstantCheck shader &&
    textureSetCheck shader

/-- How the loop of `Renderer::LoadShaders` ends (assertions compiled in):
either it runs to the end, or an assertion of the sanity checks fails for
`shaderID` and the program is aborted there. `loaded` lists the shader IDs
given to `LoadShaderCode`, `errors` those for which the error report was
printed. -/
inductive LoadOutcome
  | finished (loaded : List Nat) (errors : List Nat)
  | assertFailed (shaderID : Nat) (loaded : List Nat) (errors : List Nat)
deriving DecidableEq, Repr

/-- The shader IDs given to `LoadShaderCode`. -/
def LoadOutcome.loaded : LoadOutcome → List Nat
  | .finished l _ => l
  | .assertFailed _ l _ => l

/-- The loop `for (shaderID = 0; shaderID < m_BaseShaders.size(); ++shaderID)`
of `Renderer::LoadShaders` from `shaderID` on. `LoadShaderCode` belongs to
the graphics backend and is a parameter. -/
def loadLoop (LoadShaderCode : Nat → Bool) :
    List Shader → Nat → List Nat → List Nat → LoadOutcome
  | [], _, loaded, errors => .finished loaded errors
  | shader :: rest, shaderID, loaded, errors =>
    if sanityChecks shader then
      if LoadShaderCode shaderID then
        loadLoop LoadShaderCode rest (shaderID + 1) (loaded ++ [shaderID]) errors
      else
        loadLoop LoadShaderCode rest (shaderID + 1) (loaded ++ [shaderID])
          (errors ++ [shaderID])
    else .assertFailed shaderID loaded errors

/-- The loop of `Renderer::LoadShaders` over the whole table. -/
def LoadShadersLoop (LoadShaderCode : Nat → Bool) (m_BaseShaders : List Shader) : LoadOutcome :=
  loadLoop LoadShaderCode m_BaseShaders 0 [] []

/-- A descriptor with the uniform kind `U_MODEL` in both its constant and its
dynamic set, and no buffer marker in the wrong set. -/
def sharedKindShader : Shader :=
  (Shader.create "shared_kind" "" "" "" "")
    |>.addConstant .U_UNIFORM_BUFFER_CONSTANT
    |>.addConstant .U_MODEL
    |>.addDynamic .U_UNIFORM_BUFFER_DYNAMIC
    |>.addDynamic .U_MODEL

/-- A descriptor with the marker `U_UNIFORM_BUFFER_DYNAMIC` in both its
constant and its dynamic set. -/
def sharedMarkerShader : Shader :=
  (Shader.create "shared_marker" "" "" "" "")
    |>.addConstant .U_UNIFORM_BUFFER_DYNAMIC
    |>.addDynamic .U_UNIFORM_BUFFER_DYNAMIC

/-- A descriptor that declares a push constant block of size 0. -/
def emptyBlockShader : Shader :=
  (Shader.create "empty_block" "" "" "" "") |>.setNeedPushConstantBlock true

/-- A descriptor that passes the sanity checks. -/
def plainShader : Shader :=
  (Shader.create "plain" "" "" "" "")
    |>.addDynamic .U_UNIFORM_BUFFER_DYNAMIC
    |>.addDynamic .U_MODEL

/-- A white, enabled point light. -/
def whiteLight : PointLightData := ⟨⟨1, 1, 1⟩, 1⟩

/-- An enabled light with a red colour. -/
def redLight : PointLightData := ⟨⟨1, 0, 0⟩, 1⟩

/-- The characters of the loop that reach the placement step, in loop order:
the positions (counted from `c`) of the entries that are not `none`. -/
def placedCharacters {α : Type} : List (Option α) → Nat → List Nat
  | [], _ => []
  | none :: rest, c => placedCharacters rest (c + 1)
  | some _ :: rest, c => c :: placedCharacters rest (c + 1)

/-! ## Shadow cascade light matrices (`Renderer::Update`) -/

/-- Modelled from the spec: the constant `VEC3_UP` is not among the sources;
the spec calls it world up. It is the unit vector of the y axis. -/
def VEC3_UP : Vec3 := ⟨0, 1, 0⟩

/-- Unary minus of a vector. -/
def Vec3.neg (a : Vec3) : Vec3 := ⟨-a.x, -a.y, -a.z⟩

/-- Cross product, with which `glm::lookAt` builds its side vector from the
view direction and the up-vector. -/
def Vec3.cross (a b : Vec3) : Vec3 :=
  ⟨a.y * b.z - a.z * b.y, a.z * b.x - a.x * b.z, a.x * b.y - a.y * b.x⟩

/-- The arguments of a call `glm::lookAt(eye, center, up)`. -/
structure LookAtArgs where
  eye : Vec3
  center : Vec3
  up : Vec3
deriving DecidableEq

/-- The arguments of a call `glm::ortho(left, right, bottom, top, zNear, zFar)`. -/
structure OrthoArgs where
  left : ℚ
  right : ℚ
  bottom : ℚ
  top : ℚ
  zNear : ℚ
  zFar : ℚ
deriving DecidableEq

/-- The loop that sums the eight corners into `frustumCenter`, followed by
`frustumCenter /= 8.0f`. -/
def frustumCenterOf (frustumCorners : Nat → Vec3) : Vec3 :=
  let total : Vec3 :=
    (List.range 8).foldl (fun (acc : Vec3) i => acc.add (frustumCorners i)) ⟨0, 0, 0⟩
  ⟨total.x / 8, total.y / 8, total.z / 8⟩

/-- The loop `radius = glm::max(radius, distance)` over the eight corners,
from `radius = 0.0f`. The function `glm::length` is a parameter. -/
def rawRadius (length : Vec3 → ℚ) (frustumCorners : Nat → Vec3) (frustumCenter : Vec3) : ℚ :=
  (List.range 8).foldl
    (fun radius i => max radius (length ((frustumCorners i).sub frustumCenter))) 0

/-- The statement `radius = std::ceil(radius * 16.0f) / 16.0f`. -/
def roundRadius (radius : ℚ) : ℚ :=
  ((⌈radius * 16⌉ : Int) : ℚ) / 16

/-- What one round of the cascade loop of `Renderer::Update` computes from the
corners of its slice: the centre, the rounded radius, and the arguments of
the `glm::lookAt` and `glm::ortho` calls whose results are stored in
`m_ShadowLightViewMats[c]` and `m_ShadowLightProjMats[c]`. -/
structure CascadeLight where
  frustumCenter : Vec3
  radius : ℚ
  view : LookAtArgs
  proj : OrthoArgs

/-- The part of the loop body of `Renderer::Update` after the slice is carved.
`dir` is `m_DirectionalLight->data.dir`. -/
def cascadeLight (length : Vec3 → ℚ) (dir : Vec3) (frustumCorners : Nat → Vec3) :
    CascadeLight :=
  let frustumCenter := frustumCenterOf frustumCorners
  let radius := roundRadius (rawRadius length frustumCorners frustumCenter)
  let maxExtents : Vec3 := ⟨radius, radius, radius⟩
  let minExtents : Vec3 := maxExtents.neg
  { frustumCenter := frustumCenter
    radius := radius
    view :=
      { eye := frustumCenter.sub (dir.neg.scale (-minExtents.z))
        center := frustumCenter
        up := VEC3_UP }
    proj :=
      { left := minExtents.x
        right := maxExtents.x
        bottom := minExtents.y
        top := maxExtents.y
        zNear := maxExtents.z - minExtents.z
        zFar := 0 } }

/-- The light data of all cascades of `Renderer::Update`, in loop order. -/
def cascadeLights (length : Vec3 → ℚ) (dir : Vec3) (worldCorners : Nat → Vec3)
    (m_ShadowCascadeCount : Nat) : List CascadeLight :=
  (cascadeSlices worldCorners m_ShadowCascadeCount).map
    (fun slice => cascadeLight length dir slice.frustumCorners)

/-- A length function for the evaluation of examples: the sum of the absolute
values of the components, which is the Euclidean length for every vector
along a coordinate axis. -/
def axisLength (v : Vec3) : ℚ := |v.x| + |v.y| + |v.z|

/-- Example corners: the four near corners at the origin and the four far
corners at `(0, 0, -100)`, so that every corner of every slice lies on the z
axis. -/
def axisCorners : Nat → Vec3 :=
  fun i => if i < 4 then ⟨0, 0, 0⟩ else ⟨0, 0, -100⟩

/-- Example light direction: straight down. -/
def downLight : Vec3 := ⟨0, -1, 0⟩

/-! ## Shadow cascade count (`DrawImGuiSettings`, `LoadSettingsFromDisk`) -/

/-- The call `glm::clamp(x, minVal, maxVal)`, which is
`min(max(x, minVal), maxVal)`. -/
def clampInt (x minVal maxVal : Int) : Int := min (max x minVal) maxVal

/-- The slider of `Renderer::DrawImGuiSettings` for the cascade count.
`ImGui::SliderInt` writes the chosen value into `m_ShadowCascadeCount` and
reports whether the value changed: `slider` is `some v` when it stored `v`
and reported a change, `none` when it left the variable as it is. The result
is the new `m_ShadowCascadeCount`. -/
def DrawImGuiSettings_cascadeCount (m_ShadowCascadeCount : Int) (slider : Option Int) : Int :=
  match slider with
  | some v => clampInt v 1 4
  | none => m_ShadowCascadeCount

/-- The cascade count after `Renderer::LoadSettingsFromDisk`. `parsed` says
whether `JSONParser::ParseFromFile` succeeded. The member function
`JSONObject::SetIntChecked` is not among the sources and is a parameter: it
maps the old value of the variable to the value it leaves in it, which is
stored without a further check. -/
def LoadSettingsFromDisk_cascadeCount (parsed : Bool) (SetIntChecked : Int → Int)
    (m_ShadowCascadeCount : Int) : Int :=
  if parsed then SetIntChecked m_ShadowCascadeCount else m_ShadowCascadeCount

/-- The values of `c` in the loop
`for (u32 c = 0; c < (u32)m_ShadowCascadeCount; ++c)` of `Renderer::Update`,
each of which indexes `depthSplits[c]`. The cast to `u32` is the value modulo
`2^32`. -/
def updateCascadeIndices (m_ShadowCascadeCount : Int) : List Nat :=
  List.range (m_ShadowCascadeCount % 4294967296).toNat

/-! ## Uniform buffer allocator -/

/-- An alignment the device can report or the renderer can derive from it: a
power of two, or a value of at least 16 bytes. -/
def validAlignment (alignment : Nat) : Prop :=
  (∃ k : Nat, alignment = 2 ^ k) ∨ 16 ≤ alignment

/-! ## Draw batches -/

/-- The struct `RenderObjectBatch` of `VulkanRenderer.hpp`. -/
structure RenderObjectBatch where
  objects : List Nat
deriving DecidableEq, Repr

/-- The struct `MaterialBatchPair` of `VulkanRenderer.hpp`. -/
structure MaterialBatchPair where
  materialID : Nat
  batch : RenderObjectBatch
deriving DecidableEq, Repr

/-- The struct `MaterialBatch` of `VulkanRenderer.hpp`: one pair per material. -/
structure MaterialBatch where
  batches : List MaterialBatchPair
deriving DecidableEq, Repr

/-- The struct `ShaderBatchPair` of `VulkanRenderer.hpp`. -/
structure ShaderBatchPair where
  shaderID : Nat
  batch : MaterialBatch
deriving DecidableEq, Repr

/-- The struct `ShaderBatch` of `VulkanRenderer.hpp`: one pair per shader. -/
structure ShaderBatch where
  batches : List ShaderBatchPair
deriving DecidableEq, Repr

/-- Modelled from the spec: the object is put into the batch of its material,
which is created at the end when absent; objects of a batch keep their
insertion order. -/
def insertIntoMaterialBatch (renderID materialID : Nat) :
    List MaterialBatchPair → List MaterialBatchPair
  | [] => [{ materialID := materialID, batch := { objects := [renderID] } }]
  | p :: rest =>
    if p.materialID = materialID then
      { p with batch := { objects := p.batch.objects ++ [renderID] } } :: rest
    else p :: insertIntoMaterialBatch renderID materialID rest

/-- Modelled from the spec: the object is put into the batch of its shader,
which is created when absent at the place that keeps the shader batches in
shader registration order (the order of the shader IDs). -/
def insertIntoShaderBatch (renderID materialID shaderID : Nat) :
    List ShaderBatchPair → List ShaderBatchPair
  | [] =>
    [{ shaderID := shaderID,
       batch := { batches := insertIntoMaterialBatch renderID materialID [] } }]
  | p :: rest =>
    if p.shaderID = shaderID then
      { p with batch :=
          { batches := insertIntoMaterialBatch renderID materialID p.batch.batches } } :: rest
    else if shaderID < p.shaderID then
      { shaderID := shaderID,
        batch := { batches := insertIntoMaterialBatch renderID materialID [] } } :: p :: rest
    else p :: insertIntoShaderBatch renderID materialID shaderID rest

/-- Modelled from the spec: `Rebuild(activeRenderObjects)`, the batching whose
code (`BatchRenderObjects`) is only declared in `VulkanRenderer.hpp`. For
each render object, in order, its material and the shader of that material
are looked up and the object is put into the batch of that shader and
material. `materials` lists `(materialID, shaderID)`, `renderObjects` lists
`(renderID, materialID)`. An unknown material is an invalid handle and the
result is `none`. -/
def Rebuild (materials : List (Nat × Nat)) : List (Nat × Nat) → ShaderBatch → Option ShaderBatch
  | [], acc => some acc
  | (renderID, materialID) :: rest, acc =>
    match materials.lookup materialID with
    | some shaderID =>
      Rebuild materials rest
        { batches := insertIntoShaderBatch renderID materialID shaderID acc.batches }
    | none => none

/-- Modelled from the spec: `BatchRenderObjects`, a rebuild from empty batches. -/
def BatchRenderObjects (materials renderObjects : List (Nat × Nat)) : Option ShaderBatch :=
  Rebuild materials renderObjects { batches := [] }

/-- The materials of the end-to-end scenario: M0 and M1 use S0, M2 uses S1
(shaders S0, S1, S2 are registered in that order and have the IDs 0, 1, 2). -/
def scenarioMaterials : List (Nat × Nat) := [(0, 0), (1, 0), (2, 1)]

/-- The render objects of the end-to-end scenario: R0 and R2 use M0, R1 uses
M1, R3 uses M2. -/
def scenarioRenderObjects : List (Nat × Nat) := [(0, 0), (1, 1), (2, 0), (3, 2)]

/-! ## Scene tree (`GameObject::AddChild`, `GameObject::RemoveChild`) -/

/-- The members of `GameObject` that hold the scene tree: `m_Parent` and
`m_Children`. A pointer to a game object is its address, a natural number;
`none` is `nullptr`. -/
structure GameObject where
  m_Parent : Option Nat
  m_Children : List Nat
deriving DecidableEq, Repr

/-- The game objects of a scene, by address. -/
abbrev SceneObjects := Nat → GameObject

/-- Store to the object at address `a`. -/
def setObject (objects : SceneObjects) (a : Nat) (g : GameObject) : SceneObjects :=
  fun b => if b = a then g else objects b

/-- `GameObject::SetParent` on the object `this`: setting the object itself as
parent is refused. -/
def SetParent (objects : SceneObjects) (this : Nat) (parent : Option Nat) : SceneObjects :=
  if parent = some this then objects
  else setObject objects this { objects this with m_Parent := parent }

/-- `GameObject::RemoveChild` on the object `this`: the returned flag and the
new objects. The first entry of `m_Children` that equals `child` is erased,
after the parent of the child is reset. -/
def RemoveChild (objects : SceneObjects) (this : Nat) (child : Option Nat) :
    Bool × SceneObjects :=
  match child with
  | none => (false, objects)
  | some ch =>
    if ch ∈ (objects this).m_Children then
      let objects1 := SetParent objects ch none
      (true,
        setObject objects1 this
          { objects1 this with m_Children := (objects1 this).m_Children.erase ch })
    else (false, objects)

/-- `GameObject::DetachFromParent` on the object `this`. -/
def DetachFromParent (objects : SceneObjects) (this : Nat) : SceneObjects :=
  match (objects this).m_Parent with
  | some parent => (RemoveChild objects parent (some this)).2
  | none => objects

/-- `GameObject::AddChild` on the object `this`: the returned pointer and the
new objects. The transforms the function saves and restores are left out. -/
def AddChild (objects : SceneObjects) (this : Nat) (child : Option Nat) :
    Option Nat × SceneObjects :=
  match child with
  | none => (none, objects)
  | some ch =>
    if ch = this then (none, objects)
    else
      let objects1 :=
        if some ch = (objects this).m_Parent then DetachFromParent objects this else objects
      if ch ∈ (objects1 this).m_Children then (none, objects1)
      else
        let objects2 := setObject objects1 this
          { objects1 this with m_Children := (objects1 this).m_Children ++ [ch] }
        (some ch, SetParent objects2 ch (some this))

/-- The links of the scene tree are consistent: an object is in the children
list of at most one object, and it is in the children list of `P` exactly
when its parent is `P`. -/
def TreeConsistent (objects : SceneObjects) : Prop :=
  (∀ p q c, c ∈ (objects p).m_Children → c ∈ (objects q).m_Children → p = q) ∧
  (∀ p c, c ∈ (objects p).m_Children ↔ (objects c).m_Parent = some p)

/-- A scene of objects without parents and without children. -/
def looseObjects : SceneObjects := fun _ => { m_Parent := none, m_Children := [] }

/-- Modelled from the spec: the helper `Find(vec, value)` is not among the
sources; it is the search for the first entry equal to `value`, as
`std::find`. The result is the position of that entry, or the size of the
vector when there is none. -/
def Find (vec : List Nat) (value : Nat) : Nat :=
  vec.indexOf value

/-- `GameObject::GetAllSiblings` on the object `this`; `rootObjects` are the
root objects of the current scene. -/
def GetAllSiblings (objects : SceneObjects) (rootObjects : List Nat) (this : Nat) : List Nat :=
  match (objects this).m_Parent with
  | some parent => (objects parent).m_Children.filter (fun sibling => sibling != this)
  | none => rootObjects.filter (fun rootObject => rootObject != this)

/-- `GameObject::GetEarlierSiblings` on the object `this`: the entries before
the position `Find` gives. -/
def GetEarlierSiblings (objects : SceneObjects) (rootObjects : List Nat) (this : Nat) :
    List Nat :=
  match (objects this).m_Parent with
  | some parent => (objects parent).m_Children.take (Find (objects parent).m_Children this)
  | none => rootObjects.take (Find rootObjects this)

/-- `GameObject::GetLaterSiblings` on the object `this`: the entries after the
position `Find` gives. -/
def GetLaterSiblings (objects : SceneObjects) (rootObjects : List Nat) (this : Nat) :
    List Nat :=
  match (objects this).m_Parent with
  | some parent => (objects parent).m_Children.drop (Find (objects parent).m_Children this + 1)
  | none => rootObjects.drop (Find rootObjects this + 1)

/-! ## Terminal text editing -/

/-- The members `str` and `cursor` of `Terminal`. -/
structure Terminal where
  str : List Char
  cursor : Int
deriving DecidableEq, Repr

/-- `Terminal::TypeChar`. The position `str.begin() + cursor` is taken as the
index `cursor`, for a cursor inside the string. -/
def Terminal.TypeChar (t : Terminal) (c : Char) : Terminal :=
  { str := t.str.take t.cursor.toNat ++ c :: t.str.drop t.cursor.toNat
    cursor := t.cursor + 1 }

/-- `Terminal::DeleteChar`. -/
def Terminal.DeleteChar (t : Terminal) : Terminal :=
  if !t.str.isEmpty && t.cursor > 0 then
    { str := t.str.eraseIdx (t.cursor - 1).toNat, cursor := t.cursor - 1 }
  else t

/-- `Terminal::DeleteCharInFront`. -/
def Terminal.DeleteCharInFront (t : Terminal) : Terminal :=
  if t.cursor < (t.str.length : Int) then
    { t with str := t.str.eraseIdx t.cursor.toNat }
  else t

/-- `Terminal::ClearStr`. -/
def Terminal.ClearStr (t : Terminal) : Terminal :=
  { t with str := [] }

/-- `Terminal::MoveCursorToStart`. -/
def Terminal.MoveCursorToStart (t : Terminal) : Terminal :=
  { t with cursor := 0 }

/-- `Terminal::MoveCursorToEnd`. -/
def Terminal.MoveCursorToEnd (t : Terminal) : Terminal :=
  { t with cursor := (t.str.length : Int) - 1 }

/-- `Terminal::MoveCursorLeft`. -/
def Terminal.MoveCursorLeft (t : Terminal) : Terminal :=
  if t.cursor > 0 then { t with cursor := t.cursor - 1 } else t

/-- `Terminal::MoveCursorRight`. -/
def Terminal.MoveCursorRight (t : Terminal) : Terminal :=
  if t.cursor < (t.str.length : Int) then { t with cursor := t.cursor + 1 } else t

/-- The cursor invariant `0 <= cursor <= length of str`. -/
def Terminal.CursorInRange (t : Terminal) : Prop :=
  0 ≤ t.cursor ∧ t.cursor ≤ (t.str.length : Int)

/-- The terminal `ParseUniqueFields` builds from an empty string. -/
def emptyTerminal : Terminal := { str := [], cursor := 0 }

/-! ## Screen space text buffer (`Renderer::UpdateTextBufferSS`) -/

/-- What `Renderer::UpdateTextBufferSS` reads of a screen space font: the
strings of its text caches, and for every character whether the metric
`GetMetric(c)` is valid (`bIsValid`). -/
structure FontSS where
  textCaches : List (List Char)
  metricValid : Char → Bool

/-- The conditions under which the loop body writes a vertex for the
character `c`: the character is valid (`BitmapFont::IsCharValid`, which is
not among the sources and is a parameter), its metric is valid, and it is
not a space. -/
def isDrawn (IsCharValid : Char → Bool) (font : FontSS) (c : Char) : Bool :=
  IsCharValid c && font.metricValid c && c != ' '

/-- The loop `for (char c : currentStr)`: `writes` collects the indices of
the writes `outTextVertices[charIndex++] = vert`, in order. -/
def textCharLoop (IsCharValid : Char → Bool) (font : FontSS) :
    List Char → List Nat × Nat → List Nat × Nat
  | [], r => r
  | c :: rest, (writes, charIndex) =>
    if IsCharValid c then
      if font.metricValid c then
        if c = ' ' then textCharLoop IsCharValid font rest (writes, charIndex)
        else textCharLoop IsCharValid font rest (writes ++ [charIndex], charIndex + 1)
      else textCharLoop IsCharValid font rest (writes, charIndex)
    else textCharLoop IsCharValid font rest (writes, charIndex)

/-- The loop over the text caches of one font. -/
def textCacheLoop (IsCharValid : Char → Bool) (font : FontSS) :
    List (List Char) → List Nat × Nat → List Nat × Nat
  | [], r => r
  | str :: rest, r => textCacheLoop IsCharValid font rest (textCharLoop IsCharValid font str r)

/-- The result of `Renderer::UpdateTextBufferSS`: the size the output vector
is resized to, the indices written, the pair `(bufferStart, bufferSize)` of
every font in loop order, and the returned `charIndex`. -/
structure TextBufferResult where
  charCountUpperBound : Nat
  writes : List Nat
  ranges : List (Int × Int)
  charIndex : Nat
deriving DecidableEq, Repr

/-- The second loop over `m_FontsSS`: for every font `bufferStart`, the
caches, then `bufferSize`. -/
def textFontLoop (IsCharValid : Char → Bool) :
    List FontSS → List Nat × Nat → List (Int × Int) → List Nat × Nat × List (Int × Int)
  | [], r, ranges => (r.1, r.2, ranges)
  | font :: rest, r, ranges =>
    let bufferStart : Int := (r.2 : Int)
    let r1 := textCacheLoop IsCharValid font font.textCaches r
    let bufferSize : Int := (r1.2 : Int) - bufferStart
    textFontLoop IsCharValid rest r1 (ranges ++ [(bufferStart, bufferSize)])

/-- The first loop of `Renderer::UpdateTextBufferSS`, which sums the lengths
of all cached strings. -/
def charCountUpperBound (m_FontsSS : List FontSS) : Nat :=
  m_FontsSS.foldl
    (fun total font => font.textCaches.foldl (fun n str => n + str.length) total) 0

/-- `Renderer::UpdateTextBufferSS`, without the vertex contents. -/
def UpdateTextBufferSS (IsCharValid : Char → Bool) (m_FontsSS : List FontSS) :
    TextBufferResult :=
  let r := textFontLoop IsCharValid m_FontsSS ([], 0) []
  { charCountUpperBound := charCountUpperBound m_FontsSS
    writes := r.1
    ranges := r.2.2
    charIndex := r.2.1 }

/-- The number of drawn characters of a string. -/
def drawnInString (IsCharValid : Char → Bool) (font : FontSS) (str : List Char) : Nat :=
  (str.filter (isDrawn IsCharValid font)).length

/-- The number of drawn characters over all cached strings of a font. -/
def drawnInFont (IsCharValid : Char → Bool) (font : FontSS) : Nat :=
  (font.textCaches.map (drawnInString IsCharValid font)).sum

/-- The ranges `(start, size)` follow each other from `a` to `b`: the first
starts at `a`, each next one starts where the one before it ends, and the
last ends at `b`. -/
def Consecutive : Int → List (Int × Int) → Int → Prop
  | a, [], b => a = b
  | a, (start, size) :: rest, b => start = a ∧ 0 ≤ size ∧ Consecutive (a + size) rest b

/-- Example scene: object 1 has the children 2, 3 and 4. -/
def familyObjects : SceneObjects :=
  fun a =>
    if a = 1 then { m_Parent := none, m_Children := [2, 3, 4] }
    else if a = 2 ∨ a = 3 ∨ a = 4 then { m_Parent := some 1, m_Children := [] }
    else { m_Parent := none, m_Children := [] }

/-- The pass bookkeeping of `Renderer::LoadFontMetrics` under
`if (channel == 4)`, on the triple `(bHorizontal, posCount, curPos)`: what a
complete group of four glyphs does to the pass variables. -/
def groupStep (p : Bool × Nat × Nat) : Bool × Nat × Nat :=
  if p.2.2 + 1 = p.2.1 then
    if p.1 then (false, p.2.1 + 1, 0) else (true, p.2.1, 0)
  else (p.1, p.2.1, p.2.2 + 1)

/-- Example input of the atlas loop: `n` glyphs whose padded size is 1 x 1. -/
def unitGlyphs (n : Nat) : List (Option (Nat × Nat)) :=
  List.replicate n (some (1, 1))

/-! ## Depth slices in binary32 arithmetic (`Renderer::Update`) -/

/-- A finite value of the type `float` (IEEE 754 binary32, the component type
of `glm::vec3` and the type `real`): the number `m * 2^e`. The two zeros are
not told apart. -/
structure Binary32 where
  m : Int
  e : Int
deriving DecidableEq, Repr

/-- The pair is a value of the format: the significand has at most 24 binary
digits, the exponent of its last digit lies between -149 and 104, and the
significand has its full 24 digits unless the exponent is the smallest one
(subnormal numbers and zero). Every value of the format has one such pair. -/
def Binary32.InFormat (x : Binary32) : Prop :=
  x.m.natAbs < 2 ^ 24 ∧ -149 ≤ x.e ∧ x.e ≤ 104 ∧ (2 ^ 23 ≤ x.m.natAbs ∨ x.e = -149)

/-- Number of binary digits of `n`, with `fuel` rounds of halving. -/
def bitLengthAux : Nat → Nat → Nat
  | 0, _ => 0
  | fuel + 1, n => if n = 0 then 0 else bitLengthAux fuel (n / 2) + 1

/-- Number of binary digits of `n` (0 for 0). -/
def bitLength (n : Nat) : Nat := bitLengthAux n n

/-- The binary32 value nearest to the exact number `M * 2^E`, ties to the even
significand (the rounding of every `float` operation); `none` when the
rounded number is beyond the largest finite value, where the operation gives
an infinity. The exponent `e` of the last kept digit leaves 24 digits, but is
not below -149. -/
def roundBinary32 (M E : Int) : Option Binary32 :=
  let a := M.natAbs
  let e := max (E + (bitLength a : Int) - 24) (-149)
  let scaled := a * 2 ^ (E - e).toNat
  let q := scaled / 2 ^ (e - E).toNat
  let r := scaled % 2 ^ (e - E).toNat
  let q1 :=
    if 2 * r < 2 ^ (e - E).toNat then q
    else if 2 ^ (e - E).toNat < 2 * r then q + 1
    else if q % 2 = 0 then q else q + 1
  if M = 0 then some ⟨0, -149⟩
  else if q1 = 2 ^ 24 then
    if e + 1 ≤ 104 then some ⟨M.sign * 2 ^ 23, e + 1⟩ else none
  else if e ≤ 104 then some ⟨M.sign * q1, e⟩ else none

/-- The sum of two `float` values; `none` stands for an infinity or a NaN,
which an operand that is one of them yields again. -/
def addBinary32 : Option Binary32 → Option Binary32 → Option Binary32
  | some x, some y =>
    roundBinary32 (x.m * 2 ^ (x.e - min x.e y.e).toNat + y.m * 2 ^ (y.e - min x.e y.e).toNat)
      (min x.e y.e)
  | _, _ => none

/-- The difference of two `float` values. -/
def subBinary32 : Option Binary32 → Option Binary32 → Option Binary32
  | some x, some y =>
    roundBinary32 (x.m * 2 ^ (x.e - min x.e y.e).toNat - y.m * 2 ^ (y.e - min x.e y.e).toNat)
      (min x.e y.e)
  | _, _ => none

/-- The product of two `float` values. -/
def mulBinary32 : Option Binary32 → Option Binary32 → Option Binary32
  | some x, some y => roundBinary32 (x.m * y.m) (x.e + y.e)
  | _, _ => none

/-- The value `x`, whose exponent is not positive, lies within half a unit of
its last digit of the fraction `num / den`: it is a binary32 value nearest to
the decimal literal `num / den`. -/
def Binary32.NearestTo (x : Binary32) (num den : Nat) : Prop :=
  x.e ≤ 0 ∧ 2 * ((num : Int) * 2 ^ (-x.e).toNat - (den : Int) * x.m).natAbs ≤ den

/-- The value `0.0f`. -/
def zeroBinary32 : Option Binary32 := some ⟨0, -149⟩

/-- The value `1.0f`. -/
def oneBinary32 : Option Binary32 := some ⟨8388608, -23⟩

/-- The embedding of `glm::vec3` with its `float` components. -/
structure Vec3f where
  x : Option Binary32
  y : Option Binary32
  z : Option Binary32
deriving DecidableEq

/-- Component-wise sum, `operator+` of `glm::vec3`. -/
def Vec3f.add (a b : Vec3f) : Vec3f :=
  ⟨addBinary32 a.x b.x, addBinary32 a.y b.y, addBinary32 a.z b.z⟩

/-- Component-wise difference, `operator-` of `glm::vec3`. -/
def Vec3f.sub (a b : Vec3f) : Vec3f :=
  ⟨subBinary32 a.x b.x, subBinary32 a.y b.y, subBinary32 a.z b.z⟩

/-- Product with a scalar, `operator*` of `glm::vec3` and `float`. -/
def Vec3f.scale (a : Vec3f) (k : Option Binary32) : Vec3f :=
  ⟨mulBinary32 a.x k, mulBinary32 a.y k, mulBinary32 a.z k⟩

/-- The three components are values of the format. -/
def Vec3f.InFormat (a : Vec3f) : Prop :=
  (∃ x, a.x = some x ∧ x.InFormat) ∧ (∃ y, a.y = some y ∧ y.InFormat) ∧
  (∃ z, a.z = some z ∧ z.InFormat)

/-- No component is an infinity or a NaN. -/
def Vec3f.IsFinite (a : Vec3f) : Prop :=
  a.x.isSome = true ∧ a.y.isSome = true ∧ a.z.isSome = true

/-- The vector `depthSplits(0.04f, 0.15f, 0.4f, 1.0f)` of `Renderer::Update`
with the binary32 values of its literals: `0.04f` is `10737418 * 2^-28`,
`0.15f` is `10066330 * 2^-26` and `0.4f` is `13421773 * 2^-25`. -/
def depthSplitsF32 : List (Option Binary32) :=
  [some ⟨10737418, -28⟩, some ⟨10066330, -26⟩, some ⟨13421773, -25⟩, oneBinary32]

/-- Array store `frustumCorners[i] = v`. -/
def setCornerF32 (frustumCorners : Nat → Vec3f) (i : Nat) (v : Vec3f) : Nat → Vec3f :=
  fun j => if j = i then v else frustumCorners j

/-- One round of the loop `for (u32 i = 0; i < 4; ++i)` that carves the slice,
in binary32 arithmetic, every operation rounded on its own: `dist` is taken
first, then the far corner and then the near corner are overwritten. -/
def carveCornerF32 (lastSplitDist splitDist : Option Binary32) (frustumCorners : Nat → Vec3f)
    (i : Nat) : Nat → Vec3f :=
  let dist := (frustumCorners (i + 4)).sub (frustumCorners i)
  let fc1 := setCornerF32 frustumCorners (i + 4) ((frustumCorners i).add (dist.scale splitDist))
  setCornerF32 fc1 i ((fc1 i).add (dist.scale lastSplitDist))

/-- The loop `for (u32 i = 0; i < 4; ++i)` over the four near/far pairs, in
binary32 arithmetic. -/
def carveSliceF32 (lastSplitDist splitDist : Option Binary32) (frustumCorners : Nat → Vec3f) :
    Nat → Vec3f :=
  (List.range 4).foldl (carveCornerF32 lastSplitDist splitDist) frustumCorners

/-- The two fractions and the corners of the depth slice of a cascade, in
binary32 arithmetic. -/
structure CascadeSliceF32 where
  lastSplitDist : Option Binary32
  splitDist : Option Binary32
  frustumCorners : Nat → Vec3f

/-- The loop `for (u32 c = 0; c < (u32)m_ShadowCascadeCount; ++c)` of
`Renderer::Update` with `n` rounds left, in binary32 arithmetic.
`worldCorners` are the eight frustum corners after the transformation to
world space, which is the same in every round; an index `c` outside
`depthSplits` is an access out of bounds in the source and reads `0.0f` in the
model. -/
def cascadeFromF32 (worldCorners : Nat → Vec3f) :
    Nat → Nat → Option Binary32 → List CascadeSliceF32
  | 0, _, _ => []
  | n + 1, c, lastSplitDist =>
    let splitDist := depthSplitsF32.getD c zeroBinary32
    { lastSplitDist := lastSplitDist
      splitDist := splitDist
      frustumCorners := carveSliceF32 lastSplitDist splitDist worldCorners } ::
      cascadeFromF32 worldCorners n (c + 1) (depthSplitsF32.getD c zeroBinary32)

/-- The depth slices of the cascades of `Renderer::Update` in binary32
arithmetic (`real lastSplitDist = 0.0f` before the loop). -/
def cascadeSlicesF32 (worldCorners : Nat → Vec3f) (m_ShadowCascadeCount : Nat) :
    List CascadeSliceF32 :=
  cascadeFromF32 worldCorners m_ShadowCascadeCount 0 zeroBinary32

/-- World space corners whose near corners are `(1.1f, 0, 0)` and whose far
corners are `(3.3f, 0, 0)`: `1.1f` is `9227469 * 2^-23` and `3.3f` is
`13841203 * 2^-22`. -/
def skewCornersF32 : Nat → Vec3f :=
  fun i =>
    if i < 4 then ⟨some ⟨9227469, -23⟩, zeroBinary32, zeroBinary32⟩
    else ⟨some ⟨13841203, -22⟩, zeroBinary32, zeroBinary32⟩

/-! ## Theorems -/

theorem placeGlyph_metric (s : AtlasState) (c w h : Nat) :
    (placeGlyph s c w h).1 =
      { character := c, width := w % 65536, height := h % 65536, channel := s.channel,
        texCoord := s.startPos s.channel } := by
  unfold placeGlyph
  simp only []
  split_ifs <;> rfl

theorem placeGlyph_maxPos (s : AtlasState) (c w h : Nat) :
    (placeGlyph s c w h).2.maxPos =
      setAt s.maxPos s.channel
        ⟨max (s.maxPos s.channel).x ((s.startPos s.channel).x + (w : Int)),
         max (s.maxPos s.channel).y ((s.startPos s.channel).y + (h : Int))⟩ := by
  unfold placeGlyph
  simp only []
  split_ifs <;> funext j <;> by_cases hj : j = s.channel <;> simp [setAt, hj]

theorem placeGlyph_channel (s : AtlasState) (c w h : Nat) :
    (placeGlyph s c w h).2.channel = if s.channel + 1 = 4 then 0 else s.channel + 1 := by
  unfold placeGlyph
  simp only []
  split_ifs <;> rfl

theorem not_overlaps_of_sep (a b : FontMetric)
    (h : a.texCoord.x + (a.width : Int) ≤ b.texCoord.x ∨
      a.texCoord.y + (a.height : Int) ≤ b.texCoord.y) : ¬ a.overlaps b := by
  rintro ⟨px, py, ha, hb⟩
  unfold FontMetric.covers at ha hb
  omega

theorem placeGlyph_frontier (s : AtlasState) (c w h : Nat) (m : FontMetric)
    (hs : s.channel < 4) (hch : m.channel < 4)
    (hmax : m.texCoord.x + (m.width : Int) ≤ ((placeGlyph s c w h).2.maxPos m.channel).x ∧
      m.texCoord.y + (m.height : Int) ≤ ((placeGlyph s c w h).2.maxPos m.channel).y)
    (hfr : if s.bHorizontal then
        m.texCoord.x + (m.width : Int) ≤ (s.startPos m.channel).x ∨
        (m.texCoord.x = (s.startPos m.channel).x ∧
          m.texCoord.y + (m.height : Int) ≤
            (if m.channel = s.channel then (s.startPos m.channel).y + (h : Int)
              else (s.startPos m.channel).y))
      else
        m.texCoord.y + (m.height : Int) ≤ (s.startPos m.channel).y ∨
        (m.texCoord.y = (s.startPos m.channel).y ∧
          m.texCoord.x + (m.width : Int) ≤
            (if m.channel = s.channel then (s.startPos m.channel).x + (w : Int)
              else (s.startPos m.channel).x))) :
    if (placeGlyph s c w h).2.bHorizontal then
      m.texCoord.x + (m.width : Int) ≤ ((placeGlyph s c w h).2.startPos m.channel).x ∨
      (m.texCoord.x = ((placeGlyph s c w h).2.startPos m.channel).x ∧
        m.texCoord.y + (m.height : Int) ≤ ((placeGlyph s c w h).2.startPos m.channel).y)
    else
      m.texCoord.y + (m.height : Int) ≤ ((placeGlyph s c w h).2.startPos m.channel).y ∨
      (m.texCoord.y = ((placeGlyph s c w h).2.startPos m.channel).y ∧
        m.texCoord.x + (m.width : Int) ≤ ((placeGlyph s c w h).2.startPos m.channel).x) := by
  revert hmax
  unfold placeGlyph
  simp only []
  cases hb : s.bHorizontal <;> simp only [hb] at hfr <;>
    by_cases h4 : s.channel + 1 = 4 <;> by_cases hp : s.curPos + 1 = s.posCount <;>
    by_cases hm : m.channel = s.channel <;>
    simp [setAt, h4, hp, hm, hch, hs] at hfr ⊢ <;> omega

theorem AtlasInv_step_of (s : AtlasState) (ms : List FontMetric) (c w h : Nat)
    (m0 : FontMetric) (hc0 : m0.channel = s.channel)
    (ht0 : m0.texCoord = s.startPos s.channel) (hw0 : m0.width ≤ w) (hh0 : m0.height ≤ h)
    (hinv : AtlasInv s ms) :
    AtlasInv (placeGlyph s c w h).2 (ms ++ [m0]) := by
  obtain ⟨hs, hch, hmax, hfr, hpw⟩ := hinv
  have hmax2 : ∀ m ∈ ms ++ [m0],
      m.texCoord.x + (m.width : Int) ≤ ((placeGlyph s c w h).2.maxPos m.channel).x ∧
      m.texCoord.y + (m.height : Int) ≤ ((placeGlyph s c w h).2.maxPos m.channel).y := by
    intro m hm
    rw [placeGlyph_maxPos]
    rw [List.mem_append, List.mem_singleton] at hm
    rcases hm with hm | hm
    · have hb := hmax m hm
      by_cases hc : m.channel = s.channel
      · rw [hc] at hb
        simp only [setAt, hc, if_true]
        omega
      · simp only [setAt, hc, if_false]
        exact hb
    · rw [hm]
      simp only [setAt, hc0, ht0, if_true]
      omega
  have hch2 : ∀ m ∈ ms ++ [m0], m.channel < 4 := by
    intro m hm
    rw [List.mem_append, List.mem_singleton] at hm
    rcases hm with hm | hm
    · exact hch m hm
    · rw [hm, hc0]
      exact hs
  refine ⟨?_, hch2, hmax2, ?_, ?_⟩
  · rw [placeGlyph_channel]
    split_ifs <;> omega
  · intro m hm
    apply placeGlyph_frontier s c w h m hs (hch2 m hm) (hmax2 m hm)
    rw [List.mem_append, List.mem_singleton] at hm
    rcases hm with hm | hm
    · have hf := hfr m hm
      by_cases hc : m.channel = s.channel <;> cases hb : s.bHorizontal <;>
        simp only [hb, hc, if_true, if_false] at hf ⊢ <;> (try simp at hf ⊢) <;> omega
    · rw [hm]
      cases hb : s.bHorizontal <;> simp [hc0, ht0] <;> right <;> omega
  · rw [List.pairwise_append]
    refine ⟨hpw, List.pairwise_singleton _ _, ?_⟩
    intro a ha b hb hab
    rw [List.mem_singleton] at hb
    rw [hb] at hab ⊢
    apply not_overlaps_of_sep
    have hf := hfr a ha
    rw [hab, hc0] at hf
    rw [ht0]
    cases hbh : s.bHorizontal <;> simp only [hbh] at hf <;> simp at hf ⊢ <;> omega

theorem AtlasInv_step (s : AtlasState) (ms : List FontMetric) (c w h : Nat)
    (hinv : AtlasInv s ms) :
    AtlasInv (placeGlyph s c w h).2 (ms ++ [(placeGlyph s c w h).1]) := by
  apply AtlasInv_step_of s ms c w h _ _ _ _ _ hinv
  · rw [placeGlyph_metric]
  · rw [placeGlyph_metric]
  · rw [placeGlyph_metric]
    exact Nat.mod_le _ _
  · rw [placeGlyph_metric]
    exact Nat.mod_le _ _

theorem AtlasInv_step_reserved (s : AtlasState) (ms : List FontMetric) (c w h : Nat)
    (hinv : AtlasInv s ms) :
    AtlasInv (placeGlyph s c w h).2 (ms ++ [reservedRect (placeGlyph s c w h).1 (w, h)]) := by
  apply AtlasInv_step_of s ms c w h _ _ _ _ _ hinv
  · rw [placeGlyph_metric]
    rfl
  · rw [placeGlyph_metric]
    rfl
  · exact le_refl _
  · exact le_refl _

theorem reservedRects_none (rest : List (Option (Nat × Nat))) (c : Nat) (s : AtlasState) :
    reservedRects (none :: rest) c s = reservedRects rest (c + 1) s := by
  simp [reservedRects, fontLoop]

theorem reservedRects_some (rest : List (Option (Nat × Nat))) (c w h : Nat) (s : AtlasState) :
    reservedRects (some (w, h) :: rest) c s =
      reservedRect (placeGlyph s c w h).1 (w, h) ::
        reservedRects rest (c + 1) (placeGlyph s c w h).2 := by
  simp [reservedRects, fontLoop]

theorem AtlasInv_fontLoop_reserved (sizes : List (Option (Nat × Nat))) :
    ∀ (c : Nat) (s : AtlasState) (pre : List FontMetric), AtlasInv s pre →
      AtlasInv (fontLoop sizes c s).2 (pre ++ reservedRects sizes c s) := by
  induction sizes with
  | nil => intro c s pre h; simpa [fontLoop, reservedRects] using h
  | cons g rest ih =>
    intro c s pre h
    cases g with
    | none =>
      rw [reservedRects_none]
      simpa [fontLoop] using ih (c + 1) s pre h
    | some wh =>
      obtain ⟨w, ht⟩ := wh
      have h2 := ih (c + 1) _ _ (AtlasInv_step_reserved s pre c w ht h)
      rw [reservedRects_some]
      simpa [fontLoop] using h2

theorem AtlasInv_fontLoop (sizes : List (Option (Nat × Nat))) :
    ∀ (c : Nat) (s : AtlasState) (pre : List FontMetric), AtlasInv s pre →
      AtlasInv (fontLoop sizes c s).2 (pre ++ (fontLoop sizes c s).1) := by
  induction sizes with
  | nil => intro c s pre h; simpa [fontLoop] using h
  | cons g rest ih =>
    intro c s pre h
    cases g with
    | none => simpa [fontLoop] using ih (c + 1) s pre h
    | some wh =>
      obtain ⟨w, ht⟩ := wh
      have h2 := ih (c + 1) _ _ (AtlasInv_step s pre c w ht h)
      simpa [fontLoop] using h2

theorem AtlasInv_init : AtlasInv AtlasState.init [] := by
  refine ⟨by decide, ?_, ?_, ?_, List.Pairwise.nil⟩ <;> intro m hm <;> cases hm

/-- C1. Any two distinct glyphs stored by the atlas loop of
`Renderer::LoadFontMetrics` that have the same channel have rectangles
`[texCoord.x, texCoord.x + width) x [texCoord.y, texCoord.y + height)`
without a common texel. This holds for every sequence of glyph sizes given
to the loop, and so for the sizes `LoadFontMetrics` computes from the
bitmaps. It holds for the rectangles of the stored metrics, whose width and
height are `u16` values, and for the rectangles the loop reserves, which have
the full width and height. -/
theorem LoadFontMetrics_rectangles_disjoint (sizes : List (Option (Nat × Nat))) :
    (fontLoop sizes 0 AtlasState.init).1.Pairwise
      (fun a b => a.channel = b.channel → ¬ a.overlaps b) ∧
    (LoadFontMetrics sizes).1.Pairwise
      (fun a b => a.channel = b.channel → ¬ a.overlaps b) ∧
    (reservedRects sizes 0 AtlasState.init).Pairwise
      (fun a b => a.channel = b.channel → ¬ a.overlaps b) := by
  refine ⟨?_, ?_, ?_⟩
  · have h := AtlasInv_fontLoop sizes 0 AtlasState.init [] AtlasInv_init
    simpa using h.2.2.2.2
  · have h := AtlasInv_fontLoop (sizes.map (Option.map paddedSize)) 0 AtlasState.init []
      AtlasInv_init
    simpa [LoadFontMetrics] using h.2.2.2.2
  · have h := AtlasInv_fontLoop_reserved sizes 0 AtlasState.init [] AtlasInv_init
    simpa using h.2.2.2.2

theorem placeGlyph_nonneg (s : AtlasState) (c w h : Nat)
    (hs : ∀ ch, 0 ≤ (s.startPos ch).x ∧ 0 ≤ (s.startPos ch).y ∧
      0 ≤ (s.maxPos ch).x ∧ 0 ≤ (s.maxPos ch).y) :
    ∀ ch, 0 ≤ ((placeGlyph s c w h).2.startPos ch).x ∧
      0 ≤ ((placeGlyph s c w h).2.startPos ch).y ∧
      0 ≤ ((placeGlyph s c w h).2.maxPos ch).x ∧
      0 ≤ ((placeGlyph s c w h).2.maxPos ch).y := by
  intro ch
  have h1 := hs ch
  have h2 := hs s.channel
  unfold placeGlyph
  simp only []
  cases hb : s.bHorizontal <;>
    by_cases h4 : s.channel + 1 = 4 <;> by_cases hp : s.curPos + 1 = s.posCount <;>
    by_cases hm : ch = s.channel <;> by_cases hc : ch < 4 <;>
    by_cases hc2 : s.channel < 4 <;>
    simp [setAt, h4, hp, hm, hc, hc2] <;> omega

theorem IsBoundingBox_step_of (s : AtlasState) (c w h : Nat) (ms : List FontMetric)
    (m0 : FontMetric) (hc0 : m0.channel = s.channel)
    (ht0 : m0.texCoord = s.startPos s.channel) (hw0 : m0.width = w) (hh0 : m0.height = h)
    (hnn : 0 ≤ (s.startPos s.channel).x ∧ 0 ≤ (s.startPos s.channel).y)
    (hbox : ∀ ch, IsBoundingBox ms ch (s.maxPos ch)) :
    ∀ ch, IsBoundingBox (ms ++ [m0]) ch ((placeGlyph s c w h).2.maxPos ch) := by
  intro ch
  rw [placeGlyph_maxPos]
  obtain ⟨hub, hatt⟩ := hbox ch
  by_cases hc : ch = s.channel
  · subst hc
    simp only [setAt, if_true]
    constructor
    · intro m hm hmc
      rw [List.mem_append, List.mem_singleton] at hm
      rcases hm with hm | hm
      · have := hub m hm hmc
        simp only
        omega
      · rw [hm, ht0, hw0, hh0]
        simp only
        omega
    · left
      constructor
      · by_cases hle : (s.maxPos s.channel).x ≤ (s.startPos s.channel).x + (w : Int)
        · refine ⟨m0, List.mem_append_right _ (List.mem_singleton_self _), hc0, ?_⟩
          rw [ht0, hw0]
          simp only
          omega
        · rcases hatt with ⟨⟨m, hm, hmc, hmx⟩, _⟩ | ⟨_, hz⟩
          · refine ⟨m, List.mem_append_left _ hm, hmc, ?_⟩
            simp only
            omega
          · rw [hz] at hle
            simp only at hle
            omega
      · by_cases hle : (s.maxPos s.channel).y ≤ (s.startPos s.channel).y + (h : Int)
        · refine ⟨m0, List.mem_append_right _ (List.mem_singleton_self _), hc0, ?_⟩
          rw [ht0, hh0]
          simp only
          omega
        · rcases hatt with ⟨_, ⟨m, hm, hmc, hmy⟩⟩ | ⟨_, hz⟩
          · refine ⟨m, List.mem_append_left _ hm, hmc, ?_⟩
            simp only
            omega
          · rw [hz] at hle
            simp only at hle
            omega
  · simp only [setAt, hc, if_false]
    have hne : m0.channel ≠ ch := fun e => hc (e.symm.trans hc0)
    constructor
    · intro m hm hmc
      rw [List.mem_append, List.mem_singleton] at hm
      rcases hm with hm | hm
      · exact hub m hm hmc
      · rw [hm] at hmc
        exact absurd hmc hne
    · rcases hatt with ⟨⟨m1, hm1, hc1, hx1⟩, ⟨m2, hm2, hc2, hy2⟩⟩ | ⟨hemp, hz⟩
      · left
        exact ⟨⟨m1, List.mem_append_left _ hm1, hc1, hx1⟩,
          ⟨m2, List.mem_append_left _ hm2, hc2, hy2⟩⟩
      · right
        refine ⟨?_, hz⟩
        intro m hm
        rw [List.mem_append, List.mem_singleton] at hm
        rcases hm with hm | hm
        · exact hemp m hm
        · rw [hm]
          exact hne

theorem BoxInv_step (s : AtlasState) (ms : List FontMetric) (c w h : Nat)
    (hw : w < 65536) (hh : h < 65536) (hinv : BoxInv s ms) :
    BoxInv (placeGlyph s c w h).2 (ms ++ [(placeGlyph s c w h).1]) :=
  ⟨placeGlyph_nonneg s c w h hinv.1,
    IsBoundingBox_step_of s c w h ms _ (by rw [placeGlyph_metric]) (by rw [placeGlyph_metric])
      (by rw [placeGlyph_metric]; exact Nat.mod_eq_of_lt hw)
      (by rw [placeGlyph_metric]; exact Nat.mod_eq_of_lt hh)
      ⟨(hinv.1 s.channel).1, (hinv.1 s.channel).2.1⟩ hinv.2⟩

theorem BoxInv_step_reserved (s : AtlasState) (ms : List FontMetric) (c w h : Nat)
    (hinv : BoxInv s ms) :
    BoxInv (placeGlyph s c w h).2 (ms ++ [reservedRect (placeGlyph s c w h).1 (w, h)]) :=
  ⟨placeGlyph_nonneg s c w h hinv.1,
    IsBoundingBox_step_of s c w h ms _ (by rw [placeGlyph_metric]; rfl)
      (by rw [placeGlyph_metric]; rfl) rfl rfl
      ⟨(hinv.1 s.channel).1, (hinv.1 s.channel).2.1⟩ hinv.2⟩

theorem BoxInv_fontLoop (sizes : List (Option (Nat × Nat))) :
    (∀ g ∈ sizes, fitsU16 g = true) →
    ∀ (c : Nat) (s : AtlasState) (pre : List FontMetric), BoxInv s pre →
      BoxInv (fontLoop sizes c s).2 (pre ++ (fontLoop sizes c s).1) := by
  induction sizes with
  | nil => intro _ c s pre h; simpa [fontLoop] using h
  | cons g rest ih =>
    intro hfit c s pre h
    have hrest : ∀ g ∈ rest, fitsU16 g = true := fun g hg => hfit g (List.mem_cons_of_mem _ hg)
    cases g with
    | none => simpa [fontLoop] using ih hrest (c + 1) s pre h
    | some wh =>
      obtain ⟨w, ht⟩ := wh
      have hwh := hfit (some (w, ht)) (List.mem_cons_self _ _)
      simp only [fitsU16, Bool.and_eq_true, decide_eq_true_eq] at hwh
      have h2 := ih hrest (c + 1) _ _ (BoxInv_step s pre c w ht hwh.1 hwh.2 h)
      simpa [fontLoop] using h2

theorem BoxInv_fontLoop_reserved (sizes : List (Option (Nat × Nat))) :
    ∀ (c : Nat) (s : AtlasState) (pre : List FontMetric), BoxInv s pre →
      BoxInv (fontLoop sizes c s).2 (pre ++ reservedRects sizes c s) := by
  induction sizes with
  | nil => intro c s pre h; simpa [fontLoop, reservedRects] using h
  | cons g rest ih =>
    intro c s pre h
    cases g with
    | none =>
      rw [reservedRects_none]
      simpa [fontLoop] using ih (c + 1) s pre h
    | some wh =>
      obtain ⟨w, ht⟩ := wh
      have h2 := ih (c + 1) _ _ (BoxInv_step_reserved s pre c w ht h)
      rw [reservedRects_some]
      simpa [fontLoop] using h2

theorem BoxInv_init : BoxInv AtlasState.init [] := by
  refine ⟨fun ch => by simp [AtlasState.init], fun ch => ⟨?_, Or.inr ⟨?_, rfl⟩⟩⟩ <;>
    intro m hm <;> cases hm

/-- C2 (the claim as stated fails). A single glyph whose bitmap is 65530
texels wide and 1 texel high has the padded width 65542: the metric stores
`(u16)65542 = 6` as its width, at `texCoord = (0, 0)`, while
`outMaxPositions[0]` is `(65542, 13)`. No glyph of channel 0 has
`texCoord.x + width = 65542`, so `outMaxPositions[0]` is not the tight
bounding box of the stored rectangles. -/
theorem LoadFontMetrics_maxPositions_beyond_stored_width :
    (LoadFontMetrics [some (65530, 1)]).1 =
      [{ character := 0, width := 6, height := 13, channel := 0, texCoord := ⟨0, 0⟩ }] ∧
    (LoadFontMetrics [some (65530, 1)]).2 0 = ⟨65542, 13⟩ ∧
    ¬ IsBoundingBox (LoadFontMetrics [some (65530, 1)]).1 0
      ((LoadFontMetrics [some (65530, 1)]).2 0) := by
  have h1 : (LoadFontMetrics [some (65530, 1)]).1 =
      [{ character := 0, width := 6, height := 13, channel := 0, texCoord := ⟨0, 0⟩ }] := by
    decide
  have h2 : (LoadFontMetrics [some (65530, 1)]).2 0 = ⟨65542, 13⟩ := by decide
  refine ⟨h1, h2, ?_⟩
  rw [h1, h2]
  rintro ⟨_, ⟨⟨m, hm, _, hx⟩, _⟩ | ⟨hemp, _⟩⟩
  · rw [List.mem_singleton] at hm
    subst hm
    exact absurd hx (by decide)
  · exact hemp _ (List.mem_singleton_self _) rfl

/-- C2 (amended). For every sequence of glyph sizes whose padded widths and
heights are below `2^16`, the position `Renderer::LoadFontMetrics` writes to
`outMaxPositions[ch]` is the tight bounding box of the glyphs placed in
channel `ch`: no glyph of the channel reaches beyond it, its x is reached by
`texCoord.x + width` and its y by `texCoord.y + height` of a glyph of the
channel, and it is `(0, 0)` when the channel holds no glyph. -/
theorem LoadFontMetrics_maxPositions_tight (glyphs : List (Option (Nat × Nat))) (ch : Fin 4)
    (hfit : ∀ g ∈ glyphs, fitsU16 (g.map paddedSize) = true) :
    IsBoundingBox (LoadFontMetrics glyphs).1 ch.val ((LoadFontMetrics glyphs).2 ch) := by
  have hfit2 : ∀ g ∈ glyphs.map (Option.map paddedSize), fitsU16 g = true := by
    intro g hg
    rw [List.mem_map] at hg
    obtain ⟨g0, hg0, rfl⟩ := hg
    exact hfit g0 hg0
  have h := BoxInv_fontLoop (glyphs.map (Option.map paddedSize)) hfit2 0 AtlasState.init []
    BoxInv_init
  simpa [LoadFontMetrics] using h.2 ch.val

theorem LoadFontMetrics_maxPositions_tight_witness :
    IsBoundingBox
      (LoadFontMetrics [some (10, 20), none, some (7, 3), some (65523, 1), some (4, 4),
        some (30, 2)]).1 (0 : Fin 4).val
      ((LoadFontMetrics [some (10, 20), none, some (7, 3), some (65523, 1), some (4, 4),
        some (30, 2)]).2 0) :=
  LoadFontMetrics_maxPositions_tight
    [some (10, 20), none, some (7, 3), some (65523, 1), some (4, 4), some (30, 2)] 0
    (by decide)

theorem LoadFontMetrics_maxPositions_tight_reserved (glyphs : List (Option (Nat × Nat)))
    (ch : Fin 4) :
    IsBoundingBox (reservedRects (glyphs.map (Option.map paddedSize)) 0 AtlasState.init) ch.val
      ((LoadFontMetrics glyphs).2 ch) := by
  have h := BoxInv_fontLoop_reserved (glyphs.map (Option.map paddedSize)) 0 AtlasState.init []
    BoxInv_init
  simpa [LoadFontMetrics] using h.2 ch.val

theorem fontLoop_channels (sizes : List (Option (Nat × Nat))) :
    ∀ (c : Nat) (s : AtlasState), s.channel < 4 →
      (fontLoop sizes c s).1.map (fun m => m.channel) =
        (List.range (placedCharacters sizes c).length).map (fun k => (s.channel + k) % 4) := by
  induction sizes with
  | nil => intro c s _; simp [fontLoop, placedCharacters]
  | cons g rest ih =>
    intro c s hs
    cases g with
    | none => simpa [fontLoop, placedCharacters] using ih (c + 1) s hs
    | some wh =>
      obtain ⟨w, ht⟩ := wh
      have hs2 : (placeGlyph s c w ht).2.channel < 4 := by
        rw [placeGlyph_channel]; split_ifs <;> omega
      have h2 := ih (c + 1) _ hs2
      simp only [fontLoop, List.map_cons, placedCharacters,
        List.length_cons, List.range_succ_eq_map, List.map_map]
      rw [h2, placeGlyph_metric, placeGlyph_channel]
      simp only [Nat.add_zero, Nat.mod_eq_of_lt hs, List.cons.injEq, true_and]
      apply List.map_congr_left
      intro k _
      simp only [Function.comp]
      split_ifs <;> omega

theorem fontLoop_characters (sizes : List (Option (Nat × Nat))) :
    ∀ (c : Nat) (s : AtlasState),
      (fontLoop sizes c s).1.map (fun m => m.character) = placedCharacters sizes c := by
  induction sizes with
  | nil => intro c s; simp [fontLoop, placedCharacters]
  | cons g rest ih =>
    intro c s
    cases g with
    | none => simpa [fontLoop, placedCharacters] using ih (c + 1) s
    | some wh =>
      obtain ⟨w, ht⟩ := wh
      simp only [fontLoop, List.map_cons, placedCharacters, ih, placeGlyph_metric]

theorem placedCharacters_map {α β : Type} (f : α → β) (l : List (Option α)) :
    ∀ c, placedCharacters (l.map (Option.map f)) c = placedCharacters l c := by
  induction l with
  | nil => intro c; rfl
  | cons g rest ih =>
    intro c
    cases g with
    | none => simpa [placedCharacters] using ih (c + 1)
    | some a => simpa [placedCharacters] using ih (c + 1)

/-- C3. `Renderer::LoadFontMetrics` hands out the channels round-robin: the
stored metrics are those of the characters that reach the placement step, in
loop order, the k-th of them (k counted from 0) gets channel `k mod 4`, and
so every placed glyph has a channel in `[0, 4)`. -/
theorem LoadFontMetrics_channels_round_robin (glyphs : List (Option (Nat × Nat))) :
    (LoadFontMetrics glyphs).1.map (fun m => m.character) = placedCharacters glyphs 0 ∧
    (LoadFontMetrics glyphs).1.map (fun m => m.channel) =
      (List.range (placedCharacters glyphs 0).length).map (fun k => k % 4) ∧
    ∀ m ∈ (LoadFontMetrics glyphs).1, m.channel < 4 := by
  have hc := fontLoop_characters (glyphs.map (Option.map paddedSize)) 0 AtlasState.init
  have hr := fontLoop_channels (glyphs.map (Option.map paddedSize)) 0 AtlasState.init
    (by decide)
  rw [placedCharacters_map] at hc hr
  have hi := AtlasInv_fontLoop (glyphs.map (Option.map paddedSize)) 0 AtlasState.init []
    AtlasInv_init
  refine ⟨hc, ?_, ?_⟩
  · simpa [LoadFontMetrics, AtlasState.init] using hr
  · simpa [LoadFontMetrics] using hi.2.1

/-- C4 (the code departs from the claim). With room for 8 point lights, two
lights are registered and get the IDs 0 and 1, the light with ID 0 is
removed, and a third light is registered: `RegisterPointLight` returns 1 for
it, the ID of the second light, which has not been removed. Two live lights
then hold the same ID. -/
theorem RegisterPointLight_returns_live_id :
    (runLightCalls 8 [.register whiteLight, .register whiteLight, .remove 0]).live = [1] ∧
    (RegisterPointLight 8
      (runLightCalls 8 [.register whiteLight, .register whiteLight, .remove 0]).renderer
      whiteLight).1 = 1 ∧
    (runLightCalls 8
      [.register whiteLight, .register whiteLight, .remove 0, .register whiteLight]).live
      = [1, 1] := by
  decide

/-- C6. Every shader descriptor of the built-in table that
`Renderer::LoadShaders` configures satisfies the descriptor invariant, for
the 27 shaders of the Vulkan list and for the shaders of the OpenGL list: the
constant set does not contain `U_UNIFORM_BUFFER_DYNAMIC`, the dynamic set
does not contain `U_UNIFORM_BUFFER_CONSTANT`, `bNeedPushConstantBlock` is
true exactly when `pushConstantBlockSize` is not zero, and no assertion of
the sanity checks fires. -/
theorem LoadShaders_table_satisfies_invariant :
    (configureShaders baseShadersVulkan).shaders.length = 27 ∧
    (configureShaders baseShadersGL).shaders.length = 22 ∧
    ∀ s ∈ (configureShaders baseShadersVulkan).shaders ++ (configureShaders baseShadersGL).shaders,
      s.constantBufferUniforms.HasUniform .U_UNIFORM_BUFFER_DYNAMIC = false ∧
      s.dynamicBufferUniforms.HasUniform .U_UNIFORM_BUFFER_CONSTANT = false ∧
      (s.bNeedPushConstantBlock = true ↔ s.pushConstantBlockSize ≠ 0) ∧
      sanityChecks s = true := by
  decide

/-- C7 (the claim as stated fails). A descriptor with `U_MODEL` in both its
constant and its dynamic set passes all sanity checks of
`Renderer::LoadShaders`, and the loop loads its code. -/
theorem sanityChecks_accepts_shared_kind :
    sharedKindShader.constantBufferUniforms.HasUniform .U_MODEL = true ∧
    sharedKindShader.dynamicBufferUniforms.HasUniform .U_MODEL = true ∧
    sanityChecks sharedKindShader = true ∧
    LoadShadersLoop (fun _ => true) [sharedKindShader] = .finished [0] [] := by
  decide

/-- C7 (amended). The sanity checks of `Renderer::LoadShaders` reject a
descriptor whenever one of the two buffer markers
(`U_UNIFORM_BUFFER_CONSTANT`, `U_UNIFORM_BUFFER_DYNAMIC`) is present in both
its constant and its dynamic set: an assertion fires and the loop ends at
that descriptor. -/
theorem sanityChecks_rejects_shared_marker (shader : Shader) (u : Uniform)
    (hu : u = .U_UNIFORM_BUFFER_CONSTANT ∨ u = .U_UNIFORM_BUFFER_DYNAMIC)
    (hc : shader.constantBufferUniforms.HasUniform u = true)
    (hd : shader.dynamicBufferUniforms.HasUniform u = true) :
    sanityChecks shader = false ∧
    ∀ (LoadShaderCode : Nat → Bool) (rest : List Shader) (shaderID : Nat)
      (loaded errors : List Nat),
      loadLoop LoadShaderCode (shader :: rest) shaderID loaded errors =
        .assertFailed shaderID loaded errors := by
  have h : sanityChecks shader = false := by
    rcases hu with rfl | rfl
    · simp [sanityChecks, dynamicSetCheck, hd]
    · simp [sanityChecks, constantSetCheck, hc]
  refine ⟨h, ?_⟩
  intro f rest shaderID loaded errors
  simp [loadLoop, h]

theorem sanityChecks_rejects_shared_marker_witness :
    sanityChecks sharedMarkerShader = false ∧
    ∀ (LoadShaderCode : Nat → Bool) (rest : List Shader) (shaderID : Nat)
      (loaded errors : List Nat),
      loadLoop LoadShaderCode (sharedMarkerShader :: rest) shaderID loaded errors =
        .assertFailed shaderID loaded errors :=
  sanityChecks_rejects_shared_marker sharedMarkerShader .U_UNIFORM_BUFFER_DYNAMIC
    (Or.inr rfl) (by decide) (by decide)

/-- C8. The push constant check of `Renderer::LoadShaders` fails exactly when
flag and size disagree: for `bNeedPushConstantBlock = true` with
`pushConstantBlockSize = 0` and for `bNeedPushConstantBlock = false` with
`pushConstantBlockSize != 0`; it passes in the two consistent cases, and a
descriptor for which it fails is rejected by the sanity checks. -/
theorem pushConstantCheck_fails_iff_mismatch (shader : Shader) :
    (pushConstantCheck shader = false ↔
      (shader.bNeedPushConstantBlock = true ∧ shader.pushConstantBlockSize = 0) ∨
      (shader.bNeedPushConstantBlock = false ∧ shader.pushConstantBlockSize ≠ 0)) ∧
    (pushConstantCheck shader = true ↔
      (shader.bNeedPushConstantBlock = true ∧ shader.pushConstantBlockSize ≠ 0) ∨
      (shader.bNeedPushConstantBlock = false ∧ shader.pushConstantBlockSize = 0)) ∧
    (pushConstantCheck shader = false → sanityChecks shader = false) := by
  refine ⟨?_, ?_, ?_⟩
  · unfold pushConstantCheck
    cases shader.bNeedPushConstantBlock <;> simp
  · unfold pushConstantCheck
    cases shader.bNeedPushConstantBlock <;> simp
  · intro h
    simp [sanityChecks, h]

theorem loadLoop_stops (LoadShaderCode : Nat → Bool) (bad : Shader) (post : List Shader)
    (hbad : sanityChecks bad = false) :
    ∀ (pre : List Shader) (shaderID : Nat) (loaded errors : List Nat),
      (∀ s ∈ pre, sanityChecks s = true) →
      loadLoop LoadShaderCode (pre ++ bad :: post) shaderID loaded errors =
        .assertFailed (shaderID + pre.length)
          (loaded ++ List.range' shaderID pre.length)
          (errors ++ (List.range' shaderID pre.length).filter (fun i => !LoadShaderCode i)) := by
  intro pre
  induction pre with
  | nil => intro shaderID loaded errors _; simp [loadLoop, hbad]
  | cons s rest ih =>
    intro shaderID loaded errors hpre
    have hs : sanityChecks s = true := hpre s (List.mem_cons_self _ _)
    have hrest : ∀ t ∈ rest, sanityChecks t = true :=
      fun t ht => hpre t (List.mem_cons_of_mem _ ht)
    cases hf : LoadShaderCode shaderID <;>
      simp [loadLoop, hs, hf, ih _ _ _ hrest, List.range', List.filter_cons,
        Nat.add_assoc, Nat.add_comm 1]

/-- C9 (the claim as stated fails). The first of two descriptors declares a
push constant block of size 0 and the second is well formed: the loop of
`Renderer::LoadShaders` ends with a failed assertion at shader ID 0, and the
second descriptor, with shader ID 1, is never given to `LoadShaderCode`. -/
theorem LoadShadersLoop_violation_ends_loop :
    sanityChecks emptyBlockShader = false ∧
    sanityChecks plainShader = true ∧
    LoadShadersLoop (fun _ => true) [emptyBlockShader, plainShader] = .assertFailed 0 [] [] ∧
    1 ∉ (LoadShadersLoop (fun _ => true) [emptyBlockShader, plainShader]).loaded := by
  decide

/-- C9 (amended). When a descriptor violates a sanity check of
`Renderer::LoadShaders` and the descriptors before it do not, the loop ends
with the failed assertion at that descriptor: `LoadShaderCode` has been
called for exactly the descriptors before it, and neither the offending
descriptor nor any descriptor after it is loaded. -/
theorem LoadShadersLoop_aborts_at_first_violation (LoadShaderCode : Nat → Bool)
    (pre : List Shader) (bad : Shader) (post : List Shader)
    (hpre : ∀ s ∈ pre, sanityChecks s = true) (hbad : sanityChecks bad = false) :
    LoadShadersLoop LoadShaderCode (pre ++ bad :: post) =
      .assertFailed pre.length (List.range pre.length)
        ((List.range pre.length).filter (fun i => !LoadShaderCode i)) := by
  have h := loadLoop_stops LoadShaderCode bad post hbad pre 0 [] [] hpre
  simpa [LoadShadersLoop, List.range_eq_range'] using h

theorem LoadShadersLoop_aborts_at_first_violation_witness :
    LoadShadersLoop (fun _ => true) ([plainShader] ++ emptyBlockShader :: [plainShader]) =
      .assertFailed [plainShader].length (List.range [plainShader].length)
        ((List.range [plainShader].length).filter (fun i => !(fun _ => true) i)) :=
  LoadShadersLoop_aborts_at_first_violation (fun _ => true) [plainShader] emptyBlockShader
    [plainShader] (by decide) (by decide)

/-- C10 (the code departs from the claim). `Renderer::LoadShaders` applies 27
descriptor blocks. The Vulkan list has 27 names: every index is inside the
list, the names keep their places and the closing assertion holds. The OpenGL
list has 22 names: the blocks 22 to 26 index `m_BaseShaders` past its end,
and the closing assertion compares `shaderID = 27` with the size 22 and
fails. -/
theorem LoadShaders_OpenGL_blocks_past_end :
    shaderBlocks.length = 27 ∧
    baseShadersGL.length = 22 ∧
    (configureShaders baseShadersGL).outOfBounds = [22, 23, 24, 25, 26] ∧
    (configureShaders baseShadersGL).shaderID = 27 ∧
    closingAssertion (configureShaders baseShadersGL) = false ∧
    baseShadersVulkan.length = 27 ∧
    (configureShaders baseShadersVulkan).outOfBounds = [] ∧
    (configureShaders baseShadersVulkan).shaders.map (fun s => s.name) =
      baseShadersVulkan.map (fun s => s.name) ∧
    closingAssertion (configureShaders baseShadersVulkan) = true := by
  decide

theorem frustumCenterOf_axis_slice :
    frustumCenterOf (carveSlice 0 (4 / 100) axisCorners) = ⟨0, 0, -2⟩ := by
  simp [frustumCenterOf, carveSlice, carveCorner, setCorner, axisCorners, List.range,
    List.range.loop, Vec3.add, Vec3.sub, Vec3.scale]
  norm_num

theorem rawRadius_axis_slice :
    rawRadius axisLength (carveSlice 0 (4 / 100) axisCorners) ⟨0, 0, -2⟩ = 2 := by
  simp [rawRadius, axisLength, carveSlice, carveCorner, setCorner, axisCorners, List.range,
    List.range.loop, Vec3.add, Vec3.sub, Vec3.scale]
  norm_num [abs_of_nonneg, abs_of_nonpos]

theorem roundRadius_two : roundRadius 2 = 2 := by
  simp [roundRadius]
  norm_num

theorem cascadeLight_axis_slice (dir : Vec3) :
    (cascadeLight axisLength dir (carveSlice 0 (4 / 100) axisCorners)).frustumCenter
      = ⟨0, 0, -2⟩ ∧
    (cascadeLight axisLength dir (carveSlice 0 (4 / 100) axisCorners)).radius = 2 ∧
    (cascadeLight axisLength dir (carveSlice 0 (4 / 100) axisCorners)).view.eye
      = ⟨dir.x * 2, dir.y * 2, -2 + dir.z * 2⟩ := by
  simp only [cascadeLight, frustumCenterOf_axis_slice, rawRadius_axis_slice, roundRadius_two,
    Vec3.sub, Vec3.neg, Vec3.scale]
  refine ⟨trivial, trivial, ?_⟩
  congr 1 <;> ring

/-- C11 (the claim as stated fails). For a light that shines straight down and
the first slice of a frustum on the z axis, the centre is `(0, 0, -2)` and the
radius 2; the eye handed to `glm::lookAt` is `(0, -2, -2)`, while
`centroid - data.dir * radius` is `(0, 2, -2)`. -/
theorem Update_lookAt_eye_is_not_centroid_minus_dir :
    (cascadeLight axisLength downLight (carveSlice 0 (4 / 100) axisCorners)).frustumCenter
      = ⟨0, 0, -2⟩ ∧
    (cascadeLight axisLength downLight (carveSlice 0 (4 / 100) axisCorners)).radius = 2 ∧
    (cascadeLight axisLength downLight (carveSlice 0 (4 / 100) axisCorners)).view.eye
      = ⟨0, -2, -2⟩ ∧
    (cascadeLight axisLength downLight (carveSlice 0 (4 / 100) axisCorners)).view.eye ≠
      (cascadeLight axisLength downLight (carveSlice 0 (4 / 100) axisCorners)).frustumCenter.sub
        (downLight.scale
          (cascadeLight axisLength downLight (carveSlice 0 (4 / 100) axisCorners)).radius) := by
  obtain ⟨hc, hr, he⟩ := cascadeLight_axis_slice downLight
  rw [hc, hr, he]
  simp [downLight, Vec3.sub, Vec3.scale]
  norm_num

/-- C11 (amended). For every cascade computed by `Renderer::Update` the light
view matrix is the look-at whose eye is `centroid + data.dir * radius` (the
code subtracts the negated direction), whose target is the slice centroid and
whose up-vector is world up; the centroid is the mean of the slice corners
and the radius is the rounded bounding radius of the cascade. -/
theorem Update_lookAt_arguments (length : Vec3 → ℚ) (dir : Vec3)
    (frustumCorners : Nat → Vec3) :
    (cascadeLight length dir frustumCorners).frustumCenter = frustumCenterOf frustumCorners ∧
    (cascadeLight length dir frustumCorners).radius =
      roundRadius (rawRadius length frustumCorners (frustumCenterOf frustumCorners)) ∧
    (cascadeLight length dir frustumCorners).view.eye =
      (cascadeLight length dir frustumCorners).frustumCenter.add
        (dir.scale (cascadeLight length dir frustumCorners).radius) ∧
    (cascadeLight length dir frustumCorners).view.center =
      (cascadeLight length dir frustumCorners).frustumCenter ∧
    (cascadeLight length dir frustumCorners).view.up = VEC3_UP := by
  refine ⟨rfl, rfl, ?_, rfl, rfl⟩
  simp only [cascadeLight, Vec3.sub, Vec3.add, Vec3.neg, Vec3.scale]
  congr 1 <;> ring

/-- C12 (the claim as stated fails). With the light direction equal to world
up, so that the cross product of direction and up-vector vanishes, the
up-vector handed to `glm::lookAt` is still world up, and the view direction
from the eye to the target is parallel to it. -/
theorem Update_lookAt_up_for_vertical_light :
    VEC3_UP.cross VEC3_UP = ⟨0, 0, 0⟩ ∧
    (cascadeLight axisLength VEC3_UP (carveSlice 0 (4 / 100) axisCorners)).view.up = VEC3_UP ∧
    ((cascadeLight axisLength VEC3_UP (carveSlice 0 (4 / 100) axisCorners)).view.center.sub
      (cascadeLight axisLength VEC3_UP (carveSlice 0 (4 / 100) axisCorners)).view.eye).cross
        (cascadeLight axisLength VEC3_UP (carveSlice 0 (4 / 100) axisCorners)).view.up
      = ⟨0, 0, 0⟩ := by
  obtain ⟨hc, _, he⟩ := cascadeLight_axis_slice VEC3_UP
  refine ⟨by simp [Vec3.cross, VEC3_UP], rfl, ?_⟩
  have hcen : (cascadeLight axisLength VEC3_UP (carveSlice 0 (4 / 100) axisCorners)).view.center
      = ⟨0, 0, -2⟩ := hc
  have hup : (cascadeLight axisLength VEC3_UP (carveSlice 0 (4 / 100) axisCorners)).view.up
      = VEC3_UP := rfl
  rw [hcen, he, hup]
  simp [Vec3.cross, Vec3.sub, VEC3_UP]

/-- C12 (amended). For every light direction, also one parallel to world up,
the cascade computation of `Renderer::Update` hands world up (`VEC3_UP`) to
`glm::lookAt` as the up-vector; the up-vector does not depend on the light
direction. -/
theorem Update_lookAt_up_is_world_up (length : Vec3 → ℚ) (dir : Vec3)
    (frustumCorners : Nat → Vec3) :
    (cascadeLight length dir frustumCorners).view.up = VEC3_UP :=
  rfl

theorem foldl_max_ge (f : Nat → ℚ) (l : List Nat) :
    ∀ init : ℚ, init ≤ l.foldl (fun radius i => max radius (f i)) init ∧
      ∀ i ∈ l, f i ≤ l.foldl (fun radius i => max radius (f i)) init := by
  induction l with
  | nil => intro init; simp
  | cons a rest ih =>
    intro init
    obtain ⟨h1, h2⟩ := ih (max init (f a))
    simp only [List.foldl_cons, List.mem_cons]
    refine ⟨le_trans (le_max_left _ _) h1, ?_⟩
    rintro i (rfl | hi)
    · exact le_trans (le_max_right _ _) h1
    · exact h2 i hi

theorem foldl_max_attained (f : Nat → ℚ) (l : List Nat) :
    ∀ init : ℚ, l.foldl (fun radius i => max radius (f i)) init = init ∨
      ∃ i ∈ l, f i = l.foldl (fun radius i => max radius (f i)) init := by
  induction l with
  | nil => intro init; simp
  | cons a rest ih =>
    intro init
    simp only [List.foldl_cons, List.mem_cons]
    rcases ih (max init (f a)) with h | ⟨i, hi, h⟩
    · rcases max_choice init (f a) with hm | hm
      · left; rw [h, hm]
      · right; exact ⟨a, Or.inl rfl, by rw [h, hm]⟩
    · right; exact ⟨i, Or.inr hi, h⟩

theorem rawRadius_nonneg (length : Vec3 → ℚ) (frustumCorners : Nat → Vec3) (center : Vec3) :
    0 ≤ rawRadius length frustumCorners center :=
  (foldl_max_ge (fun i => length ((frustumCorners i).sub center)) (List.range 8) 0).1

theorem roundRadius_bounds (d : ℚ) :
    (∃ k : Int, roundRadius d = (k : ℚ) / 16) ∧ d ≤ roundRadius d ∧ roundRadius d < d + 1 / 16 := by
  refine ⟨⟨⌈d * 16⌉, rfl⟩, ?_, ?_⟩
  · have h := Int.le_ceil (d * 16)
    unfold roundRadius
    rw [le_div_iff₀ (by norm_num : (0 : ℚ) < 16)]
    exact h
  · have h := Int.ceil_lt_add_one (d * 16)
    unfold roundRadius
    rw [div_lt_iff₀ (by norm_num : (0 : ℚ) < 16)]
    linarith

/-- C13. For every cascade computed by `Renderer::Update` the centre is the
mean of the 8 slice corners, and the bounding radius is the maximum distance
`d` from the centre to a corner (no corner is farther than `d` and one corner
is at distance `d`), rounded up to the nearest 1/16: the radius `r` is
`ceil(16 d) / 16`, a multiple of 1/16 with `d <= r < d + 1/16`. The
distance function is any function without negative values. -/
theorem Update_radius_rounded_up (length : Vec3 → ℚ) (dir : Vec3)
    (frustumCorners : Nat → Vec3) (hlen : ∀ v, 0 ≤ length v) :
    (cascadeLight length dir frustumCorners).frustumCenter =
      ⟨((frustumCorners 0).x + (frustumCorners 1).x + (frustumCorners 2).x +
          (frustumCorners 3).x + (frustumCorners 4).x + (frustumCorners 5).x +
          (frustumCorners 6).x + (frustumCorners 7).x) / 8,
        ((frustumCorners 0).y + (frustumCorners 1).y + (frustumCorners 2).y +
          (frustumCorners 3).y + (frustumCorners 4).y + (frustumCorners 5).y +
          (frustumCorners 6).y + (frustumCorners 7).y) / 8,
        ((frustumCorners 0).z + (frustumCorners 1).z + (frustumCorners 2).z +
          (frustumCorners 3).z + (frustumCorners 4).z + (frustumCorners 5).z +
          (frustumCorners 6).z + (frustumCorners 7).z) / 8⟩ ∧
    ∃ d : ℚ,
      (∀ i : Fin 8, length ((frustumCorners i.val).sub
        (cascadeLight length dir frustumCorners).frustumCenter) ≤ d) ∧
      (∃ i : Fin 8, length ((frustumCorners i.val).sub
        (cascadeLight length dir frustumCorners).frustumCenter) = d) ∧
      (cascadeLight length dir frustumCorners).radius = ((⌈16 * d⌉ : Int) : ℚ) / 16 ∧
      (∃ k : Int, (cascadeLight length dir frustumCorners).radius = (k : ℚ) / 16) ∧
      d ≤ (cascadeLight length dir frustumCorners).radius ∧
      (cascadeLight length dir frustumCorners).radius < d + 1 / 16 := by
  constructor
  · simp [cascadeLight, frustumCenterOf, List.range, List.range.loop, Vec3.add]
  · refine ⟨rawRadius length frustumCorners (frustumCenterOf frustumCorners), ?_, ?_, ?_,
      roundRadius_bounds _⟩
    · intro i
      exact (foldl_max_ge (fun i => length ((frustumCorners i).sub
        (frustumCenterOf frustumCorners))) (List.range 8) 0).2 i.val (List.mem_range.mpr i.isLt)
    · rcases foldl_max_attained (fun i => length ((frustumCorners i).sub
        (frustumCenterOf frustumCorners))) (List.range 8) 0 with h | ⟨i, hi, h⟩
      · refine ⟨⟨0, by norm_num⟩, ?_⟩
        have h0 := (foldl_max_ge (fun i => length ((frustumCorners i).sub
          (frustumCenterOf frustumCorners))) (List.range 8) 0).2 0 (by simp)
        have h1 := hlen ((frustumCorners 0).sub (frustumCenterOf frustumCorners))
        show length ((frustumCorners 0).sub (frustumCenterOf frustumCorners)) =
          rawRadius length frustumCorners (frustumCenterOf frustumCorners)
        unfold rawRadius
        rw [h] at h0 ⊢
        exact le_antisymm h0 h1
      · exact ⟨⟨i, List.mem_range.mp hi⟩, h⟩
    · show roundRadius _ = _
      unfold roundRadius
      rw [mul_comm]

theorem Update_radius_rounded_up_witness :
    (cascadeLight axisLength downLight axisCorners).frustumCenter =
      ⟨((axisCorners 0).x + (axisCorners 1).x + (axisCorners 2).x +
          (axisCorners 3).x + (axisCorners 4).x + (axisCorners 5).x +
          (axisCorners 6).x + (axisCorners 7).x) / 8,
        ((axisCorners 0).y + (axisCorners 1).y + (axisCorners 2).y +
          (axisCorners 3).y + (axisCorners 4).y + (axisCorners 5).y +
          (axisCorners 6).y + (axisCorners 7).y) / 8,
        ((axisCorners 0).z + (axisCorners 1).z + (axisCorners 2).z +
          (axisCorners 3).z + (axisCorners 4).z + (axisCorners 5).z +
          (axisCorners 6).z + (axisCorners 7).z) / 8⟩ ∧
    ∃ d : ℚ,
      (∀ i : Fin 8, axisLength ((axisCorners i.val).sub
        (cascadeLight axisLength downLight axisCorners).frustumCenter) ≤ d) ∧
      (∃ i : Fin 8, axisLength ((axisCorners i.val).sub
        (cascadeLight axisLength downLight axisCorners).frustumCenter) = d) ∧
      (cascadeLight axisLength downLight axisCorners).radius = ((⌈16 * d⌉ : Int) : ℚ) / 16 ∧
      (∃ k : Int, (cascadeLight axisLength downLight axisCorners).radius = (k : ℚ) / 16) ∧
      d ≤ (cascadeLight axisLength downLight axisCorners).radius ∧
      (cascadeLight axisLength downLight axisCorners).radius < d + 1 / 16 :=
  Update_radius_rounded_up axisLength downLight axisCorners
    (fun v => by unfold axisLength; positivity)

/-- C14. For every cascade computed by `Renderer::Update` the orthographic
light projection is built from `left = -radius`, `right = radius`,
`bottom = -radius`, `top = radius` and the depth planes `2 * radius` (given
as `zNear`) and `0` (given as `zFar`), with `radius` the rounded bounding
radius of the cascade, which is not negative: the projection spans
`[-radius, radius]` in x and in y and `[0, 2 * radius]` in z. -/
theorem Update_ortho_arguments (length : Vec3 → ℚ) (dir : Vec3)
    (frustumCorners : Nat → Vec3) :
    (cascadeLight length dir frustumCorners).radius =
      roundRadius (rawRadius length frustumCorners (frustumCenterOf frustumCorners)) ∧
    0 ≤ (cascadeLight length dir frustumCorners).radius ∧
    (cascadeLight length dir frustumCorners).proj.left =
      -(cascadeLight length dir frustumCorners).radius ∧
    (cascadeLight length dir frustumCorners).proj.right =
      (cascadeLight length dir frustumCorners).radius ∧
    (cascadeLight length dir frustumCorners).proj.bottom =
      -(cascadeLight length dir frustumCorners).radius ∧
    (cascadeLight length dir frustumCorners).proj.top =
      (cascadeLight length dir frustumCorners).radius ∧
    (cascadeLight length dir frustumCorners).proj.zNear =
      2 * (cascadeLight length dir frustumCorners).radius ∧
    (cascadeLight length dir frustumCorners).proj.zFar = 0 ∧
    min (cascadeLight length dir frustumCorners).proj.zNear
      (cascadeLight length dir frustumCorners).proj.zFar = 0 ∧
    max (cascadeLight length dir frustumCorners).proj.zNear
      (cascadeLight length dir frustumCorners).proj.zFar =
      2 * (cascadeLight length dir frustumCorners).radius := by
  have hr : 0 ≤ (cascadeLight length dir frustumCorners).radius :=
    le_trans (rawRadius_nonneg length frustumCorners (frustumCenterOf frustumCorners))
      (roundRadius_bounds _).2.1
  have hz : (cascadeLight length dir frustumCorners).proj.zNear =
      2 * (cascadeLight length dir frustumCorners).radius := by
    simp only [cascadeLight, Vec3.neg]
    ring
  have hf : (cascadeLight length dir frustumCorners).proj.zFar = 0 := rfl
  refine ⟨rfl, hr, rfl, rfl, rfl, rfl, hz, hf, ?_, ?_⟩
  · rw [hz, hf]
    exact min_eq_right (by linarith)
  · rw [hz, hf]
    exact max_eq_left (by linarith)

/-- C16 (the code departs from the claim). With room for 8 point lights, three
lights are registered, the light with ID 0 is removed, all lights are removed
and the light with ID 2 is removed: the counter is -1. A call of
`RegisterPointLight` in this state returns `(PointLightID)(-1)`, which is
`InvalidPointLightID`, although the counter is below `MAX_POINT_LIGHT_COUNT`;
the light is not stored in the table, and the counter does not stay as it is
but becomes 0. -/
theorem RegisterPointLight_invalid_id_below_capacity :
    (runLightCalls 8
      [.register whiteLight, .register whiteLight, .register whiteLight, .remove 0,
        .removeAll, .remove 2]).renderer.m_NumPointLightsEnabled = -1 ∧
    ¬ (((8 : Nat) : Int) ≤ (runLightCalls 8
      [.register whiteLight, .register whiteLight, .register whiteLight, .remove 0,
        .removeAll, .remove 2]).renderer.m_NumPointLightsEnabled) ∧
    (RegisterPointLight 8 (runLightCalls 8
      [.register whiteLight, .register whiteLight, .register whiteLight, .remove 0,
        .removeAll, .remove 2]).renderer redLight).1 = InvalidPointLightID ∧
    redLight ∉ (RegisterPointLight 8 (runLightCalls 8
      [.register whiteLight, .register whiteLight, .register whiteLight, .remove 0,
        .removeAll, .remove 2]).renderer redLight).2.m_PointLights ∧
    (RegisterPointLight 8 (runLightCalls 8
      [.register whiteLight, .register whiteLight, .register whiteLight, .remove 0,
        .removeAll, .remove 2]).renderer redLight).2.m_NumPointLightsEnabled = 0 := by
  decide

/-- `Renderer::RegisterPointLight`, called with a counter in the range of its
type that is not negative (what the assertion of `RemovePointLight` demands)
and a table of `MAX_POINT_LIGHT_COUNT` slots, fails exactly when the capacity
is exhausted: it returns `InvalidPointLightID` if and only if
`m_NumPointLightsEnabled >= MAX_POINT_LIGHT_COUNT`, and then table and
counter are unchanged; otherwise it stores the light in the slot of the
previous count, returns the previous count as the ID and increases the
counter by one. -/
theorem RegisterPointLight_fails_iff_full (MAX_POINT_LIGHT_COUNT : Nat) (r : PointLights)
    (pointLightData : PointLightData)
    (h0 : 0 ≤ r.m_NumPointLightsEnabled) (h31 : r.m_NumPointLightsEnabled < 2147483648)
    (hlen : r.m_PointLights.length = MAX_POINT_LIGHT_COUNT) :
    ((RegisterPointLight MAX_POINT_LIGHT_COUNT r pointLightData).1 = InvalidPointLightID ↔
      (MAX_POINT_LIGHT_COUNT : Int) ≤ r.m_NumPointLightsEnabled) ∧
    ((MAX_POINT_LIGHT_COUNT : Int) ≤ r.m_NumPointLightsEnabled →
      (RegisterPointLight MAX_POINT_LIGHT_COUNT r pointLightData).2 = r) ∧
    (r.m_NumPointLightsEnabled < (MAX_POINT_LIGHT_COUNT : Int) →
      ((RegisterPointLight MAX_POINT_LIGHT_COUNT r pointLightData).1 : Int) =
        r.m_NumPointLightsEnabled ∧
      (RegisterPointLight MAX_POINT_LIGHT_COUNT r pointLightData).2.m_PointLights =
        r.m_PointLights.set r.m_NumPointLightsEnabled.toNat pointLightData ∧
      (RegisterPointLight MAX_POINT_LIGHT_COUNT r pointLightData).2.m_PointLights[
        r.m_NumPointLightsEnabled.toNat]? = some pointLightData ∧
      (RegisterPointLight MAX_POINT_LIGHT_COUNT r pointLightData).2.m_NumPointLightsEnabled =
        r.m_NumPointLightsEnabled + 1) := by
  have hmod : (r.m_NumPointLightsEnabled % 4294967296).toNat = r.m_NumPointLightsEnabled.toNat := by
    rw [Int.emod_eq_of_lt h0 (by omega)]
  by_cases hc : r.m_NumPointLightsEnabled < (MAX_POINT_LIGHT_COUNT : Int)
  · have hlt : r.m_NumPointLightsEnabled.toNat < r.m_PointLights.length := by omega
    simp only [RegisterPointLight, hc, if_true, hmod]
    refine ⟨?_, ?_, ?_⟩
    · unfold InvalidPointLightID
      constructor <;> intro h <;> omega
    · intro h; omega
    · intro _
      refine ⟨by omega, trivial, ?_, trivial⟩
      simp [hlt]
  · simp only [RegisterPointLight, hc, if_false]
    refine ⟨?_, ?_, ?_⟩
    · constructor
      · intro _; omega
      · intro _; trivial
    · intro _; trivial
    · intro h; exact h.elim

theorem RegisterPointLight_fails_iff_full_witness :
    ((RegisterPointLight 8 (InitializePointLights 8) whiteLight).1 = InvalidPointLightID ↔
      ((8 : Nat) : Int) ≤ (InitializePointLights 8).m_NumPointLightsEnabled) ∧
    (((8 : Nat) : Int) ≤ (InitializePointLights 8).m_NumPointLightsEnabled →
      (RegisterPointLight 8 (InitializePointLights 8) whiteLight).2 = InitializePointLights 8) ∧
    ((InitializePointLights 8).m_NumPointLightsEnabled < ((8 : Nat) : Int) →
      ((RegisterPointLight 8 (InitializePointLights 8) whiteLight).1 : Int) =
        (InitializePointLights 8).m_NumPointLightsEnabled ∧
      (RegisterPointLight 8 (InitializePointLights 8) whiteLight).2.m_PointLights =
        (InitializePointLights 8).m_PointLights.set
          (InitializePointLights 8).m_NumPointLightsEnabled.toNat whiteLight ∧
      (RegisterPointLight 8 (InitializePointLights 8) whiteLight).2.m_PointLights[
        (InitializePointLights 8).m_NumPointLightsEnabled.toNat]? = some whiteLight ∧
      (RegisterPointLight 8 (InitializePointLights 8) whiteLight).2.m_NumPointLightsEnabled =
        (InitializePointLights 8).m_NumPointLightsEnabled + 1) :=
  RegisterPointLight_fails_iff_full 8 (InitializePointLights 8) whiteLight
    (by decide) (by decide) (by decide)

/-- C17 (the code departs from the claim). The slider of `DrawImGuiSettings`
clamps the cascade count to 1..4 for every value, but `LoadSettingsFromDisk`
stores what the settings file gives: with 7 in the file the count is 7, and
the loop of `Renderer::Update` then uses the indices 4, 5 and 6 into the four
component vector `depthSplits`. -/
theorem LoadSettingsFromDisk_cascade_count_unclamped :
    (∀ old v : Int, 1 ≤ DrawImGuiSettings_cascadeCount old (some v) ∧
      DrawImGuiSettings_cascadeCount old (some v) ≤ 4) ∧
    LoadSettingsFromDisk_cascadeCount true (fun _ => 7) 4 = 7 ∧
    updateCascadeIndices (LoadSettingsFromDisk_cascadeCount true (fun _ => 7) 4) =
      [0, 1, 2, 3, 4, 5, 6] ∧
    ¬ ∀ c ∈ updateCascadeIndices (LoadSettingsFromDisk_cascadeCount true (fun _ => 7) 4),
      c < 4 := by
  refine ⟨?_, by decide, by decide, by decide⟩
  intro old v
  simp only [DrawImGuiSettings_cascadeCount, clampInt]
  omega

/-- C18. The texture check of `Renderer::LoadShaders` fails exactly when the
texture set contains both `U_HIGH_RES_TEX` and `U_ALBEDO_SAMPLER`; a
descriptor for which it fails is rejected by the sanity checks, and a
descriptor whose texture set contains at most one of the two and that
passes the three other checks is accepted. -/
theorem textureSetCheck_fails_iff_both (shader : Shader) :
    (textureSetCheck shader = false ↔
      shader.textureUniforms.HasUniform .U_HIGH_RES_TEX = true ∧
      shader.textureUniforms.HasUniform .U_ALBEDO_SAMPLER = true) ∧
    (textureSetCheck shader = false → sanityChecks shader = false) ∧
    (¬ (shader.textureUniforms.HasUniform .U_HIGH_RES_TEX = true ∧
        shader.textureUniforms.HasUniform .U_ALBEDO_SAMPLER = true) →
      textureSetCheck shader = true ∧
      (sanityChecks shader =
        (constantSetCheck shader && dynamicSetCheck shader && pushConstantCheck shader))) := by
  have h1 : textureSetCheck shader = false ↔
      shader.textureUniforms.HasUniform .U_HIGH_RES_TEX = true ∧
      shader.textureUniforms.HasUniform .U_ALBEDO_SAMPLER = true := by
    unfold textureSetCheck
    cases shader.textureUniforms.HasUniform .U_HIGH_RES_TEX <;>
      cases shader.textureUniforms.HasUniform .U_ALBEDO_SAMPLER <;> simp
  refine ⟨h1, ?_, ?_⟩
  · intro h
    simp [sanityChecks, h]
  · intro h
    have h2 : textureSetCheck shader = true := by
      cases ht : textureSetCheck shader
      · exact absurd (h1.mp ht) h
      · rfl
    exact ⟨h2, by simp [sanityChecks, h2]⟩

theorem validAlignment_examples :
    ∀ req ∈ [((10 : Nat), (4 : Nat)), (100, 64), (3, 16), (900, 192), (5, 256)],
      validAlignment req.2 := by
  intro req hreq
  simp only [List.mem_cons, List.mem_singleton, List.not_mem_nil, or_false] at hreq
  rcases hreq with rfl | rfl | rfl | rfl | rfl
  · exact Or.inl ⟨2, rfl⟩
  · exact Or.inr (by norm_num)
  · exact Or.inr (by norm_num)
  · exact Or.inr (by norm_num)
  · exact Or.inr (by norm_num)

/-- C20. With shaders S0, S1, S2 registered in that order, materials M0 and M1
on S0 and M2 on S1, and render objects R0 and R2 on M0, R1 on M1 and R3 on
M2, the batching produces exactly two shader batches, S0 then S1: S0 holds
the material batches M0 with [R0, R2] and M1 with [R1], S1 holds the
material batch M2 with [R3], and there is no batch for S2. -/
theorem BatchRenderObjects_scenario :
    BatchRenderObjects scenarioMaterials scenarioRenderObjects =
      some
        { batches :=
            [ { shaderID := 0
                batch :=
                  { batches :=
                      [ { materialID := 0, batch := { objects := [0, 2] } },
                        { materialID := 1, batch := { objects := [1] } } ] } },
              { shaderID := 1
                batch :=
                  { batches := [ { materialID := 2, batch := { objects := [3] } } ] } } ] } := by
  decide

theorem cascadeFrom_corners (worldCorners : Nat → Vec3) :
    ∀ (n c : Nat) (lastSplitDist : ℚ),
      ∀ slice ∈ cascadeFrom worldCorners n c lastSplitDist,
        slice.frustumCorners = carveSlice slice.lastSplitDist slice.splitDist worldCorners := by
  intro n
  induction n with
  | zero => intro c l slice h; simp [cascadeFrom] at h
  | succ k ih =>
    intro c l slice h
    simp only [cascadeFrom, List.mem_cons] at h
    rcases h with rfl | h
    · rfl
    · exact ih _ _ slice h

theorem size_succ_div (n : Nat) (h : n ≠ 0) : Nat.size n = Nat.size (n / 2) + 1 := by
  have hb := Nat.bit_testBit_zero_shiftRight_one n
  have hs := Nat.size_bit (b := n.testBit 0) (n := n >>> 1) (by rw [hb]; exact h)
  rw [hb] at hs
  rw [hs, Nat.shiftRight_eq_div_pow, pow_one]

theorem bitLengthAux_eq_size : ∀ (fuel n : Nat), n ≤ fuel → bitLengthAux fuel n = Nat.size n := by
  intro fuel
  induction fuel with
  | zero =>
    intro n hn
    have : n = 0 := by omega
    subst this
    simp [bitLengthAux]
  | succ fuel ih =>
    intro n hn
    unfold bitLengthAux
    split_ifs with h0
    · subst h0
      simp
    · rw [ih (n / 2) (by omega), size_succ_div n h0]

theorem bitLength_eq_size (n : Nat) : bitLength n = Nat.size n :=
  bitLengthAux_eq_size n n (le_refl n)

theorem roundBinary32_exact (x : Binary32) (hx : x.InFormat) (j : Nat) :
    roundBinary32 (x.m * 2 ^ j) (x.e - (j : Int)) = some x := by
  obtain ⟨hm, hlo, hhi, hnorm⟩ := hx
  by_cases h0 : x.m = 0
  · have he : x.e = -149 := by
      rcases hnorm with h | h
      · rw [h0] at h
        simp at h
      · exact h
    obtain ⟨m, e⟩ := x
    simp only at h0 he
    subst h0 he
    simp [roundBinary32]
  · have hA : x.m.natAbs ≠ 0 := by simpa using h0
    have habs : (x.m * 2 ^ j).natAbs = x.m.natAbs * 2 ^ j := by
      rw [Int.natAbs_mul, Int.natAbs_pow]
      rfl
    have hlen : bitLength (x.m.natAbs * 2 ^ j) = bitLength x.m.natAbs + j := by
      rw [bitLength_eq_size, bitLength_eq_size, ← Nat.shiftLeft_eq, Nat.size_shiftLeft hA]
    have hL : bitLength x.m.natAbs ≤ 24 := by
      rw [bitLength_eq_size]
      exact Nat.size_le.2 hm
    have he : max (x.e - (j : Int) + ((bitLength x.m.natAbs + j : Nat) : Int) - 24) (-149) = x.e := by
      rcases hnorm with h | h
      · have h24 : 23 < bitLength x.m.natAbs := by
          rw [bitLength_eq_size]
          exact Nat.lt_size.2 h
        have : bitLength x.m.natAbs = 24 := by omega
        rw [this]
        push_cast
        omega
      · push_cast
        omega
    have hM : x.m * 2 ^ j ≠ 0 := by
      apply mul_ne_zero h0
      positivity
    have hsign : (x.m * 2 ^ j).sign = x.m.sign := by
      rw [Int.sign_mul]
      have : ((2 : Int) ^ j).sign = 1 := Int.sign_eq_one_of_pos (by positivity)
      rw [this, mul_one]
    unfold roundBinary32
    simp only [habs, hlen, he, hM, if_false, hsign]
    have h1 : (x.e - (j : Int) - x.e).toNat = 0 := by omega
    have h2 : (x.e - (x.e - (j : Int))).toNat = j := by omega
    rw [h1, h2]
    have hq : x.m.natAbs * 2 ^ j * 2 ^ 0 / 2 ^ j = x.m.natAbs := by
      rw [pow_zero, mul_one]
      exact Nat.mul_div_cancel _ (by positivity)
    have hr : x.m.natAbs * 2 ^ j * 2 ^ 0 % 2 ^ j = 0 := by
      rw [pow_zero, mul_one]
      exact Nat.mul_mod_left _ _
    rw [hq, hr]
    have hpos : 2 * 0 < 2 ^ j := by positivity
    rw [if_pos hpos, if_neg (by omega), if_pos hhi, Int.sign_mul_natAbs]

theorem mulBinary32_zero (d : Binary32) : mulBinary32 (some d) zeroBinary32 = zeroBinary32 := by
  simp [mulBinary32, zeroBinary32, roundBinary32]

theorem addBinary32_zero (x : Binary32) (hx : x.InFormat) :
    addBinary32 (some x) zeroBinary32 = some x := by
  have hlo := hx.2.1
  have hmin : min x.e (-149) = -149 := min_eq_right hlo
  have h := roundBinary32_exact x hx (x.e + 149).toNat
  have hj : x.e - ((x.e + 149).toNat : Int) = -149 := by omega
  rw [hj] at h
  simp only [addBinary32, zeroBinary32, hmin]
  have h1 : (x.e - -149).toNat = (x.e + 149).toNat := by congr 1
  rw [h1]
  simpa using h

theorem lerpBinary32_zero (n d : Option Binary32) (x : Binary32) (hn : n = some x)
    (hx : x.InFormat) (hd : d.isSome = true) :
    addBinary32 n (mulBinary32 d zeroBinary32) = n := by
  obtain ⟨dv, rfl⟩ := Option.isSome_iff_exists.1 hd
  rw [mulBinary32_zero, hn, addBinary32_zero x hx]

theorem carveSliceF32_near (l sp : Option Binary32) (fc : Nat → Vec3f) (i : Fin 4) :
    carveSliceF32 l sp fc i.val =
      (fc i.val).add (((fc (i.val + 4)).sub (fc i.val)).scale l) := by
  fin_cases i <;> simp [carveSliceF32, carveCornerF32, setCornerF32, List.range, List.range.loop]

theorem carveSliceF32_far (l sp : Option Binary32) (fc : Nat → Vec3f) (i : Fin 4) :
    carveSliceF32 l sp fc (i.val + 4) =
      (fc i.val).add (((fc (i.val + 4)).sub (fc i.val)).scale sp) := by
  fin_cases i <;> simp [carveSliceF32, carveCornerF32, setCornerF32, List.range, List.range.loop]

theorem cascadeFromF32_corners (worldCorners : Nat → Vec3f) :
    ∀ (n c : Nat) (lastSplitDist : Option Binary32),
      ∀ slice ∈ cascadeFromF32 worldCorners n c lastSplitDist,
        slice.frustumCorners =
          carveSliceF32 slice.lastSplitDist slice.splitDist worldCorners := by
  intro n
  induction n with
  | zero => intro c l slice h; simp [cascadeFromF32] at h
  | succ n ih =>
    intro c l slice h
    simp only [cascadeFromF32, List.mem_cons] at h
    rcases h with rfl | h
    · rfl
    · exact ih _ _ slice h

theorem binary32_literals :
    depthSplitsF32 =
      [some ⟨10737418, -28⟩, some ⟨10066330, -26⟩, some ⟨13421773, -25⟩, some ⟨8388608, -23⟩] ∧
    Binary32.NearestTo ⟨10737418, -28⟩ 4 100 ∧ Binary32.NearestTo ⟨10066330, -26⟩ 15 100 ∧
    Binary32.NearestTo ⟨13421773, -25⟩ 4 10 ∧ Binary32.NearestTo ⟨8388608, -23⟩ 1 1 ∧
    Binary32.NearestTo ⟨9227469, -23⟩ 11 10 ∧ Binary32.NearestTo ⟨13841203, -22⟩ 33 10 ∧
    Binary32.InFormat ⟨10737418, -28⟩ ∧ Binary32.InFormat ⟨10066330, -26⟩ ∧
    Binary32.InFormat ⟨13421773, -25⟩ ∧ Binary32.InFormat ⟨8388608, -23⟩ ∧
    Binary32.InFormat ⟨9227469, -23⟩ ∧ Binary32.InFormat ⟨13841203, -22⟩ ∧
    Binary32.InFormat ⟨0, -149⟩ := by
  unfold Binary32.NearestTo Binary32.InFormat
  decide

theorem cascadeSlicesF32_cover_without_gaps (worldCorners : Nat → Vec3f) :
    ∃ s0 s1 s2 s3 : CascadeSliceF32,
      cascadeSlicesF32 worldCorners 4 = [s0, s1, s2, s3] ∧
      s0.lastSplitDist = zeroBinary32 ∧
      s1.lastSplitDist = s0.splitDist ∧
      s2.lastSplitDist = s1.splitDist ∧
      s3.lastSplitDist = s2.splitDist ∧
      s3.splitDist = oneBinary32 ∧
      [s0.splitDist, s1.splitDist, s2.splitDist, s3.splitDist] = depthSplitsF32 ∧
      ∀ i : Fin 4,
        s1.frustumCorners i.val = s0.frustumCorners (i.val + 4) ∧
        s2.frustumCorners i.val = s1.frustumCorners (i.val + 4) ∧
        s3.frustumCorners i.val = s2.frustumCorners (i.val + 4) := by
  refine ⟨_, _, _, _, rfl, rfl, rfl, rfl, rfl, rfl, rfl, ?_⟩
  intro i
  simp only [carveSliceF32_near, carveSliceF32_far]
  exact ⟨trivial, trivial, trivial⟩

/-- C23 (the claim as stated fails). With the near corners `(1.1f, 0, 0)` and
the far corners `(3.3f, 0, 0)` the difference `3.3f - 1.1f` is not a binary32
value and is rounded to `9227468 * 2^-22`; its product with `1.0f` is the
same value, and `1.1f` plus this value is rounded to `13841202 * 2^-22`
(3.2999997), not to `3.3f = 13841203 * 2^-22`. So `splitDist = 1` does not
leave the far corner unchanged, and the far corners of the fourth cascade of
`Renderer::Update`, whose `splitDist` is `1.0f`, differ from the far corners
of the camera frustum. -/
theorem Update_far_corner_moves_at_split_one :
    skewCornersF32 0 = ⟨some ⟨9227469, -23⟩, zeroBinary32, zeroBinary32⟩ ∧
    skewCornersF32 4 = ⟨some ⟨13841203, -22⟩, zeroBinary32, zeroBinary32⟩ ∧
    subBinary32 (some ⟨13841203, -22⟩) (some ⟨9227469, -23⟩) = some ⟨9227468, -22⟩ ∧
    mulBinary32 (some ⟨9227468, -22⟩) oneBinary32 = some ⟨9227468, -22⟩ ∧
    addBinary32 (some ⟨9227469, -23⟩) (some ⟨9227468, -22⟩) = some ⟨13841202, -22⟩ ∧
    carveSliceF32 zeroBinary32 oneBinary32 skewCornersF32 4 =
      ⟨some ⟨13841202, -22⟩, zeroBinary32, zeroBinary32⟩ ∧
    carveSliceF32 zeroBinary32 oneBinary32 skewCornersF32 4 ≠ skewCornersF32 4 ∧
    ∃ s0 s1 s2 s3 : CascadeSliceF32,
      cascadeSlicesF32 skewCornersF32 4 = [s0, s1, s2, s3] ∧
      s3.splitDist = oneBinary32 ∧
      s3.frustumCorners 4 = ⟨some ⟨13841202, -22⟩, zeroBinary32, zeroBinary32⟩ ∧
      s3.frustumCorners 4 ≠ skewCornersF32 4 := by
  refine ⟨by decide, by decide, by decide, by decide, by decide, by decide, by decide,
    _, _, _, _, rfl, by decide, by decide, by decide⟩

/-- C23 (amended). In every cascade of `Renderer::Update` with the fractions
`lastSplit` and `splitDist`, each of the 4 near/far corner pairs `(n, f)` of
the unprojected frustum is replaced by `n + (f - n) * lastSplit` and
`n + (f - n) * splitDist`, both computed in binary32 arithmetic from the
original `n` and `f`, every operation rounded on its own; with
`lastSplit = 0` the near corner stays `n`, as long as `n` is a finite value
and `f - n` does not overflow. -/
theorem Update_slice_corners_interpolated (lastSplit splitDist : Option Binary32)
    (worldCorners : Nat → Vec3f) (m_ShadowCascadeCount : Nat) (i : Fin 4) :
    carveSliceF32 lastSplit splitDist worldCorners i.val =
      (worldCorners i.val).add
        (((worldCorners (i.val + 4)).sub (worldCorners i.val)).scale lastSplit) ∧
    carveSliceF32 lastSplit splitDist worldCorners (i.val + 4) =
      (worldCorners i.val).add
        (((worldCorners (i.val + 4)).sub (worldCorners i.val)).scale splitDist) ∧
    ((worldCorners i.val).InFormat →
      ((worldCorners (i.val + 4)).sub (worldCorners i.val)).IsFinite →
      carveSliceF32 zeroBinary32 splitDist worldCorners i.val = worldCorners i.val) ∧
    ∀ slice ∈ cascadeSlicesF32 worldCorners m_ShadowCascadeCount,
      slice.frustumCorners =
        carveSliceF32 slice.lastSplitDist slice.splitDist worldCorners := by
  refine ⟨carveSliceF32_near _ _ _ i, carveSliceF32_far _ _ _ i, ?_, ?_⟩
  · intro hfmt hfin
    rw [carveSliceF32_near]
    obtain ⟨⟨x, hx, hxf⟩, ⟨y, hy, hyf⟩, ⟨z, hz, hzf⟩⟩ := hfmt
    obtain ⟨hdx, hdy, hdz⟩ := hfin
    simp only [Vec3f.sub] at hdx hdy hdz
    simp only [Vec3f.add, Vec3f.scale, Vec3f.sub]
    rw [lerpBinary32_zero _ _ x hx hxf hdx, lerpBinary32_zero _ _ y hy hyf hdy,
      lerpBinary32_zero _ _ z hz hzf hdz]
  · exact cascadeFromF32_corners worldCorners _ _ _

theorem Update_slice_corners_interpolated_witness :
    carveSliceF32 zeroBinary32 oneBinary32 skewCornersF32 (2 : Fin 4).val =
      skewCornersF32 (2 : Fin 4).val :=
  (Update_slice_corners_interpolated zeroBinary32 oneBinary32 skewCornersF32 4 2).2.2.1
    ⟨⟨_, rfl, by unfold Binary32.InFormat; decide⟩,
      ⟨_, rfl, by unfold Binary32.InFormat; decide⟩,
      ⟨_, rfl, by unfold Binary32.InFormat; decide⟩⟩
    (by unfold Vec3f.IsFinite; decide)

/-- C25 (the code departs from the claim). With room for 8 point lights, three
lights are registered, the light with ID 0 is removed, all lights are
removed and then the light with ID 2 is removed: `RemoveAllPointLights` has
cleared the slots 0 and 1 only, slot 2 still holds a colour, and
`RemovePointLight(2)` decrements the counter from 0 to -1. -/
theorem RemovePointLight_counter_negative :
    (runLightCalls 8
      [.register whiteLight, .register whiteLight, .register whiteLight, .remove 0,
        .removeAll]).renderer.m_NumPointLightsEnabled = 0 ∧
    ((runLightCalls 8
      [.register whiteLight, .register whiteLight, .register whiteLight, .remove 0,
        .removeAll]).renderer.m_PointLights.map (fun light => light.color.x)) =
      [-1, -1, 1, -1, -1, -1, -1, -1] ∧
    (runLightCalls 8
      [.register whiteLight, .register whiteLight, .register whiteLight, .remove 0,
        .removeAll, .remove 2]).renderer.m_NumPointLightsEnabled = -1 := by
  decide

/-- C26 (the code departs from the claim). `MoveCursorToEnd` on the empty
terminal sets the cursor to -1, and `ClearStr` after one typed character
leaves the cursor at 1 behind an empty string: both break
`0 <= cursor <= length of str`. The six other editing operations keep the
invariant. -/
theorem Terminal_cursor_leaves_range :
    emptyTerminal.CursorInRange ∧
    emptyTerminal.MoveCursorToEnd = { str := [], cursor := -1 } ∧
    ¬ emptyTerminal.MoveCursorToEnd.CursorInRange ∧
    (emptyTerminal.TypeChar 'a').CursorInRange ∧
    (emptyTerminal.TypeChar 'a').ClearStr = { str := [], cursor := 1 } ∧
    ¬ (emptyTerminal.TypeChar 'a').ClearStr.CursorInRange ∧
    ∀ t : Terminal, t.CursorInRange →
      (∀ c, (t.TypeChar c).CursorInRange) ∧ t.DeleteChar.CursorInRange ∧
      t.DeleteCharInFront.CursorInRange ∧ t.MoveCursorToStart.CursorInRange ∧
      t.MoveCursorLeft.CursorInRange ∧ t.MoveCursorRight.CursorInRange := by
  refine ⟨by unfold Terminal.CursorInRange; decide, by decide,
    by unfold Terminal.CursorInRange; decide, by unfold Terminal.CursorInRange; decide,
    by decide, by unfold Terminal.CursorInRange; decide, ?_⟩
  intro t ht
  obtain ⟨h0, h1⟩ := ht
  refine ⟨?_, ?_, ?_, ?_, ?_, ?_⟩
  · intro c
    simp only [Terminal.CursorInRange, Terminal.TypeChar, List.length_append, List.length_cons,
      List.length_take, List.length_drop]
    omega
  · unfold Terminal.DeleteChar
    split_ifs with h
    · simp only [Bool.and_eq_true, decide_eq_true_eq] at h
      simp only [Terminal.CursorInRange, List.length_eraseIdx]
      split_ifs <;> omega
    · exact ⟨h0, h1⟩
  · unfold Terminal.DeleteCharInFront
    split_ifs with h
    · simp only [Terminal.CursorInRange, List.length_eraseIdx]
      split_ifs <;> omega
    · exact ⟨h0, h1⟩
  · simp only [Terminal.CursorInRange, Terminal.MoveCursorToStart]
    omega
  · unfold Terminal.MoveCursorLeft
    split_ifs with h
    · simp only [Terminal.CursorInRange]
      omega
    · exact ⟨h0, h1⟩
  · unfold Terminal.MoveCursorRight
    split_ifs with h
    · simp only [Terminal.CursorInRange]
      omega
    · exact ⟨h0, h1⟩

theorem DetachFromParent_children (objects : SceneObjects) (this ch : Nat) (hne : ch ≠ this)
    (hp : (objects this).m_Parent = some ch) :
    ((DetachFromParent objects this) this).m_Children = (objects this).m_Children := by
  have hne2 : this ≠ ch := fun e => hne e.symm
  unfold DetachFromParent
  rw [hp]
  simp only [RemoveChild]
  split_ifs with hmem
  · simp [setObject, SetParent, hne2]
  · rfl

/-- C24. `GameObject::AddChild` never adds the same child twice. If the child
is null, is the object itself or is already in `m_Children`, it returns
`nullptr` and leaves `m_Children` of the object unchanged; otherwise it
appends the child at the end, sets the parent of the child to the object and
returns the child. A children list without duplicates has none after
`AddChild`. -/
theorem AddChild_never_adds_twice (objects : SceneObjects) (this : Nat) (child : Option Nat) :
    ((child = none ∨ child = some this ∨
        ∃ ch, child = some ch ∧ ch ∈ (objects this).m_Children) →
      (AddChild objects this child).1 = none ∧
      ((AddChild objects this child).2 this).m_Children = (objects this).m_Children) ∧
    (∀ ch, child = some ch → ch ≠ this → ch ∉ (objects this).m_Children →
      (AddChild objects this child).1 = some ch ∧
      ((AddChild objects this child).2 this).m_Children = (objects this).m_Children ++ [ch] ∧
      ((AddChild objects this child).2 ch).m_Parent = some this) ∧
    ((objects this).m_Children.Nodup →
      ((AddChild objects this child).2 this).m_Children.Nodup) := by
  cases child with
  | none =>
    refine ⟨fun _ => ⟨rfl, rfl⟩, ?_, fun h => h⟩
    intro ch h
    cases h
  | some ch =>
    by_cases hself : ch = this
    · subst hself
      refine ⟨fun _ => ?_, ?_, fun h => ?_⟩
      · simp [AddChild]
      · intro c hc hne
        simp only [Option.some.injEq] at hc
        exact absurd hc.symm hne
      · simpa [AddChild] using h
    · have hkeep : ((if some ch = (objects this).m_Parent then DetachFromParent objects this
          else objects) this).m_Children = (objects this).m_Children := by
        split_ifs with hp
        · exact DetachFromParent_children objects this ch hself hp.symm
        · rfl
      have hthis : this ≠ ch := fun e => hself e.symm
      by_cases hmem : ch ∈ (objects this).m_Children
      · have hres : (AddChild objects this (some ch)).1 = none ∧
            ((AddChild objects this (some ch)).2 this).m_Children =
              (objects this).m_Children := by
          simp only [AddChild, hself, if_false, hkeep, hmem, if_true]
          exact ⟨trivial, trivial⟩
        refine ⟨fun _ => hres, ?_, fun h => ?_⟩
        · intro c hc _ hnot
          simp only [Option.some.injEq] at hc
          subst hc
          exact absurd hmem hnot
        · rw [hres.2]; exact h
      · have hres : (AddChild objects this (some ch)).1 = some ch ∧
            ((AddChild objects this (some ch)).2 this).m_Children =
              (objects this).m_Children ++ [ch] ∧
            ((AddChild objects this (some ch)).2 ch).m_Parent = some this := by
          simp only [AddChild, hself, if_false, hkeep, hmem]
          simp [SetParent, setObject, hthis, hself, hkeep]
        refine ⟨?_, ?_, fun h => ?_⟩
        · rintro (h | h | ⟨c, hc, hcm⟩)
          · cases h
          · simp only [Option.some.injEq] at h
            exact absurd h hself
          · simp only [Option.some.injEq] at hc
            subst hc
            exact absurd hcm hmem
        · intro c hc _ _
          simp only [Option.some.injEq] at hc
          subst hc
          exact hres
        · rw [hres.2.1]
          refine List.Nodup.append h (List.nodup_singleton ch) ?_
          intro a ha hb
          rw [List.mem_singleton] at hb
          exact hmem (hb ▸ ha)

/-- C27 (the code departs from the claim). In a scene of loose objects, which
is consistent, object 3 is added as a child of object 1 and then as a child
of object 2: `AddChild` does not take it out of the children of object 1, so
it is in the children lists of both objects while its parent is object 2. -/
theorem AddChild_leaves_child_with_old_parent :
    TreeConsistent looseObjects ∧
    (AddChild looseObjects 1 (some 3)).1 = some 3 ∧
    (AddChild (AddChild looseObjects 1 (some 3)).2 2 (some 3)).1 = some 3 ∧
    ((AddChild (AddChild looseObjects 1 (some 3)).2 2 (some 3)).2 1).m_Children = [3] ∧
    ((AddChild (AddChild looseObjects 1 (some 3)).2 2 (some 3)).2 2).m_Children = [3] ∧
    ((AddChild (AddChild looseObjects 1 (some 3)).2 2 (some 3)).2 3).m_Parent = some 2 ∧
    ¬ TreeConsistent (AddChild (AddChild looseObjects 1 (some 3)).2 2 (some 3)).2 := by
  have h1 : ((AddChild (AddChild looseObjects 1 (some 3)).2 2 (some 3)).2 1).m_Children = [3] := by
    decide
  have h2 : ((AddChild (AddChild looseObjects 1 (some 3)).2 2 (some 3)).2 2).m_Children = [3] := by
    decide
  refine ⟨?_, by decide, by decide, h1, h2, by decide, ?_⟩
  · refine ⟨?_, ?_⟩
    · intro p q c hc
      simp [looseObjects] at hc
    · intro p c
      simp [looseObjects]
  · intro hcons
    have := hcons.1 1 2 3 (by rw [h1]; simp) (by rw [h2]; simp)
    exact absurd this (by decide)

theorem take_indexOf_append_drop (l : List Nat) (a : Nat) (h : a ∈ l) :
    l.take (l.indexOf a) ++ a :: l.drop (l.indexOf a + 1) = l := by
  induction l with
  | nil => cases h
  | cons b rest ih =>
    by_cases hb : b = a
    · subst hb
      simp
    · have hmem : a ∈ rest := by
        rcases List.mem_cons.mp h with h1 | h1
        · exact absurd h1.symm hb
        · exact h1
      rw [List.indexOf_cons_ne _ hb]
      simp only [List.take_succ_cons, List.drop_succ_cons, List.cons_append]
      rw [ih hmem]

theorem filter_ne_of_count_one (l : List Nat) (a : Nat) (h : l.count a = 1) :
    l.filter (fun b => b != a) = l.take (l.indexOf a) ++ l.drop (l.indexOf a + 1) := by
  induction l with
  | nil => simp at h
  | cons b rest ih =>
    by_cases hb : b = a
    · subst hb
      have hc : rest.count b = 0 := by simpa using h
      have hnot : b ∉ rest := List.count_eq_zero.mp hc
      have hf : rest.filter (fun c => c != b) = rest := by
        rw [List.filter_eq_self]
        intro c hcm
        have : c ≠ b := fun e => hnot (e ▸ hcm)
        simpa using this
      simp [hf]
    · have hc : rest.count a = 1 := by
        rw [List.count_cons] at h
        have : (b == a) = false := by simpa using hb
        simpa [this] using h
      rw [List.indexOf_cons_ne _ hb]
      have : (b != a) = true := by simpa using hb
      simp only [List.filter_cons, this, if_true, List.take_succ_cons, List.drop_succ_cons,
        List.cons_append]
      rw [ih hc]

/-- C29. For a game object that has a parent and occurs exactly once in the
children list of the parent, `GetEarlierSiblings()` followed by the object
and by `GetLaterSiblings()` is the children list of the parent, in order, and
`GetAllSiblings()` is `GetEarlierSiblings()` followed by
`GetLaterSiblings()`. -/
theorem siblings_partition_children (objects : SceneObjects) (rootObjects : List Nat)
    (this parent : Nat) (hp : (objects this).m_Parent = some parent)
    (hone : (objects parent).m_Children.count this = 1) :
    GetEarlierSiblings objects rootObjects this ++
        this :: GetLaterSiblings objects rootObjects this =
      (objects parent).m_Children ∧
    GetAllSiblings objects rootObjects this =
      GetEarlierSiblings objects rootObjects this ++
        GetLaterSiblings objects rootObjects this := by
  have hmem : this ∈ (objects parent).m_Children :=
    List.count_pos_iff.mp (by omega)
  simp only [GetEarlierSiblings, GetLaterSiblings, GetAllSiblings, hp, Find]
  exact ⟨take_indexOf_append_drop _ _ hmem, filter_ne_of_count_one _ _ hone⟩

theorem siblings_partition_children_witness :
    GetEarlierSiblings familyObjects [1] 3 ++ 3 :: GetLaterSiblings familyObjects [1] 3 =
      (familyObjects 1).m_Children ∧
    GetAllSiblings familyObjects [1] 3 =
      GetEarlierSiblings familyObjects [1] 3 ++ GetLaterSiblings familyObjects [1] 3 :=
  siblings_partition_children familyObjects [1] 3 1 (by decide) (by decide)

theorem textCharLoop_spec (IsCharValid : Char → Bool) (font : FontSS) (str : List Char) :
    ∀ (writes : List Nat) (charIndex : Nat),
      textCharLoop IsCharValid font str (writes, charIndex) =
        (writes ++ List.range' charIndex (drawnInString IsCharValid font str),
          charIndex + drawnInString IsCharValid font str) := by
  induction str with
  | nil => intro writes charIndex; simp [textCharLoop, drawnInString]
  | cons c rest ih =>
    intro writes charIndex
    unfold textCharLoop
    by_cases h1 : IsCharValid c = true
    · by_cases h2 : font.metricValid c = true
      · by_cases h3 : c = ' '
        · simp only [h1, h2, h3, if_true, ih]
          simp [drawnInString, isDrawn]
        · have hd : isDrawn IsCharValid font c = true := by simp [isDrawn, h1, h2, h3]
          simp only [h1, h2, h3, if_true, if_false, ih]
          simp [drawnInString, List.filter_cons, hd, List.range'_succ, Nat.add_comm,
            Nat.add_left_comm]
      · have hd : isDrawn IsCharValid font c = false := by simp [isDrawn, h2]
        simp only [h1, h2, if_true, if_false, ih]
        simp [drawnInString, List.filter_cons, hd]
    · have hd : isDrawn IsCharValid font c = false := by simp [isDrawn, h1]
      simp only [h1, if_false, ih]
      simp [drawnInString, List.filter_cons, hd]

theorem textCacheLoop_spec (IsCharValid : Char → Bool) (font : FontSS)
    (caches : List (List Char)) :
    ∀ (writes : List Nat) (charIndex : Nat),
      textCacheLoop IsCharValid font caches (writes, charIndex) =
        (writes ++ List.range' charIndex ((caches.map (drawnInString IsCharValid font)).sum),
          charIndex + (caches.map (drawnInString IsCharValid font)).sum) := by
  induction caches with
  | nil => intro writes charIndex; simp [textCacheLoop]
  | cons str rest ih =>
    intro writes charIndex
    simp only [textCacheLoop, textCharLoop_spec, ih, List.map_cons, List.sum_cons,
      List.append_assoc, List.range'_append_1, Nat.add_assoc]
    rw [Nat.add_comm (List.map (drawnInString IsCharValid font) rest).sum]

theorem textFontLoop_spec (IsCharValid : Char → Bool) (fonts : List FontSS) :
    ∀ (writes : List Nat) (charIndex : Nat) (ranges : List (Int × Int)) (a : Int),
      Consecutive a ranges (charIndex : Int) →
      (textFontLoop IsCharValid fonts (writes, charIndex) ranges).1 =
        writes ++ List.range' charIndex ((fonts.map (drawnInFont IsCharValid)).sum) ∧
      (textFontLoop IsCharValid fonts (writes, charIndex) ranges).2.1 =
        charIndex + (fonts.map (drawnInFont IsCharValid)).sum ∧
      (textFontLoop IsCharValid fonts (writes, charIndex) ranges).2.2.map (fun r => r.2) =
        ranges.map (fun r => r.2) ++ fonts.map (fun f => (drawnInFont IsCharValid f : Int)) ∧
      Consecutive a (textFontLoop IsCharValid fonts (writes, charIndex) ranges).2.2
        ((charIndex + (fonts.map (drawnInFont IsCharValid)).sum : Nat) : Int) := by
  induction fonts with
  | nil =>
    intro writes charIndex ranges a h
    simpa [textFontLoop] using h
  | cons font rest ih =>
    intro writes charIndex ranges a h
    have hcons : Consecutive a (ranges ++ [((charIndex : Int),
        ((charIndex + drawnInFont IsCharValid font : Nat) : Int) - (charIndex : Int))])
        ((charIndex + drawnInFont IsCharValid font : Nat) : Int) := by
      clear ih
      induction ranges generalizing a with
      | nil =>
        simp only [Consecutive] at h
        simp only [List.nil_append, Consecutive]
        refine ⟨h.symm, ?_, ?_⟩ <;> push_cast <;> omega
      | cons r rs ihr =>
        obtain ⟨st, sz⟩ := r
        simp only [Consecutive] at h
        simp only [List.cons_append, Consecutive]
        exact ⟨h.1, h.2.1, ihr _ h.2.2⟩
    obtain ⟨h1, h2, h3, h4⟩ := ih
      (writes ++ List.range' charIndex (drawnInFont IsCharValid font))
      (charIndex + drawnInFont IsCharValid font)
      (ranges ++ [((charIndex : Int),
        ((charIndex + drawnInFont IsCharValid font : Nat) : Int) - (charIndex : Int))]) a hcons
    have hstep : textCacheLoop IsCharValid font font.textCaches (writes, charIndex) =
        (writes ++ List.range' charIndex (drawnInFont IsCharValid font),
          charIndex + drawnInFont IsCharValid font) :=
      textCacheLoop_spec IsCharValid font font.textCaches writes charIndex
    simp only [textFontLoop, hstep, List.map_cons, List.sum_cons]
    refine ⟨?_, ?_, ?_, ?_⟩
    · rw [h1, List.append_assoc, List.range'_append_1, Nat.add_comm]
    · rw [h2, Nat.add_assoc]
    · rw [h3]
      simp
    · rw [← Nat.add_assoc]
      exact h4

theorem foldl_add_length (l : List (List Char)) :
    ∀ total : Nat, l.foldl (fun n str => n + str.length) total =
      total + (l.map List.length).sum := by
  induction l with
  | nil => intro total; simp
  | cons str rest ih =>
    intro total
    simp only [List.foldl_cons, ih, List.map_cons, List.sum_cons, Nat.add_assoc]

theorem charCountUpperBound_eq (fonts : List FontSS) :
    charCountUpperBound fonts =
      (fonts.map (fun font => (font.textCaches.map List.length).sum)).sum := by
  have h : ∀ (l : List FontSS) (total : Nat),
      l.foldl (fun total font => font.textCaches.foldl (fun n str => n + str.length) total)
        total = total + (l.map (fun font => (font.textCaches.map List.length).sum)).sum := by
    intro l
    induction l with
    | nil => intro total; simp
    | cons font rest ih =>
      intro total
      rw [List.foldl_cons, ih, foldl_add_length, List.map_cons, List.sum_cons, Nat.add_assoc]
  simpa [charCountUpperBound] using h fonts 0

theorem drawnInFont_le (IsCharValid : Char → Bool) (font : FontSS) :
    drawnInFont IsCharValid font ≤ (font.textCaches.map List.length).sum := by
  unfold drawnInFont
  apply List.sum_le_sum
  intro str _
  exact List.length_filter_le _ _

/-- C28. `Renderer::UpdateTextBufferSS` returns exactly the number of drawn
characters (valid character, valid metric, not a space) over all cached
strings of all screen space fonts. The count does not exceed the size the
output vector is resized to, the writes go to the indices 0, 1, ... below the
returned count, in order, and so every write is in bounds. The ranges
`[bufferStart, bufferStart + bufferSize)` of the fonts follow each other from
0 to the returned count, and the size of the range of a font is the number
of its drawn characters. -/
theorem UpdateTextBufferSS_count_and_ranges (IsCharValid : Char → Bool)
    (m_FontsSS : List FontSS) :
    (UpdateTextBufferSS IsCharValid m_FontsSS).charIndex =
      (m_FontsSS.map (drawnInFont IsCharValid)).sum ∧
    (UpdateTextBufferSS IsCharValid m_FontsSS).charIndex ≤
      (UpdateTextBufferSS IsCharValid m_FontsSS).charCountUpperBound ∧
    (UpdateTextBufferSS IsCharValid m_FontsSS).charCountUpperBound =
      (m_FontsSS.map (fun font => (font.textCaches.map List.length).sum)).sum ∧
    (UpdateTextBufferSS IsCharValid m_FontsSS).writes =
      List.range (UpdateTextBufferSS IsCharValid m_FontsSS).charIndex ∧
    (∀ i ∈ (UpdateTextBufferSS IsCharValid m_FontsSS).writes,
      i < (UpdateTextBufferSS IsCharValid m_FontsSS).charCountUpperBound) ∧
    (UpdateTextBufferSS IsCharValid m_FontsSS).ranges.map (fun r => r.2) =
      m_FontsSS.map (fun font => (drawnInFont IsCharValid font : Int)) ∧
    Consecutive 0 (UpdateTextBufferSS IsCharValid m_FontsSS).ranges
      ((UpdateTextBufferSS IsCharValid m_FontsSS).charIndex : Int) := by
  obtain ⟨h1, h2, h3, h4⟩ := textFontLoop_spec IsCharValid m_FontsSS [] 0 [] 0
    (by simp [Consecutive])
  have hidx : (UpdateTextBufferSS IsCharValid m_FontsSS).charIndex =
      (m_FontsSS.map (drawnInFont IsCharValid)).sum := by
    simpa [UpdateTextBufferSS] using h2
  have hbound : (UpdateTextBufferSS IsCharValid m_FontsSS).charCountUpperBound =
      (m_FontsSS.map (fun font => (font.textCaches.map List.length).sum)).sum :=
    charCountUpperBound_eq m_FontsSS
  have hle : (UpdateTextBufferSS IsCharValid m_FontsSS).charIndex ≤
      (UpdateTextBufferSS IsCharValid m_FontsSS).charCountUpperBound := by
    rw [hidx, hbound]
    apply List.sum_le_sum
    intro font _
    exact drawnInFont_le IsCharValid font
  have hw : (UpdateTextBufferSS IsCharValid m_FontsSS).writes =
      List.range (UpdateTextBufferSS IsCharValid m_FontsSS).charIndex := by
    rw [hidx, List.range_eq_range']
    simpa [UpdateTextBufferSS] using h1
  refine ⟨hidx, hle, hbound, hw, ?_, ?_, ?_⟩
  · intro i hi
    rw [hw, List.mem_range] at hi
    omega
  · simpa [UpdateTextBufferSS] using h3
  · rw [hidx]
    simpa [UpdateTextBufferSS] using h4

theorem placeGlyph_bHorizontal (s : AtlasState) (c w h : Nat) :
    (placeGlyph s c w h).2.bHorizontal =
      if s.channel + 1 = 4 ∧ s.curPos + 1 = s.posCount then !s.bHorizontal
      else s.bHorizontal := by
  unfold placeGlyph
  simp only []
  by_cases h4 : s.channel + 1 = 4 <;> by_cases hp : s.curPos + 1 = s.posCount <;>
    cases hb : s.bHorizontal <;> simp [h4, hp, hb]

theorem placeGlyph_posCount (s : AtlasState) (c w h : Nat) :
    (placeGlyph s c w h).2.posCount =
      if s.channel + 1 = 4 ∧ s.curPos + 1 = s.posCount ∧ s.bHorizontal = true
      then s.posCount + 1 else s.posCount := by
  unfold placeGlyph
  simp only []
  by_cases h4 : s.channel + 1 = 4 <;> by_cases hp : s.curPos + 1 = s.posCount <;>
    cases hb : s.bHorizontal <;> simp [h4, hp, hb]

theorem placeGlyph_curPos (s : AtlasState) (c w h : Nat) :
    (placeGlyph s c w h).2.curPos =
      if s.channel + 1 = 4 then (if s.curPos + 1 = s.posCount then 0 else s.curPos + 1)
      else s.curPos := by
  unfold placeGlyph
  simp only []
  by_cases h4 : s.channel + 1 = 4 <;> by_cases hp : s.curPos + 1 = s.posCount <;>
    cases hb : s.bHorizontal <;> simp [h4, hp, hb]

theorem placeGlyph_startPos_same_pass (s : AtlasState) (c w h : Nat)
    (hno : ¬ (s.channel + 1 = 4 ∧ s.curPos + 1 = s.posCount)) :
    (placeGlyph s c w h).2.startPos s.channel =
      if s.bHorizontal
      then ⟨(s.startPos s.channel).x, (s.startPos s.channel).y + (h : Int)⟩
      else ⟨(s.startPos s.channel).x + (w : Int), (s.startPos s.channel).y⟩ := by
  unfold placeGlyph
  simp only []
  by_cases h4 : s.channel + 1 = 4 <;> by_cases hp : s.curPos + 1 = s.posCount <;>
    cases hb : s.bHorizontal <;> simp_all [setAt]

theorem placeGlyph_four (s : AtlasState) (hs : s.channel = 0)
    (c1 w1 h1 c2 w2 h2 c3 w3 h3 c4 w4 h4 : Nat) :
    (placeGlyph (placeGlyph (placeGlyph (placeGlyph s c1 w1 h1).2 c2 w2 h2).2 c3 w3 h3).2
      c4 w4 h4).2.channel = 0 ∧
    ((placeGlyph (placeGlyph (placeGlyph (placeGlyph s c1 w1 h1).2 c2 w2 h2).2 c3 w3 h3).2
        c4 w4 h4).2.bHorizontal,
      (placeGlyph (placeGlyph (placeGlyph (placeGlyph s c1 w1 h1).2 c2 w2 h2).2 c3 w3 h3).2
        c4 w4 h4).2.posCount,
      (placeGlyph (placeGlyph (placeGlyph (placeGlyph s c1 w1 h1).2 c2 w2 h2).2 c3 w3 h3).2
        c4 w4 h4).2.curPos) = groupStep (s.bHorizontal, s.posCount, s.curPos) := by
  have e1 : (placeGlyph s c1 w1 h1).2.channel = 1 := by rw [placeGlyph_channel, hs]; rfl
  have b1 : (placeGlyph s c1 w1 h1).2.bHorizontal = s.bHorizontal := by
    rw [placeGlyph_bHorizontal, hs]; simp
  have p1 : (placeGlyph s c1 w1 h1).2.posCount = s.posCount := by
    rw [placeGlyph_posCount, hs]; simp
  have q1 : (placeGlyph s c1 w1 h1).2.curPos = s.curPos := by
    rw [placeGlyph_curPos, hs]; simp
  generalize (placeGlyph s c1 w1 h1).2 = s1 at e1 b1 p1 q1 ⊢
  have e2 : (placeGlyph s1 c2 w2 h2).2.channel = 2 := by rw [placeGlyph_channel, e1]; rfl
  have b2 : (placeGlyph s1 c2 w2 h2).2.bHorizontal = s.bHorizontal := by
    rw [placeGlyph_bHorizontal, e1, ← b1]; simp
  have p2 : (placeGlyph s1 c2 w2 h2).2.posCount = s.posCount := by
    rw [placeGlyph_posCount, e1, ← p1]; simp
  have q2 : (placeGlyph s1 c2 w2 h2).2.curPos = s.curPos := by
    rw [placeGlyph_curPos, e1, ← q1]; simp
  generalize (placeGlyph s1 c2 w2 h2).2 = s2 at e2 b2 p2 q2 ⊢
  have e3 : (placeGlyph s2 c3 w3 h3).2.channel = 3 := by rw [placeGlyph_channel, e2]; rfl
  have b3 : (placeGlyph s2 c3 w3 h3).2.bHorizontal = s.bHorizontal := by
    rw [placeGlyph_bHorizontal, e2, ← b2]; simp
  have p3 : (placeGlyph s2 c3 w3 h3).2.posCount = s.posCount := by
    rw [placeGlyph_posCount, e2, ← p2]; simp
  have q3 : (placeGlyph s2 c3 w3 h3).2.curPos = s.curPos := by
    rw [placeGlyph_curPos, e2, ← q2]; simp
  generalize (placeGlyph s2 c3 w3 h3).2 = s3 at e3 b3 p3 q3 ⊢
  refine ⟨by rw [placeGlyph_channel, e3]; rfl, ?_⟩
  rw [placeGlyph_bHorizontal, placeGlyph_posCount, placeGlyph_curPos, e3, b3, p3, q3]
  unfold groupStep
  by_cases hp : s.curPos + 1 = s.posCount <;> cases hb : s.bHorizontal <;> simp [hp]

theorem fontLoop_groups :
    ∀ (N : Nat) (sizes : List (Nat × Nat)) (c : Nat) (s : AtlasState),
      sizes.length = 4 * N → s.channel = 0 →
      (fontLoop (sizes.map some) c s).2.channel = 0 ∧
      ((fontLoop (sizes.map some) c s).2.bHorizontal,
        (fontLoop (sizes.map some) c s).2.posCount,
        (fontLoop (sizes.map some) c s).2.curPos) =
        groupStep^[N] (s.bHorizontal, s.posCount, s.curPos) := by
  intro N
  induction N with
  | zero =>
    intro sizes c s hlen hs
    have : sizes = [] := List.length_eq_zero.mp (by omega)
    subst this
    exact ⟨hs, rfl⟩
  | succ n ih =>
    intro sizes c s hlen hs
    match sizes, hlen with
    | g1 :: g2 :: g3 :: g4 :: tl, hlen =>
      have htl : tl.length = 4 * n := by
        simp only [List.length_cons] at hlen
        omega
      obtain ⟨k1, k2⟩ := placeGlyph_four s hs c g1.1 g1.2 (c + 1) g2.1 g2.2 (c + 1 + 1)
        g3.1 g3.2 (c + 1 + 1 + 1) g4.1 g4.2
      have h := ih tl (c + 1 + 1 + 1 + 1) _ htl k1
      rw [k2] at h
      rw [Function.iterate_succ_apply]
      exact h
    | [], hlen => simp at hlen
    | [_], hlen => simp at hlen; omega
    | [_, _], hlen => simp at hlen; omega
    | [_, _, _], hlen => simp at hlen; omega

theorem groupStep_iterate (m : Nat) :
    (∀ r, r ≤ m → groupStep^[m * (m + 1) + r] (false, 1, 0) = (false, m + 1, r)) ∧
    (∀ r, r ≤ m → groupStep^[m * (m + 1) + (m + 1) + r] (false, 1, 0) = (true, m + 1, r)) := by
  have first_to_second : ∀ k : Nat,
      (∀ r, r ≤ k → groupStep^[k * (k + 1) + r] (false, 1, 0) = (false, k + 1, r)) →
      (∀ r, r ≤ k → groupStep^[k * (k + 1) + (k + 1) + r] (false, 1, 0) = (true, k + 1, r)) := by
    intro k h1 r
    induction r with
    | zero =>
      intro _
      have e : k * (k + 1) + (k + 1) + 0 = (k * (k + 1) + k) + 1 := by omega
      rw [e, Function.iterate_succ_apply', h1 k (le_refl k)]
      simp [groupStep]
    | succ r ihr =>
      intro hr
      have e : k * (k + 1) + (k + 1) + (r + 1) = (k * (k + 1) + (k + 1) + r) + 1 := by omega
      rw [e, Function.iterate_succ_apply', ihr (by omega)]
      have : r + 1 ≠ k + 1 := by omega
      simp [groupStep, this]
  have first_steps : ∀ k : Nat,
      groupStep^[k * (k + 1) + 0] (false, 1, 0) = (false, k + 1, 0) →
      ∀ r, r ≤ k → groupStep^[k * (k + 1) + r] (false, 1, 0) = (false, k + 1, r) := by
    intro k h0 r
    induction r with
    | zero => intro _; exact h0
    | succ r ihr =>
      intro hr
      have e : k * (k + 1) + (r + 1) = (k * (k + 1) + r) + 1 := by omega
      rw [e, Function.iterate_succ_apply', ihr (by omega)]
      have : r + 1 ≠ k + 1 := by omega
      simp [groupStep, this]
  induction m with
  | zero =>
    have h1 := first_steps 0 (by simp)
    exact ⟨h1, first_to_second 0 h1⟩
  | succ k ih =>
    have h0 : groupStep^[(k + 1) * (k + 1 + 1) + 0] (false, 1, 0) = (false, k + 1 + 1, 0) := by
      have e : (k + 1) * (k + 1 + 1) + 0 = (k * (k + 1) + (k + 1) + k) + 1 := by ring
      rw [e, Function.iterate_succ_apply', ih.2 k (le_refl k)]
      simp [groupStep]
    have h1 := first_steps (k + 1) h0
    exact ⟨h1, first_to_second (k + 1) h1⟩

theorem placedCharacters_length (sizes : List (Nat × Nat)) :
    ∀ c, (placedCharacters (sizes.map some) c).length = sizes.length := by
  induction sizes with
  | nil => intro c; rfl
  | cons g rest ih => intro c; simp [placedCharacters, ih]

theorem countP_range_mod_four (ch : Fin 4) :
    ∀ N : Nat, ((List.range (4 * N)).map (fun k => k % 4)).countP (fun k => k == ch.val) = N := by
  intro N
  induction N with
  | zero => simp
  | succ n ih =>
    have e : 4 * (n + 1) = 4 * n + 1 + 1 + 1 + 1 := by omega
    rw [e]
    simp only [List.range_succ, List.map_append, List.countP_append, ih, List.map_cons,
      List.map_nil, List.countP_cons, List.countP_nil]
    have m0 : 4 * n % 4 = 0 := by omega
    have m1 : (4 * n + 1) % 4 = 1 := by omega
    have m2 : (4 * n + 1 + 1) % 4 = 2 := by omega
    have m3 : (4 * n + 1 + 1 + 1) % 4 = 3 := by omega
    rw [m0, m1, m2, m3]
    fin_cases ch <;> simp

/-- C21 (the claim as stated fails). With glyphs of size 1 x 1 the direction is
top-to-bottom after the first group of four glyphs and left-to-right after
the second, and it is still left-to-right after the third group: the
direction does not flip after the third group of four. It flips after the
fourth. -/
theorem LoadFontMetrics_no_flip_after_third_group :
    (fontLoop (unitGlyphs 4) 0 AtlasState.init).2.bHorizontal = true ∧
    (fontLoop (unitGlyphs 8) 0 AtlasState.init).2.bHorizontal = false ∧
    (fontLoop (unitGlyphs 12) 0 AtlasState.init).2.bHorizontal = false ∧
    (fontLoop (unitGlyphs 16) 0 AtlasState.init).2.bHorizontal = true := by
  decide

/-- C21 (amended). In the atlas layout of `Renderer::LoadFontMetrics` a pass
lasts until all 4 channels have received `posCount` glyphs in it: the pass
direction flips after a placed glyph exactly when the glyph is the fourth of
its group and the group is the `posCount`-th of the pass
(`curPos + 1 == posCount`). Otherwise a complete group advances `curPos` by
one; a flip resets `curPos`, and `posCount` grows by one when a top-to-bottom
pass ends. The layout starts left-to-right with `posCount = 1` and
`curPos = 0`. -/
theorem placeGlyph_flips_at_pass_end (s : AtlasState) (c w h : Nat) :
    AtlasState.init.bHorizontal = false ∧ AtlasState.init.posCount = 1 ∧
    AtlasState.init.curPos = 0 ∧
    (placeGlyph s c w h).2.bHorizontal =
      (if s.channel + 1 = 4 ∧ s.curPos + 1 = s.posCount then !s.bHorizontal
        else s.bHorizontal) ∧
    (placeGlyph s c w h).2.curPos =
      (if s.channel + 1 = 4 then (if s.curPos + 1 = s.posCount then 0 else s.curPos + 1)
        else s.curPos) ∧
    (placeGlyph s c w h).2.posCount =
      (if s.channel + 1 = 4 ∧ s.curPos + 1 = s.posCount ∧ s.bHorizontal = true
        then s.posCount + 1 else s.posCount) :=
  ⟨rfl, rfl, rfl, placeGlyph_bHorizontal s c w h, placeGlyph_curPos s c w h,
    placeGlyph_posCount s c w h⟩

theorem fontLoop_first_four (a b c d : Nat × Nat) (tl : List (Option (Nat × Nat))) :
    (fontLoop (some a :: some b :: some c :: some d :: tl) 0 AtlasState.init).1.take 4 =
      [ { character := 0, width := a.1 % 65536, height := a.2 % 65536, channel := 0,
          texCoord := ⟨0, 0⟩ },
        { character := 1, width := b.1 % 65536, height := b.2 % 65536, channel := 1,
          texCoord := ⟨0, 0⟩ },
        { character := 2, width := c.1 % 65536, height := c.2 % 65536, channel := 2,
          texCoord := ⟨0, 0⟩ },
        { character := 3, width := d.1 % 65536, height := d.2 % 65536, channel := 3,
          texCoord := ⟨0, 0⟩ } ] := by
  rfl

theorem find_first_of_channel (l : List FontMetric) (m0 m1 m2 m3 : FontMetric)
    (h : l.take 4 = [m0, m1, m2, m3]) (h0 : m0.channel = 0) (h1 : m1.channel = 1)
    (h2 : m2.channel = 2) (h3 : m3.channel = 3) (ch : Fin 4) :
    ∃ mt, l.find? (fun mt => mt.channel == ch.val) = some mt ∧
      (mt = m0 ∨ mt = m1 ∨ mt = m2 ∨ mt = m3) := by
  rw [← List.take_append_drop 4 l, h]
  fin_cases ch <;> simp [List.find?, h0, h1, h2, h3]

theorem fontLoop_first_at_origin (sizes : List (Nat × Nat)) (ch : Fin 4) (mt : FontMetric)
    (h : (fontLoop (sizes.map some) 0 AtlasState.init).1.find?
      (fun mt => mt.channel == ch.val) = some mt) :
    mt.texCoord = ⟨0, 0⟩ := by
  match sizes, h with
  | a :: b :: c :: d :: tl, h =>
    obtain ⟨mt2, hfind, hor⟩ := find_first_of_channel _ _ _ _ _
      (fontLoop_first_four a b c d (tl.map some)) rfl rfl rfl rfl ch
    rw [List.map_cons, List.map_cons, List.map_cons, List.map_cons, hfind] at h
    simp only [Option.some.injEq] at h
    subst h
    rcases hor with rfl | rfl | rfl | rfl <;> rfl
  | [], h => simp [fontLoop] at h
  | [a], h =>
    have hm := List.mem_of_find?_eq_some h
    have hp := List.find?_some h
    simp only [List.map_cons, List.map_nil, fontLoop, List.mem_singleton] at hm
    subst hm
    rw [placeGlyph_metric]
    simp only [beq_iff_eq, placeGlyph_metric] at hp ⊢
    rfl
  | [a, b], h =>
    have hm := List.mem_of_find?_eq_some h
    simp only [List.map_cons, List.map_nil, fontLoop, List.mem_cons, List.mem_singleton,
      List.not_mem_nil, or_false] at hm
    rcases hm with rfl | rfl <;> rfl
  | [a, b, c], h =>
    have hm := List.mem_of_find?_eq_some h
    simp only [List.map_cons, List.map_nil, fontLoop, List.mem_cons, List.mem_singleton,
      List.not_mem_nil, or_false] at hm
    rcases hm with rfl | rfl | rfl <;> rfl

theorem placeGlyph_character (s : AtlasState) (c c2 w h : Nat) :
    (placeGlyph s c w h).2 = (placeGlyph s c2 w h).2 ∧
    ((placeGlyph s c w h).1.channel, (placeGlyph s c w h).1.texCoord) =
      ((placeGlyph s c2 w h).1.channel, (placeGlyph s c2 w h).1.texCoord) := by
  refine ⟨?_, by rw [placeGlyph_metric, placeGlyph_metric]⟩
  unfold placeGlyph
  simp only []
  split_ifs <;> rfl

theorem fontLoop_skipped (glyphs : List (Option (Nat × Nat))) :
    ∀ (c c2 : Nat) (s : AtlasState),
      (fontLoop glyphs c s).2 = (fontLoop ((glyphs.filterMap id).map some) c2 s).2 ∧
      (fontLoop glyphs c s).1.map (fun m => (m.channel, m.texCoord)) =
        (fontLoop ((glyphs.filterMap id).map some) c2 s).1.map
          (fun m => (m.channel, m.texCoord)) := by
  induction glyphs with
  | nil => intro c c2 s; exact ⟨rfl, rfl⟩
  | cons g rest ih =>
    intro c c2 s
    cases g with
    | none =>
      have h := ih (c + 1) c2 s
      simpa [fontLoop] using h
    | some wh =>
      obtain ⟨w, ht⟩ := wh
      obtain ⟨hst, hmt⟩ := placeGlyph_character s c c2 w ht
      have h := ih (c + 1) (c2 + 1) (placeGlyph s c w ht).2
      rw [hst] at h
      simp only [List.filterMap_cons, id, List.map_cons, fontLoop]
      rw [hst]
      exact ⟨h.1, by rw [h.2, hmt]⟩

theorem fontLoop_length (glyphs : List (Option (Nat × Nat))) (c : Nat) (s : AtlasState) :
    (fontLoop glyphs c s).1.length = (glyphs.filterMap id).length := by
  have h1 := congrArg List.length (fontLoop_skipped glyphs c 0 s).2
  have h2 := congrArg List.length
    (fontLoop_characters ((glyphs.filterMap id).map some) 0 s)
  rw [List.length_map, List.length_map] at h1
  rw [List.length_map, placedCharacters_length] at h2
  rw [h1, h2]

/-- C30. In the atlas layout of `Renderer::LoadFontMetrics` the passes
alternate left-to-right (`bHorizontal` false) and top-to-bottom (`bHorizontal`
true), starting with left-to-right, and the passes `2m + 1` and `2m + 2` each
place `m + 1` glyphs per channel (pass lengths 1, 1, 2, 2, 3, 3, ...): after
`m (m + 1)` complete groups of four placed glyphs, that is after `2m`
complete passes, a left-to-right pass with `posCount = m + 1` begins, and
`m + 1` groups later the top-to-bottom pass with the same `posCount`; `r`
counts the groups already placed in the running pass. Every channel then
holds as many glyphs as groups were placed, `m (m + 1)` after `2m` passes,
and the first glyph of every channel sits at `(0, 0)`. Within a pass a glyph
is put at the start position of its channel, which then moves right by the
width in a left-to-right pass and down by the height in a top-to-bottom pass.
The characters the loop skips place no glyph and change none of this. -/
theorem LoadFontMetrics_pass_lengths (m r : Nat) (second : Bool)
    (glyphs : List (Option (Nat × Nat)))
    (hr : r ≤ m)
    (hlen : (fontLoop glyphs 0 AtlasState.init).1.length =
      4 * (m * (m + 1) + (if second then m + 1 else 0) + r)) :
    (fontLoop glyphs 0 AtlasState.init).2.bHorizontal = second ∧
    (fontLoop glyphs 0 AtlasState.init).2.posCount = m + 1 ∧
    (fontLoop glyphs 0 AtlasState.init).2.curPos = r ∧
    (fontLoop glyphs 0 AtlasState.init).2.channel = 0 ∧
    (∀ ch : Fin 4,
      (fontLoop glyphs 0 AtlasState.init).1.countP (fun mt => mt.channel == ch.val) =
        m * (m + 1) + (if second then m + 1 else 0) + r) ∧
    (∀ (ch : Fin 4) (mt : FontMetric),
      (fontLoop glyphs 0 AtlasState.init).1.find? (fun mt => mt.channel == ch.val) = some mt →
      mt.texCoord = ⟨0, 0⟩) ∧
    (∀ (s : AtlasState) (c w h : Nat),
      ¬ (s.channel + 1 = 4 ∧ s.curPos + 1 = s.posCount) →
      (placeGlyph s c w h).1.texCoord = s.startPos s.channel ∧
      (placeGlyph s c w h).2.startPos s.channel =
        if s.bHorizontal
        then ⟨(s.startPos s.channel).x, (s.startPos s.channel).y + (h : Int)⟩
        else ⟨(s.startPos s.channel).x + (w : Int), (s.startPos s.channel).y⟩) := by
  obtain ⟨hst, hmt⟩ := fontLoop_skipped glyphs 0 0 AtlasState.init
  rw [fontLoop_length] at hlen
  obtain ⟨hch, hctl⟩ := fontLoop_groups _ (glyphs.filterMap id) 0 AtlasState.init hlen rfl
  have hclosed : groupStep^[m * (m + 1) + (if second then m + 1 else 0) + r] (false, 1, 0) =
      (second, m + 1, r) := by
    cases second
    · simpa using (groupStep_iterate m).1 r hr
    · simpa using (groupStep_iterate m).2 r hr
  have hinit : (AtlasState.init.bHorizontal, AtlasState.init.posCount, AtlasState.init.curPos) =
      (false, 1, 0) := rfl
  rw [hinit, hclosed] at hctl
  simp only [Prod.mk.injEq] at hctl
  rw [← hst] at hch hctl
  refine ⟨hctl.1, hctl.2.1, hctl.2.2, hch, ?_, ?_, ?_⟩
  · intro ch
    have hmap := fontLoop_channels glyphs 0 AtlasState.init (by decide)
    have hpl : (placedCharacters glyphs 0).length = (glyphs.filterMap id).length := by
      rw [← fontLoop_characters glyphs 0 AtlasState.init, List.length_map, fontLoop_length]
    rw [hpl, hlen] at hmap
    have hcount := countP_range_mod_four ch
      (m * (m + 1) + (if second then m + 1 else 0) + r)
    have hzero : (fun k => (AtlasState.init.channel + k) % 4) = (fun k => k % 4) := by
      funext k
      simp [AtlasState.init]
    rw [hzero] at hmap
    rw [← hmap, List.countP_map] at hcount
    exact hcount
  · intro ch mt h
    have hfind := congrArg (List.find? (fun p : Nat × Vec2i => p.1 == ch.val)) hmt
    rw [List.find?_map, List.find?_map] at hfind
    have hcomp : ((fun p : Nat × Vec2i => p.1 == ch.val) ∘
        fun m : FontMetric => (m.channel, m.texCoord)) = fun mt => mt.channel == ch.val := rfl
    rw [hcomp, h] at hfind
    cases hf : ((fontLoop ((glyphs.filterMap id).map some) 0 AtlasState.init).1.find?
        (fun mt => mt.channel == ch.val)) with
    | none =>
      rw [hf] at hfind
      simp at hfind
    | some mt2 =>
      rw [hf] at hfind
      simp only [Option.map_some', Option.some.injEq, Prod.mk.injEq] at hfind
      rw [hfind.2]
      exact fontLoop_first_at_origin _ ch mt2 hf
  · intro s c w h hno
    refine ⟨?_, placeGlyph_startPos_same_pass s c w h hno⟩
    rw [placeGlyph_metric]

theorem LoadFontMetrics_pass_lengths_witness :
    (fontLoop (none :: unitGlyphs 5 ++ none :: some (3, 2) :: unitGlyphs 6) 0
      AtlasState.init).2.bHorizontal = false ∧
    (fontLoop (none :: unitGlyphs 5 ++ none :: some (3, 2) :: unitGlyphs 6) 0
      AtlasState.init).2.posCount = 1 + 1 ∧
    (fontLoop (none :: unitGlyphs 5 ++ none :: some (3, 2) :: unitGlyphs 6) 0
      AtlasState.init).2.curPos = 1 ∧
    (fontLoop (none :: unitGlyphs 5 ++ none :: some (3, 2) :: unitGlyphs 6) 0
      AtlasState.init).2.channel = 0 ∧
    (∀ ch : Fin 4,
      (fontLoop (none :: unitGlyphs 5 ++ none :: some (3, 2) :: unitGlyphs 6) 0
        AtlasState.init).1.countP (fun mt => mt.channel == ch.val) =
        1 * (1 + 1) + (if false = true then 1 + 1 else 0) + 1) ∧
    (∀ (ch : Fin 4) (mt : FontMetric),
      (fontLoop (none :: unitGlyphs 5 ++ none :: some (3, 2) :: unitGlyphs 6) 0
        AtlasState.init).1.find? (fun mt => mt.channel == ch.val) = some mt →
      mt.texCoord = ⟨0, 0⟩) ∧
    (∀ (s : AtlasState) (c w h : Nat),
      ¬ (s.channel + 1 = 4 ∧ s.curPos + 1 = s.posCount) →
      (placeGlyph s c w h).1.texCoord = s.startPos s.channel ∧
      (placeGlyph s c w h).2.startPos s.channel =
        if s.bHorizontal
        then ⟨(s.startPos s.channel).x, (s.startPos s.channel).y + (h : Int)⟩
        else ⟨(s.startPos s.channel).x + (w : Int), (s.startPos s.channel).y⟩) :=
  LoadFontMetrics_pass_lengths 1 1 false
    (none :: unitGlyphs 5 ++ none :: some (3, 2) :: unitGlyphs 6) (by decide) (by decide)

end FlexEngine
